import Mathlib

/-!
# Load-balancer agent fleet coordinator

A shallow embedding of `pkg/compute/models/loadbalanceragents.go` and the
properties of its liveness test, its sync-watermark validation, its
pending-delete sweep and its cluster checks.

Conventions of the embedding

* `time.Time` is an integer count of nanoseconds since the zero instant
  (January 1, year 1, 00:00:00 UTC), so that `IsZero` is equality with `0`.
  `time.Since` is the difference of two instants, held to the range of
  `time.Duration` (about 292 years either way).
* `float64` values are dyadic rationals; an operation returns its exact result
  rounded to the nearest value of 53 binary digits, a tie going to the even
  one, which is the arithmetic of `Duration.Seconds`.
* every reading of the clock (`time.Now()`) is an explicit argument.
* a Go `error` result is an `Except`; a run-time panic (nil dereference) is
  kept apart from a returned error by the type `Fault`.
* the iteration order of a Go `map` is an explicit argument where the loop
  body can return early.
* a method with a pointer receiver that can assign to its receiver returns the
  receiver after the call, next to its error.
* the request payload of the parameter set is seen through the keys the code
  tests with `data.Contains`: an absent key is `none`.
* calls into the Go standard library (base64, templates, URLs) are fields of
  an environment `Env`.
-/

namespace LbAgent

/-! ## Time -/

/-- Instants: nanoseconds since the zero instant of `time.Time`. -/
abbrev Time := Int

/-- Number of nanoseconds in `time.Second`. -/
def Second : Int := 1000000000

/-- Go `t.IsZero()`. -/
def Time.IsZero (t : Time) : Bool := t == 0

/-- Go `t.Before(u)`. -/
def Time.Before (t u : Time) : Bool := decide (t < u)

/-- Go `t.After(u)`. -/
def Time.After (t u : Time) : Bool := decide (u < t)

/-- Go `t.Equal(u)`. -/
def Time.Equal (t u : Time) : Bool := t == u

/-- Smallest value of Go `time.Duration` (an `int64` count of nanoseconds). -/
def minDuration : Int := -9223372036854775808

/-- Largest value of Go `time.Duration`. -/
def maxDuration : Int := 9223372036854775807

/-- Go `t.Sub(u)` for wall-clock instants: the difference `t - u`, replaced by
`minDuration` or `maxDuration` when it does not fit a `time.Duration`. -/
def Time.Sub (t u : Time) : Int :=
  let d := t - u
  if d < minDuration then minDuration
  else if maxDuration < d then maxDuration
  else d

/-- Go `time.Since(t)`, that is `time.Now().Sub(t)`, the reading of the clock being `now`. -/
def Time.Since (now t : Time) : Int := Time.Sub now t

/-! ## Floating point -/

/-- A finite `float64` in the normal range, as the dyadic rational `num / 2 ^ down`.
Every value met by `Duration.Seconds` is `0` or has a magnitude between `1e-9` and `2 ^ 34`,
so that subnormal numbers, infinities and NaN do not appear. -/
structure Float64 where
  num : Int
  down : Nat
  deriving DecidableEq, Repr

/-- The rational number a `Float64` stands for. -/
def Float64.val (x : Float64) : ℚ := (x.num : ℚ) / (2 : ℚ) ^ x.down

/-- Number of binary digits of `n`, counted in at most `fuel` steps of 32, 8 or 1 digits. -/
def bitLenFuel : Nat → Nat → Nat
  | 0, _ => 0
  | fuel + 1, n =>
    if n = 0 then 0
    else if 4294967296 ≤ n then bitLenFuel fuel (n / 4294967296) + 32
    else if 256 ≤ n then bitLenFuel fuel (n / 256) + 8
    else if 2 ≤ n then bitLenFuel fuel (n / 2) + 1
    else 1

/-- Number of binary digits of `n`: `2 ^ (bitLen n - 1) ≤ n < 2 ^ bitLen n` for `n ≠ 0`. -/
def bitLen (n : Nat) : Nat := bitLenFuel n n

/-- The integer nearest to `n / d`, a tie going to the even neighbour. -/
def roundHalfEven (n d : Nat) : Nat :=
  let q := n / d
  let r := n % d
  if 2 * r < d then q
  else if d < 2 * r then q + 1
  else if q % 2 = 0 then q else q + 1

/-- IEEE 754 round-to-nearest-even of the non-negative rational `n / d` (`d ≠ 0`) to the
53 binary digits of a `float64`: the quotient is scaled by the power of two that brings it
into `[2 ^ 52, 2 ^ 53)` and then rounded to an integer. -/
def Float64.roundNat (n d : Nat) : Float64 :=
  if n = 0 then ⟨0, 0⟩
  else
    let a := bitLen n
    let b := bitLen d
    let c := if n * 2 ^ b < d * 2 ^ a then 1 else 0
    let u := 52 + b + c
    if a ≤ u then ⟨roundHalfEven (n * 2 ^ (u - a)) d, u - a⟩
    else ⟨roundHalfEven n (d * 2 ^ (a - u)) * 2 ^ (a - u), 0⟩

/-- Round-to-nearest-even of the rational `n / d` (`d ≠ 0`); the rounding is symmetric
about `0`. -/
def Float64.round (n : Int) (d : Nat) : Float64 :=
  if 0 ≤ n then Float64.roundNat n.toNat d
  else ⟨-(Float64.roundNat (-n).toNat d).num, (Float64.roundNat (-n).toNat d).down⟩

/-- Go conversion `float64(z)` of an integer: `z` itself when it has at most 53 binary
digits, the nearest `float64` otherwise. -/
def Float64.ofInt (z : Int) : Float64 := Float64.round z 1

/-- Go `x + y` on `float64`: the exact sum, rounded. -/
def Float64.add (x y : Float64) : Float64 :=
  Float64.round (x.num * 2 ^ y.down + y.num * 2 ^ x.down) (2 ^ (x.down + y.down))

/-- Go `x / y` on `float64` for `y ≠ 0`: the exact quotient, rounded. -/
def Float64.div (x y : Float64) : Float64 :=
  if 0 ≤ y.num then Float64.round (x.num * 2 ^ y.down) (y.num.toNat * 2 ^ x.down)
  else Float64.round (-(x.num * 2 ^ y.down)) ((-y.num).toNat * 2 ^ x.down)

/-- Go conversion `int(x)` of a `float64`: the fraction is discarded (truncation toward
zero). -/
def Float64.toInt (x : Float64) : Int := Int.tdiv x.num (2 ^ x.down)

/-- Go `Duration.Seconds`:
`sec := d / Second; nsec := d % Second; return float64(sec) + float64(nsec)/1e9`,
the integer division and remainder of Go truncating toward zero. -/
def Duration.Seconds (d : Int) : Float64 :=
  let sec := Int.tdiv d Second
  let nsec := Int.tmod d Second
  Float64.add (Float64.ofInt sec) (Float64.div (Float64.ofInt nsec) (Float64.ofInt 1000000000))

/-! ## Errors -/

/-- The `httperrors` constructors used by the file, with the format string and
the rendered arguments of the message. -/
inductive Error where
  | InputParameterError (fmt : String) (args : List String)
  | ConflictError (fmt : String) (args : List String)
  | GeneralError (msg : String)
  | InternalServerError (fmt : String) (args : List String)
  | NotFoundError (msg : String)
  deriving DecidableEq, Repr

/-- Abnormal ends of a call: a returned `error`, or a run-time panic. -/
inductive Fault where
  | error (e : Error)
  | panic (msg : String)
  deriving DecidableEq, Repr

/-- The rendered arguments of the message of an error; the validators put the name of
the offending field first. -/
def Error.args : Error → List String
  | .InputParameterError _ args => args
  | .ConflictError _ args => args
  | .GeneralError _ => []
  | .InternalServerError _ args => args
  | .NotFoundError _ => []

/-- The error is of the `InvalidParameter` kind. -/
def Error.isInputParameter : Error → Bool
  | .InputParameterError _ _ => true
  | _ => false

/-- The error is of the `Conflict` kind. -/
def Error.isConflict : Error → Bool
  | .ConflictError _ _ => true
  | _ => false

/-! ## Parameter blocks -/

/-- Go `SLoadbalancerAgentParamsVrrp`. -/
structure SLoadbalancerAgentParamsVrrp where
  Priority : Int
  VirtualRouterId : Int
  GarpMasterRefresh : Int
  Preempt : Bool
  Interface : String
  AdvertInt : Int
  Pass : String
  deriving DecidableEq, Repr

/-- Go `SLoadbalancerAgentParamsHaproxy`. -/
structure SLoadbalancerAgentParamsHaproxy where
  GlobalLog : String
  GlobalNbthread : Int
  LogHttp : Bool
  LogTcp : Bool
  LogNormal : Bool
  TuneHttpMaxhdr : Int
  deriving DecidableEq, Repr

/-- Go `SLoadbalancerAgentParamsTelegraf`. -/
structure SLoadbalancerAgentParamsTelegraf where
  InfluxDbOutputUrl : String
  InfluxDbOutputName : String
  InfluxDbOutputUnsafeSsl : Bool
  HaproxyInputInterval : Int
  deriving DecidableEq, Repr

/-- Go `SLoadbalancerAgentParams`. -/
structure SLoadbalancerAgentParams where
  KeepalivedConfTmpl : String
  HaproxyConfTmpl : String
  TelegrafConfTmpl : String
  Vrrp : SLoadbalancerAgentParamsVrrp
  Haproxy : SLoadbalancerAgentParamsHaproxy
  Telegraf : SLoadbalancerAgentParamsTelegraf
  deriving DecidableEq, Repr

/-! ## Agents -/

/-- The seven dependent-resource kinds: the keys of the map `men` of
`CleanPendingDeleteLoadbalancers` and of the map `keys` of `ValidateUpdateData`. -/
inductive Kind where
  | loadbalancers
  | loadbalancer_listeners
  | loadbalancer_listener_rules
  | loadbalancer_backend_groups
  | loadbalancer_backends
  | loadbalancer_acls
  | loadbalancer_certificates
  deriving DecidableEq, Repr

/-- The map key (and JSON field name) of a kind. -/
def Kind.fieldName : Kind → String
  | .loadbalancers => "loadbalancers"
  | .loadbalancer_listeners => "loadbalancer_listeners"
  | .loadbalancer_listener_rules => "loadbalancer_listener_rules"
  | .loadbalancer_backend_groups => "loadbalancer_backend_groups"
  | .loadbalancer_backends => "loadbalancer_backends"
  | .loadbalancer_acls => "loadbalancer_acls"
  | .loadbalancer_certificates => "loadbalancer_certificates"

/-- All seven kinds. -/
def Kind.all : List Kind :=
  [.loadbalancers, .loadbalancer_listeners, .loadbalancer_listener_rules,
   .loadbalancer_backend_groups, .loadbalancer_backends, .loadbalancer_acls,
   .loadbalancer_certificates]

/-- Go `SLoadbalancerAgent` (the fields the coordinator reads or writes). `Params` is a
pointer in the source: `none` is the nil pointer. -/
structure SLoadbalancerAgent where
  Id : String
  Name : String
  ClusterId : String
  Version : String
  IP : String
  HaState : String
  HbLastSeen : Time
  HbTimeout : Int
  Params : Option SLoadbalancerAgentParams
  Loadbalancers : Time
  LoadbalancerListeners : Time
  LoadbalancerListenerRules : Time
  LoadbalancerBackendGroups : Time
  LoadbalancerBackends : Time
  LoadbalancerAcls : Time
  LoadbalancerCertificates : Time
  deriving DecidableEq, Repr

/-- The stored sync timestamp of a kind: the struct field that the map `keys` of
`ValidateUpdateData` associates with the key. -/
def SLoadbalancerAgent.syncTime (lbagent : SLoadbalancerAgent) : Kind → Time
  | .loadbalancers => lbagent.Loadbalancers
  | .loadbalancer_listeners => lbagent.LoadbalancerListeners
  | .loadbalancer_listener_rules => lbagent.LoadbalancerListenerRules
  | .loadbalancer_backend_groups => lbagent.LoadbalancerBackendGroups
  | .loadbalancer_backends => lbagent.LoadbalancerBackends
  | .loadbalancer_acls => lbagent.LoadbalancerAcls
  | .loadbalancer_certificates => lbagent.LoadbalancerCertificates

/-- Go `SLoadbalancerAgent.IsActive`, the clock reading of `time.Since` being `now`.
`duration` is the `float64` returned by `Duration.Seconds`, and `int(duration)` discards
its fraction. -/
def SLoadbalancerAgent.IsActive (lbagent : SLoadbalancerAgent) (now : Time) : Bool :=
  if lbagent.HbLastSeen.IsZero then
    false
  else
    let duration := Duration.Seconds (Time.Since now lbagent.HbLastSeen)
    if duration.toInt ≥ lbagent.HbTimeout then
      false
    else
      true

/-- Go `SLoadbalancerAgent.PerformHb`, the clock reading being `now`.

* `keyV` is the outcome of the validator loop over `ip` and `ha_state` (library code, both
  optional): the error of the first validator that fails, or the validated IP address
  (`none` when `ipV.IP == nil`) and HA state (`""` when absent);
* `version` is `some s` when the payload holds a JSON string `s` under `version`;
* `updateErr` is the error of the table update, if it fails.

The result is the agent as stored by the update. -/
def SLoadbalancerAgent.PerformHb (lbagent : SLoadbalancerAgent) (now : Time)
    (version : Option String) (keyV : Except Error (Option String × String))
    (updateErr : Option Error) : Except Error SLoadbalancerAgent :=
  match keyV with
  | .error err => .error err
  | .ok (ip, haState) =>
    let lbagent := { lbagent with HbLastSeen := now }
    let lbagent :=
      match version with
      | some jVerStr => { lbagent with Version := jVerStr }
      | none => lbagent
    let lbagent :=
      match ip with
      | some addr => { lbagent with IP := addr }
      | none => lbagent
    let lbagent := if haState ≠ "" then { lbagent with HaState := haState } else lbagent
    match updateErr with
    | some err => .error err
    | none => .ok lbagent

/-! ## The pending-delete sweep -/

/-- Modelled from the spec: `agentData.GetTime(fieldName)` on the marshalled agent
(the JSON library is not part of the sources). A timestamp that was never reported is the
zero time, its field is absent from the marshalled agent and the lookup fails; a
reported timestamp is read back unchanged. -/
def SLoadbalancerAgent.GetTime (lbagent : SLoadbalancerAgent) (k : Kind) : Option Time :=
  if (lbagent.syncTime k).IsZero then none else some (lbagent.syncTime k)

/-- One row of the table of a dependent resource: the two columns the sweep
queries. `PendingDeletedAt = none` is the SQL `NULL`. -/
structure Record where
  Id : String
  PendingDeleted : Bool
  PendingDeletedAt : Option Time
  deriving DecidableEq, Repr

/-- The loop `for _, agent := range agents` of the first block of
`CleanPendingDeleteLoadbalancers`, which compacts the slice in place: `arr` is the backing
array, `idx` the position read by this iteration, `i` the position written next and `n`
the number of iterations left; at the end the slice is cut to `agents[:i]`. -/
def compactActive (now : Time) :
    Nat → Nat → Nat → List SLoadbalancerAgent → List SLoadbalancerAgent
  | 0, _, i, arr => arr.take i
  | n + 1, idx, i, arr =>
    match arr[idx]? with
    | none => arr.take i
    | some agent =>
      if !agent.IsActive now then
        compactActive now n (idx + 1) i arr
      else
        compactActive now n (idx + 1) (i + 1) (arr.set i agent)

/-- The first block of `CleanPendingDeleteLoadbalancers`: the active agents, `now` being
the clock reading of the liveness tests. -/
def activeAgents (agents : List SLoadbalancerAgent) (now : Time) : List SLoadbalancerAgent :=
  compactActive now agents.length 0 0 agents

/-- The inner loop of the sweep: starting from `now`, the minimum over the timestamps
that `GetTime` returns; an agent whose lookup fails is skipped (`continue`). -/
def minSeen (agents : List SLoadbalancerAgent) (k : Kind) (now : Time) : Time :=
  agents.foldl
    (fun minT agent =>
      match agent.GetTime k with
      | none => minT
      | some t => if minT.After t then t else minT)
    now

/-- The query `IsTrue("pending_deleted").LT("pending_deleted_at", minT)`. -/
def pendingDeletedBefore (rows : List Record) (minT : Time) : List Record :=
  rows.filter (fun r =>
    r.PendingDeleted &&
      (match r.PendingDeletedAt with
       | none => false
       | some t => decide (t < minT)))

/-- What one iteration of the loop over the kinds does. -/
inductive SweepResult where
  /-- The `continue` after the warning "no agents has reported yet". -/
  | skipped
  /-- The rows handed to the real delete, and the cut-off `minT` used. -/
  | purge (minT : Time) (rows : List Record)
  deriving DecidableEq, Repr

/-- The rows selected for hard deletion. -/
def SweepResult.selected : SweepResult → List Record
  | .skipped => []
  | .purge _ rows => rows

/-- The body of the loop `for fieldName, man := range men` of
`CleanPendingDeleteLoadbalancers`, for the kind `k`: `agents` are the active agents,
`now` the clock reading of this iteration, `rows` the table of the kind. -/
def sweepKind (agents : List SLoadbalancerAgent) (now : Time) (k : Kind)
    (rows : List Record) : SweepResult :=
  if agents.length > 0 then
    let minT := minSeen agents k now
    if minT.Equal now then
      .skipped
    else
      .purge minT (pendingDeletedBefore rows minT)
  else
    .purge now (pendingDeletedBefore rows now)

/-- Go `CleanPendingDeleteLoadbalancers`: `agents` is the result of the query for all
agents, `t0` the clock reading of the liveness filter, `now k` the clock reading of the
iteration for kind `k`, `tables k` the table of kind `k`. The kinds do not interact,
so the result is given per kind. -/
def CleanPendingDeleteLoadbalancers (agents : List SLoadbalancerAgent) (t0 : Time)
    (now : Kind → Time) (tables : Kind → List Record) (k : Kind) : SweepResult :=
  sweepKind (activeAgents agents t0) (now k) k (tables k)

/-! ## The generic update: sync-timestamp reports -/

/-- A value of a flat JSON request payload. `JSONTime t` is a JSON string in one of the
time layouts, which `GetTime` parses to the instant `t`; `JSONString s` is any other
string. -/
inductive JSONObject where
  | JSONNull
  | JSONBool (b : Bool)
  | JSONInt (n : Int)
  | JSONString (s : String)
  | JSONTime (t : Time)
  deriving DecidableEq, Repr

/-- A flat JSON dictionary, as the list of its entries. -/
abbrev JSONDict := List (String × JSONObject)

/-- Go `data.Contains(key)`. -/
def JSONDict.Contains : JSONDict → String → Bool
  | [], _ => false
  | (k, _) :: rest, key => if k = key then true else JSONDict.Contains rest key

/-- Go `data.Get(key)`. -/
def JSONDict.Get : JSONDict → String → Option JSONObject
  | [], _ => none
  | (k, v) :: rest, key => if k = key then some v else JSONDict.Get rest key

/-- Go `data.GetTime(key)`: the key must be present and its value must parse as a time. -/
def JSONDict.GetTime (data : JSONDict) (key : String) : Except String Time :=
  match data.Get key with
  | some (.JSONTime t) => .ok t
  | some _ => .error "unsupported operation"
  | none => .error "key not found"

/-- Go `data.Remove(key)`. -/
def JSONDict.Remove : JSONDict → String → JSONDict
  | [], _ => []
  | (k, v) :: rest, key =>
    if k = key then JSONDict.Remove rest key else (k, v) :: JSONDict.Remove rest key

/-- Go `data.Set(key, value)`. -/
def JSONDict.Set (data : JSONDict) (key : String) (value : JSONObject) : JSONDict :=
  JSONDict.Remove data key ++ [(key, value)]

/-- Modelled from the spec: the validator `NewNonNegativeValidator("hb_timeout").Optional(true)`
(library code of the repository, not part of the sources), after the invariant
`hbTimeoutSeconds ≥ 0`: an absent field is accepted, a present field must be a
non-negative integer, and the payload is left as it is. -/
def hbTimeoutValidator (data : JSONDict) : Except Error JSONDict :=
  match data.Get "hb_timeout" with
  | none => .ok data
  | some (.JSONInt n) =>
    if 0 ≤ n then .ok data
    else .error (.InputParameterError "%s: out of range" ["hb_timeout", toString n])
  | some _ => .error (.InputParameterError "%s: invalid type" ["hb_timeout"])

/-- The loop `for k, curValue := range keys` of `ValidateUpdateData`, over the kinds in the
order in which the map happens to be iterated; `now k` is the clock reading in the
iteration for `k`. -/
def validateSyncKeys (lbagent : SLoadbalancerAgent) (now : Kind → Time) :
    List Kind → JSONDict → Except Error JSONDict
  | [], data => .ok data
  | k :: rest, data =>
    if !data.Contains k.fieldName then
      validateSyncKeys lbagent now rest data
    else
      match data.GetTime k.fieldName with
      | .error err =>
        .error (.InputParameterError "%s: time error: %s" [k.fieldName, err])
      | .ok newValue =>
        if newValue.Before (lbagent.syncTime k) then
          validateSyncKeys lbagent now rest (data.Remove k.fieldName)
        else if newValue.After (now k) then
          .error (.InputParameterError "%s: new time is in the future: %s > %s"
            [k.fieldName, toString newValue, toString (now k)])
        else
          validateSyncKeys lbagent now rest data

/-- Go `SLoadbalancerAgent.ValidateUpdateData`: `order` is the iteration order of the map
`keys`, `now k` the clock reading of the future check of key `k`, `nowHb` the clock
reading stored under `hb_last_seen`. -/
def SLoadbalancerAgent.ValidateUpdateData (lbagent : SLoadbalancerAgent) (order : List Kind)
    (now : Kind → Time) (nowHb : Time) (data : JSONDict) : Except Error JSONDict :=
  match hbTimeoutValidator data with
  | .error err => .error err
  | .ok data =>
    match validateSyncKeys lbagent now order data with
    | .error err => .error err
    | .ok data => .ok (data.Set "hb_last_seen" (.JSONTime nowHb))

/-- Modelled from the spec: the generic update that follows a successful
`ValidateUpdateData` (framework code of the repository, not part of the sources) stores
each sync timestamp that the validated payload holds and leaves the other sync timestamps
of the agent as they are. -/
def SLoadbalancerAgent.storeSyncTimes (lbagent : SLoadbalancerAgent) (data : JSONDict) :
    SLoadbalancerAgent :=
  let upd := fun (k : Kind) =>
    match data.GetTime k.fieldName with
    | .ok t => t
    | .error _ => lbagent.syncTime k
  { lbagent with
    Loadbalancers := upd .loadbalancers
    LoadbalancerListeners := upd .loadbalancer_listeners
    LoadbalancerListenerRules := upd .loadbalancer_listener_rules
    LoadbalancerBackendGroups := upd .loadbalancer_backend_groups
    LoadbalancerBackends := upd .loadbalancer_backends
    LoadbalancerAcls := upd .loadbalancer_acls
    LoadbalancerCertificates := upd .loadbalancer_certificates }

/-! ## Cluster checks: create and parameter patch -/

/-- Go `SLoadbalancerAgentParamsVrrp.validatePeer`; the result is the `fmt.Errorf` message
of the first rule violated. -/
def SLoadbalancerAgentParamsVrrp.validatePeer (p pp : SLoadbalancerAgentParamsVrrp) :
    Except String Unit :=
  if p.Priority = pp.Priority then
    .error ("vrrp priority of peer lbagents must be different, got " ++ toString p.Priority)
  else if p.VirtualRouterId ≠ pp.VirtualRouterId then
    .error ("vrrp virtual_router_id of peer lbagents must be the same: "
      ++ toString p.VirtualRouterId ++ " != " ++ toString pp.VirtualRouterId)
  else if p.AdvertInt ≠ pp.AdvertInt then
    .error ("vrrp advert_int of peer lbagents must be the same: "
      ++ toString p.AdvertInt ++ " != " ++ toString pp.AdvertInt)
  else if p.Preempt ≠ pp.Preempt then
    .error ("vrrp preempt property of peer lbagents must be the same: "
      ++ toString p.Preempt ++ " != " ++ toString pp.Preempt)
  else if p.Pass ≠ pp.Pass then
    .error ("vrrp password of peer lbagents must be the same: " ++ p.Pass ++ " != " ++ pp.Pass)
  else
    .ok ()

/-- Go `SLoadbalancerAgentParamsVrrp.needsUpdatePeer`. -/
def SLoadbalancerAgentParamsVrrp.needsUpdatePeer (p pp : SLoadbalancerAgentParamsVrrp) : Bool :=
  if p.VirtualRouterId ≠ pp.VirtualRouterId then true
  else if p.AdvertInt ≠ pp.AdvertInt then true
  else if p.Preempt ≠ pp.Preempt then true
  else if p.Pass ≠ pp.Pass then true
  else false

/-- Go `SLoadbalancerAgentParamsVrrp.updateBy`: the receiver after the four assignments. -/
def SLoadbalancerAgentParamsVrrp.updateBy (p pp : SLoadbalancerAgentParamsVrrp) :
    SLoadbalancerAgentParamsVrrp :=
  { p with
    VirtualRouterId := pp.VirtualRouterId
    AdvertInt := pp.AdvertInt
    Preempt := pp.Preempt
    Pass := pp.Pass }

/-- Go `SLoadbalancerCluster` (the fields the coordinator reads). -/
structure SLoadbalancerCluster where
  Id : String
  Name : String
  ZoneId : String
  deriving DecidableEq, Repr

/-- The two tables the cluster checks read and write. -/
structure Tables where
  agents : List SLoadbalancerAgent
  clusters : List SLoadbalancerCluster
  deriving DecidableEq, Repr

/-- Modelled from the spec: `LoadbalancerClusterManager.getLoadbalancerAgents` (declared in a
file that is not part of the sources): the agents whose `clusterId` is the given cluster,
the query of `getByClusterId`. -/
def getLoadbalancerAgents (db : Tables) (clusterId : String) :
    Except Error (List SLoadbalancerAgent) :=
  .ok (db.agents.filter (fun lbagent => lbagent.ClusterId = clusterId))

/-- Modelled from the spec: `LoadbalancerClusterManager.FetchById` (framework code, not part
of the sources): the cluster with the given id, or a `NotFound` error. -/
def FetchById (db : Tables) (clusterId : String) : Except Error SLoadbalancerCluster :=
  match db.clusters.find? (fun cluster => cluster.Id = clusterId) with
  | some cluster => .ok cluster
  | none => .error (.NotFoundError clusterId)

/-- Modelled from the spec: `LoadbalancerClusterManager.findByVrrpRouterIdInZone` (declared in
a file that is not part of the sources): among the clusters sharing the zone, the first
one that uses the virtual router id, that is, that has an agent whose params carry it;
`none` (the nil pointer) when no cluster of the zone uses it. -/
def findByVrrpRouterIdInZone (db : Tables) (zoneId : String) (routerId : Int) :
    Except Error (Option SLoadbalancerCluster) :=
  .ok (db.clusters.find? (fun cluster =>
    cluster.ZoneId = zoneId &&
      db.agents.any (fun lbagent =>
        lbagent.ClusterId = cluster.Id &&
          (match lbagent.Params with
           | some peerParams => peerParams.Vrrp.VirtualRouterId = routerId
           | none => false))))

/-- The loop `for i := range lbagents` of `ValidateCreateData`. Reading `peerParams.Vrrp`
through a nil `Params` pointer is a run-time panic. -/
def validateCreatePeers (params : SLoadbalancerAgentParams) :
    List SLoadbalancerAgent → Except Fault Unit
  | [] => .ok ()
  | peerLbagent :: rest =>
    match peerLbagent.Params with
    | none => .error (.panic "invalid memory address or nil pointer dereference")
    | some peerParams =>
      match params.Vrrp.validatePeer peerParams.Vrrp with
      | .error err =>
        .error (.error (.ConflictError "conflict with lbagent %s(%s): %v"
          [peerLbagent.Name, peerLbagent.Id, err]))
      | .ok _ => validateCreatePeers params rest

/-- Go `SLoadbalancerAgentManager.ValidateCreateData`.

* `keyV` is the outcome of the validator loop over `hb_timeout`, `params` and `cluster`
  (library code): the error of the first validator that fails, or the validated cluster
  (`clusterV.Model`) and the validated params (`paramsV.Value`);
* `base` is the outcome of unmarshalling the input and of
  `SStandaloneResourceBaseManager.ValidateCreateData`.

The payload returned on success is not modelled. -/
def ValidateCreateData (db : Tables)
    (keyV : Except Error (SLoadbalancerCluster × SLoadbalancerAgentParams))
    (base : Except Error Unit) : Except Fault Unit :=
  match keyV with
  | .error err => .error (.error err)
  | .ok (cluster, params) =>
    match getLoadbalancerAgents db cluster.Id with
    | .error err => .error (.error (.GeneralError (toString (repr err))))
    | .ok lbagents =>
      let vrrpRouterId := params.Vrrp.VirtualRouterId
      match validateCreatePeers params lbagents with
      | .error fault => .error fault
      | .ok _ =>
        match findByVrrpRouterIdInZone db cluster.ZoneId vrrpRouterId with
        | .error err => .error (.error err)
        | .ok otherCluster =>
          match otherCluster with
          | some other =>
            if other.Id ≠ cluster.Id then
              .error (.error (.ConflictError "lbcluster %s(%s) already has virtual_router_id %d"
                [other.Name, other.Id, toString vrrpRouterId]))
            else
              match base with
              | .error err => .error (.error err)
              | .ok _ => .ok ()
          | none =>
            match base with
            | .error err => .error (.error err)
            | .ok _ => .ok ()

/-- The block "new vrrp virtual_router_id should be unique across clusters" of
`PerformParamsPatch`. -/
def patchCheckRouterId (db : Tables) (lbagent : SLoadbalancerAgent)
    (oldParams params : SLoadbalancerAgentParams) : Except Fault Unit :=
  if params.Vrrp.VirtualRouterId ≠ oldParams.Vrrp.VirtualRouterId then
    match FetchById db lbagent.ClusterId with
    | .error err => .error (.error (.GeneralError (toString (repr err))))
    | .ok cluster =>
      match findByVrrpRouterIdInZone db cluster.ZoneId params.Vrrp.VirtualRouterId with
      | .error err => .error (.error err)
      | .ok otherCluster =>
        match otherCluster with
        | some other =>
          .error (.error (.ConflictError "lbcluster %s(%s) already has virtual_router_id %d"
            [other.Name, other.Id, toString params.Vrrp.VirtualRouterId]))
        | none => .ok ()
  else
    .ok ()

/-- The loop `for i := range lbagents` of the priority block of `PerformParamsPatch`. -/
def patchCheckPeerPriorities (lbagent : SLoadbalancerAgent) (params : SLoadbalancerAgentParams) :
    List SLoadbalancerAgent → Except Fault Unit
  | [] => .ok ()
  | peerLbagent :: rest =>
    if peerLbagent.Id = lbagent.Id then
      patchCheckPeerPriorities lbagent params rest
    else
      match peerLbagent.Params with
      | none => .error (.panic "invalid memory address or nil pointer dereference")
      | some peerParams =>
        if peerParams.Vrrp.Priority = params.Vrrp.Priority then
          .error (.error (.ConflictError "peer lbagent %s(%s) already has vrrp priority %d"
            [peerLbagent.Name, peerLbagent.Id, toString params.Vrrp.Priority]))
        else
          patchCheckPeerPriorities lbagent params rest

/-- The block "new vrrp priority should be unique in the cluster" of `PerformParamsPatch`. -/
def patchCheckPriority (db : Tables) (lbagent : SLoadbalancerAgent)
    (oldParams params : SLoadbalancerAgentParams) : Except Fault Unit :=
  if params.Vrrp.Priority ≠ oldParams.Vrrp.Priority then
    match getLoadbalancerAgents db lbagent.ClusterId with
    | .error err => .error (.error (.GeneralError (toString (repr err))))
    | .ok lbagents => patchCheckPeerPriorities lbagent params lbagents
  else
    .ok ()

/-- The effect of a successful `db.Update` that assigns `Params`: the row of the agent with
the given id holds the new params. -/
def Tables.setParams (db : Tables) (id : String) (params : SLoadbalancerAgentParams) : Tables :=
  { db with
    agents := db.agents.map (fun lbagent =>
      if lbagent.Id = id then { lbagent with Params := some params } else lbagent) }

/-- The loop `for i := range lbagents` of the propagation block of `PerformParamsPatch`:
every peer other than the patched agent gets the four shared VRRP fields of `params`;
`updateErr id` is the error of the update of the row `id`, if it fails. -/
def patchUpdatePeers (lbagent : SLoadbalancerAgent) (params : SLoadbalancerAgentParams)
    (updateErr : String → Option Error) :
    List SLoadbalancerAgent → Tables → Tables × Except Fault Unit
  | [], db => (db, .ok ())
  | peerLbagent :: rest, db =>
    if lbagent.Id ≠ peerLbagent.Id then
      match peerLbagent.Params with
      | none => (db, .error (.panic "invalid memory address or nil pointer dereference"))
      | some peerParams =>
        match updateErr peerLbagent.Id with
        | some err => (db, .error (.error err))
        | none =>
          patchUpdatePeers lbagent params updateErr rest
            (db.setParams peerLbagent.Id
              { peerParams with Vrrp := peerParams.Vrrp.updateBy params.Vrrp })
    else
      patchUpdatePeers lbagent params updateErr rest db

/-- Go `SLoadbalancerAgent.PerformParamsPatch`: the tables after the call and its outcome.

* `paramsV` is the struct validator applied to the deep copy of the current params with
  the request payload (library code around `SLoadbalancerAgentParams.Validate`): an error,
  or the patched and validated params;
* `updateErr id` is the error of `db.Update` on the row `id`, if it fails. -/
def SLoadbalancerAgent.PerformParamsPatch (lbagent : SLoadbalancerAgent) (db : Tables)
    (paramsV : SLoadbalancerAgentParams → Except Error SLoadbalancerAgentParams)
    (updateErr : String → Option Error) : Tables × Except Fault Unit :=
  match lbagent.Params with
  | none => (db, .error (.panic "invalid memory address or nil pointer dereference"))
  | some oldParams =>
    match paramsV oldParams with
    | .error err => (db, .error (.error err))
    | .ok params =>
      match patchCheckRouterId db lbagent oldParams params with
      | .error fault => (db, .error fault)
      | .ok _ =>
        match patchCheckPriority db lbagent oldParams params with
        | .error fault => (db, .error fault)
        | .ok _ =>
          match updateErr lbagent.Id with
          | some err => (db, .error (.error err))
          | none =>
            let db := db.setParams lbagent.Id params
            if oldParams.Vrrp.needsUpdatePeer params.Vrrp then
              match getLoadbalancerAgents db lbagent.ClusterId with
              | .error err => (db, .error (.error (.GeneralError (toString (repr err)))))
              | .ok lbagents => patchUpdatePeers lbagent params updateErr lbagents db
            else
              (db, .ok ())

/-! ## Parameter validation and defaulting -/

/-- The collaborators of parameter validation that lie outside the file: the standard
library calls and the package-level values computed from them. -/
structure Env where
  /-- Go `base64.StdEncoding.DecodeString`: the decoded text, or the error. -/
  base64Decode : String → Except String String
  /-- Go `template.New("").Parse`: the error, if the text does not parse. -/
  templateParse : String → Option String
  /-- Go `url.Parse`: the error, if the text does not parse. -/
  urlParse : String → Option String
  /-- The URL returned by `auth.GetServiceURL("influxdb", ...)`, whose error is dropped. -/
  serviceURL : String
  /-- The value of `loadbalancerKeepalivedConfTmplDefaultEncoded`. -/
  loadbalancerKeepalivedConfTmplDefaultEncoded : String
  /-- The value of `loadbalancerHaproxyConfTmplDefaultEncoded`. -/
  loadbalancerHaproxyConfTmplDefaultEncoded : String
  /-- The value of `loadbalancerTelegrafConfTmplDefaultEncoded`. -/
  loadbalancerTelegrafConfTmplDefaultEncoded : String

/-- The keys of the request payload under `params.vrrp`: `none` is an absent key. -/
structure VrrpPayload where
  priority : Option Int
  virtual_router_id : Option Int
  garp_master_refresh : Option Int
  preempt : Option Bool
  interface : Option String
  advert_int : Option Int
  pass : Option String
  deriving DecidableEq, Repr

/-- The keys of the request payload under `params.haproxy`. -/
structure HaproxyPayload where
  global_log : Option String
  global_nbthread : Option Int
  log_http : Option Bool
  log_tcp : Option Bool
  log_normal : Option Bool
  tune_http_maxhdr : Option Int
  deriving DecidableEq, Repr

/-- The keys of the request payload under `params.telegraf`. -/
structure TelegrafPayload where
  influx_db_output_url : Option String
  influx_db_output_name : Option String
  influx_db_output_unsafe_ssl : Option Bool
  haproxy_input_interval : Option Int
  deriving DecidableEq, Repr

/-- The request payload under the key `params`, seen through the keys that the code reads:
`data.Contains("params", "vrrp", "advert_int")` is `data.vrrp.advert_int.isSome`. -/
structure ParamsPayload where
  keepalived_conf_tmpl : Option String
  haproxy_conf_tmpl : Option String
  telegraf_conf_tmpl : Option String
  vrrp : VrrpPayload
  haproxy : HaproxyPayload
  telegraf : TelegrafPayload
  deriving DecidableEq, Repr

/-- Go `SLoadbalancerAgentParamsVrrp.Validate`: the block after the call and the error
returned (`none` is `nil`). `len` of a Go string is its length in bytes. The payload
argument is not read. -/
def SLoadbalancerAgentParamsVrrp.Validate (p : SLoadbalancerAgentParamsVrrp) :
    SLoadbalancerAgentParamsVrrp × Option Error :=
  if p.Interface.utf8ByteSize = 0 ∨ p.Interface.utf8ByteSize > 16 then
    (p, some (.InputParameterError "invalid vrrp interface %q" [p.Interface]))
  else if p.Pass.utf8ByteSize = 0 ∨ p.Pass.utf8ByteSize > 8 then
    (p, some (.InputParameterError "invalid vrrp authentication pass size: %d, want [1,8]"
      [toString p.Pass.utf8ByteSize]))
  else if p.Priority < 1 ∨ p.Priority > 255 then
    (p, some (.InputParameterError "invalid vrrp priority %d: want [1,255]"
      [toString p.Priority]))
  else if p.VirtualRouterId < 1 ∨ p.VirtualRouterId > 255 then
    (p, some (.InputParameterError "invalid vrrp virtual_router_id %d: want [1,255]"
      [toString p.VirtualRouterId]))
  else
    (p, none)

/-- Go `SLoadbalancerAgentParamsVrrp.initDefault`. -/
def SLoadbalancerAgentParamsVrrp.initDefault (p : SLoadbalancerAgentParamsVrrp)
    (data : ParamsPayload) : SLoadbalancerAgentParamsVrrp :=
  let p := if !data.vrrp.advert_int.isSome then { p with AdvertInt := 1 } else p
  let p := if !data.vrrp.garp_master_refresh.isSome then { p with GarpMasterRefresh := 27 } else p
  let p := if !data.vrrp.pass.isSome then { p with Pass := "YunionLB" } else p
  p

/-- Go `SLoadbalancerAgentParamsHaproxy.Validate`: the block after the call and the error
returned. The payload argument is not read. -/
def SLoadbalancerAgentParamsHaproxy.Validate (p : SLoadbalancerAgentParamsHaproxy) :
    SLoadbalancerAgentParamsHaproxy × Option Error :=
  let p := if p.GlobalNbthread < 1 then { p with GlobalNbthread := 1 } else p
  let p := if p.GlobalNbthread > 64 then { p with GlobalNbthread := 64 } else p
  let p := if p.TuneHttpMaxhdr < 0 then { p with TuneHttpMaxhdr := 0 } else p
  let p := if p.TuneHttpMaxhdr > 32767 then { p with TuneHttpMaxhdr := 32767 } else p
  (p, none)

/-- Go `SLoadbalancerAgentParamsHaproxy.initDefault`. -/
def SLoadbalancerAgentParamsHaproxy.initDefault (p : SLoadbalancerAgentParamsHaproxy)
    (data : ParamsPayload) : SLoadbalancerAgentParamsHaproxy :=
  let p := if !data.haproxy.global_nbthread.isSome then { p with GlobalNbthread := 1 } else p
  let p :=
    if !data.haproxy.global_log.isSome then { p with GlobalLog := "log /dev/log local0 info" }
    else p
  let p := if !data.haproxy.log_http.isSome then { p with LogHttp := true } else p
  let p := if !data.haproxy.log_normal.isSome then { p with LogNormal := true } else p
  p

/-- Go `SLoadbalancerAgentParamsTelegraf.Validate`: the block after the call and the error
returned. The payload argument is not read. -/
def SLoadbalancerAgentParamsTelegraf.Validate (env : Env)
    (p : SLoadbalancerAgentParamsTelegraf) : SLoadbalancerAgentParamsTelegraf × Option Error :=
  match (if p.InfluxDbOutputUrl ≠ "" then env.urlParse p.InfluxDbOutputUrl else none) with
  | some err =>
    (p, some (.InputParameterError "telegraf params: invalid influxdb url: %s" [err]))
  | none =>
    let p := if p.HaproxyInputInterval ≤ 0 then { p with HaproxyInputInterval := 5 } else p
    let p := if p.InfluxDbOutputName = "" then { p with InfluxDbOutputName := "telegraf" } else p
    (p, none)

/-- Go `SLoadbalancerAgentParamsTelegraf.initDefault`; the payload argument is not read. -/
def SLoadbalancerAgentParamsTelegraf.initDefault (env : Env)
    (p : SLoadbalancerAgentParamsTelegraf) : SLoadbalancerAgentParamsTelegraf :=
  let p := if p.InfluxDbOutputUrl = "" then { p with InfluxDbOutputUrl := env.serviceURL } else p
  let p := if p.HaproxyInputInterval = 0 then { p with HaproxyInputInterval := 5 } else p
  let p := if p.InfluxDbOutputName = "" then { p with InfluxDbOutputName := "telegraf" } else p
  p

/-- Go `SLoadbalancerAgentParams.validateTmpl`: the error returned (`none` is `nil`). -/
def validateTmpl (env : Env) (k s : String) : Option Error :=
  match env.base64Decode s with
  | .error err => some (.InputParameterError "%s: bad base64 encoded string: %s" [k, err])
  | .ok d =>
    match env.templateParse d with
    | some err => some (.InputParameterError "%s: bad template: %s" [k, err])
    | none => none

/-- Go `SLoadbalancerAgentParams.initDefault`. -/
def SLoadbalancerAgentParams.initDefault (env : Env) (p : SLoadbalancerAgentParams)
    (data : ParamsPayload) : SLoadbalancerAgentParams :=
  let p :=
    if p.KeepalivedConfTmpl = "" then
      { p with KeepalivedConfTmpl := env.loadbalancerKeepalivedConfTmplDefaultEncoded }
    else p
  let p :=
    if p.HaproxyConfTmpl = "" then
      { p with HaproxyConfTmpl := env.loadbalancerHaproxyConfTmplDefaultEncoded }
    else p
  let p :=
    if p.TelegrafConfTmpl = "" then
      { p with TelegrafConfTmpl := env.loadbalancerTelegrafConfTmplDefaultEncoded }
    else p
  let p := { p with Vrrp := p.Vrrp.initDefault data }
  let p := { p with Haproxy := p.Haproxy.initDefault data }
  let p := { p with Telegraf := p.Telegraf.initDefault env }
  p

/-- Go `SLoadbalancerAgentParams.Validate`: the parameter set after the call and the error
returned (`none` is `nil`). -/
def SLoadbalancerAgentParams.Validate (env : Env) (p : SLoadbalancerAgentParams)
    (data : ParamsPayload) : SLoadbalancerAgentParams × Option Error :=
  let p := p.initDefault env data
  match validateTmpl env "keepalived_conf_tmpl" p.KeepalivedConfTmpl with
  | some err => (p, some err)
  | none =>
    match validateTmpl env "haproxy_conf_tmpl" p.HaproxyConfTmpl with
    | some err => (p, some err)
    | none =>
      match validateTmpl env "telegraf_conf_tmpl" p.TelegrafConfTmpl with
      | some err => (p, some err)
      | none =>
        match p.Vrrp.Validate with
        | (vrrp, some err) => ({ p with Vrrp := vrrp }, some err)
        | (vrrp, none) =>
          let p := { p with Vrrp := vrrp }
          match p.Haproxy.Validate with
          | (haproxy, some err) => ({ p with Haproxy := haproxy }, some err)
          | (haproxy, none) =>
            let p := { p with Haproxy := haproxy }
            match p.Telegraf.Validate env with
            | (telegraf, some err) => ({ p with Telegraf := telegraf }, some err)
            | (telegraf, none) => ({ p with Telegraf := telegraf }, none)

/-- Modelled from the spec: unmarshalling the payload into the parameter set (JSON library,
not part of the sources) is the explicit field overlay of the patch: a key present in the
payload sets its field, an absent key leaves the field as it is. -/
def ParamsPayload.Unmarshal (data : ParamsPayload) (p : SLoadbalancerAgentParams) :
    SLoadbalancerAgentParams :=
  { KeepalivedConfTmpl := data.keepalived_conf_tmpl.getD p.KeepalivedConfTmpl
    HaproxyConfTmpl := data.haproxy_conf_tmpl.getD p.HaproxyConfTmpl
    TelegrafConfTmpl := data.telegraf_conf_tmpl.getD p.TelegrafConfTmpl
    Vrrp :=
      { Priority := data.vrrp.priority.getD p.Vrrp.Priority
        VirtualRouterId := data.vrrp.virtual_router_id.getD p.Vrrp.VirtualRouterId
        GarpMasterRefresh := data.vrrp.garp_master_refresh.getD p.Vrrp.GarpMasterRefresh
        Preempt := data.vrrp.preempt.getD p.Vrrp.Preempt
        Interface := data.vrrp.interface.getD p.Vrrp.Interface
        AdvertInt := data.vrrp.advert_int.getD p.Vrrp.AdvertInt
        Pass := data.vrrp.pass.getD p.Vrrp.Pass }
    Haproxy :=
      { GlobalLog := data.haproxy.global_log.getD p.Haproxy.GlobalLog
        GlobalNbthread := data.haproxy.global_nbthread.getD p.Haproxy.GlobalNbthread
        LogHttp := data.haproxy.log_http.getD p.Haproxy.LogHttp
        LogTcp := data.haproxy.log_tcp.getD p.Haproxy.LogTcp
        LogNormal := data.haproxy.log_normal.getD p.Haproxy.LogNormal
        TuneHttpMaxhdr := data.haproxy.tune_http_maxhdr.getD p.Haproxy.TuneHttpMaxhdr }
    Telegraf :=
      { InfluxDbOutputUrl := data.telegraf.influx_db_output_url.getD p.Telegraf.InfluxDbOutputUrl
        InfluxDbOutputName := data.telegraf.influx_db_output_name.getD p.Telegraf.InfluxDbOutputName
        InfluxDbOutputUnsafeSsl :=
          data.telegraf.influx_db_output_unsafe_ssl.getD p.Telegraf.InfluxDbOutputUnsafeSsl
        HaproxyInputInterval :=
          data.telegraf.haproxy_input_interval.getD p.Telegraf.HaproxyInputInterval } }

/-- Modelled from the spec: the struct validator `validators.NewStructValidator("params", &params)`
(library code of the repository, not part of the sources) as `PerformParamsPatch` uses it:
the payload is overlaid on the deep copy of the current params, and the candidate is then
validated by `SLoadbalancerAgentParams.Validate` with the payload. -/
def paramsStructValidator (env : Env) (data : ParamsPayload)
    (params : SLoadbalancerAgentParams) : Except Error SLoadbalancerAgentParams :=
  match (data.Unmarshal params).Validate env data with
  | (_, some err) => .error err
  | (validated, none) => .ok validated

/-- The cluster uses the virtual router id: one of its agents carries it in its params (the
test inside `findByVrrpRouterIdInZone`). -/
def clusterUsesRouterId (db : Tables) (cluster : SLoadbalancerCluster) (routerId : Int) : Bool :=
  db.agents.any (fun lbagent =>
    lbagent.ClusterId = cluster.Id &&
      (match lbagent.Params with
       | some peerParams => peerParams.Vrrp.VirtualRouterId = routerId
       | none => false))

/-- The blob is a valid standard-base64 string whose decoded text parses as a template. -/
def Env.validBlob (env : Env) (s : String) : Bool :=
  match env.base64Decode s with
  | .error _ => false
  | .ok d => (env.templateParse d).isNone

/-! ## Sample data -/

/-- An agent of cluster `c1` that sent its last heartbeat at `hb` and reported the
timestamp `seen` for every kind (`0`: never reported). -/
def sampleAgent (id : String) (hb seen : Time) : SLoadbalancerAgent :=
  { Id := id, Name := id, ClusterId := "c1", Version := "", IP := "", HaState := "UNKNOWN",
    HbLastSeen := hb, HbTimeout := 3600, Params := none,
    Loadbalancers := seen, LoadbalancerListeners := seen, LoadbalancerListenerRules := seen,
    LoadbalancerBackendGroups := seen, LoadbalancerBackends := seen, LoadbalancerAcls := seen,
    LoadbalancerCertificates := seen }

/-- A pending-deleted row marked at instant `t`. -/
def sampleRecord (id : String) (t : Time) : Record :=
  { Id := id, PendingDeleted := true, PendingDeletedAt := some t }

/-- The stored timestamps of the sample agent are `50`; the update reports `40` for the
listeners together with `60` for the backends. -/
def staleReport : JSONDict :=
  [("loadbalancer_listeners", .JSONTime 40), ("loadbalancer_backends", .JSONTime 60)]

/-- A valid parameter set with the given VRRP priority and virtual router id. -/
def sampleParams (priority routerId : Int) : SLoadbalancerAgentParams :=
  { KeepalivedConfTmpl := "", HaproxyConfTmpl := "", TelegrafConfTmpl := "",
    Vrrp := { Priority := priority, VirtualRouterId := routerId, GarpMasterRefresh := 27,
              Preempt := false, Interface := "eth0", AdvertInt := 1, Pass := "YunionLB" },
    Haproxy := { GlobalLog := "log /dev/log local0 info", GlobalNbthread := 1, LogHttp := true,
                 LogTcp := false, LogNormal := true, TuneHttpMaxhdr := 0 },
    Telegraf := { InfluxDbOutputUrl := "", InfluxDbOutputName := "telegraf",
                  InfluxDbOutputUnsafeSsl := false, HaproxyInputInterval := 5 } }

/-- An agent of cluster `c1` with the given VRRP priority and virtual router id 5. -/
def samplePeer (id : String) (priority : Int) : SLoadbalancerAgent :=
  { sampleAgent id 0 0 with Params := some (sampleParams priority 5) }

/-- The cluster `c1` of zone `z`. -/
def sampleCluster : SLoadbalancerCluster :=
  { Id := "c1", Name := "cluster1", ZoneId := "z" }

/-- The parameter set of `sampleParams`, on another interface. -/
def sampleParamsOnEth1 (priority routerId : Int) : SLoadbalancerAgentParams :=
  { sampleParams priority routerId with
    Vrrp := { (sampleParams priority routerId).Vrrp with Interface := "eth1" } }

/-- A stand-in for the library calls: every blob decodes to itself except `"!"`, every text
parses except `"unclosed"`, every URL parses except `"::"`. -/
def sampleEnv : Env :=
  { base64Decode := fun s =>
      if s = "!" then .error "illegal base64 data at input byte 0" else .ok s
    templateParse := fun d => if d = "unclosed" then some "unclosed action" else none
    urlParse := fun u => if u = "::" then some "missing protocol scheme" else none
    serviceURL := "http://influxdb:8086"
    loadbalancerKeepalivedConfTmplDefaultEncoded := "a2VlcGFsaXZlZA=="
    loadbalancerHaproxyConfTmplDefaultEncoded := "aGFwcm94eQ=="
    loadbalancerTelegrafConfTmplDefaultEncoded := "dGVsZWdyYWY=" }

/-- The payload without any key. -/
def emptyPayload : ParamsPayload :=
  { keepalived_conf_tmpl := none, haproxy_conf_tmpl := none, telegraf_conf_tmpl := none,
    vrrp := { priority := none, virtual_router_id := none, garp_master_refresh := none,
              preempt := none, interface := none, advert_int := none, pass := none },
    haproxy := { global_log := none, global_nbthread := none, log_http := none,
                 log_tcp := none, log_normal := none, tune_http_maxhdr := none },
    telegraf := { influx_db_output_url := none, influx_db_output_name := none,
                  influx_db_output_unsafe_ssl := none, haproxy_input_interval := none } }

/-- A payload that supplies the keepalived template and the telegraf interval with their
zero values. -/
def zeroValuePayload : ParamsPayload :=
  { emptyPayload with
    keepalived_conf_tmpl := some ""
    telegraf := { emptyPayload.telegraf with haproxy_input_interval := some 0 } }

/-- A payload that supplies only the VRRP priority. -/
def priorityPayload (priority : Int) : ParamsPayload :=
  { emptyPayload with vrrp := { emptyPayload.vrrp with priority := some priority } }

/-- A stored parameter set as a create leaves it, with the given VRRP priority, virtual
router id and advertisement interval. -/
def storedParams (priority routerId advertInt : Int) : SLoadbalancerAgentParams :=
  { (sampleParams priority routerId) with
    KeepalivedConfTmpl := "a2VlcGFsaXZlZA=="
    HaproxyConfTmpl := "aGFwcm94eQ=="
    TelegrafConfTmpl := "dGVsZWdyYWY="
    Vrrp := { (sampleParams priority routerId).Vrrp with AdvertInt := advertInt }
    Telegraf := { (sampleParams priority routerId).Telegraf with
                  InfluxDbOutputUrl := "http://influxdb:8086" } }

/-- The cluster `c2` of zone `z`. -/
def sampleCluster2 : SLoadbalancerCluster :=
  { Id := "c2", Name := "cluster2", ZoneId := "z" }

/-- The tables of the end-to-end scenario: agent `a` of cluster `c1` (zone `z`) with
priority 100 and virtual router id 5; cluster `c2` of the same zone has no agent. -/
def scenarioTables : Tables :=
  { agents := [samplePeer "a" 100], clusters := [sampleCluster, sampleCluster2] }

/-- An agent of cluster `c1` with the given VRRP priority and virtual router id. -/
def samplePeerOn (id : String) (priority routerId : Int) : SLoadbalancerAgent :=
  { sampleAgent id 0 0 with Params := some (sampleParams priority routerId) }

/-- Cluster `c1` with its two agents `x` and `p`, both on the virtual router id 5. -/
def pairTables : Tables :=
  { agents := [samplePeerOn "x" 100 5, samplePeerOn "p" 200 5], clusters := [sampleCluster] }

/-- Cluster `c1` after a patch of `x` to the virtual router id 6 whose propagation to `p`
failed: `x` is on 6, `p` still on 5. -/
def mixedTables : Tables :=
  { agents := [samplePeerOn "x" 100 6, samplePeerOn "p" 200 5], clusters := [sampleCluster] }

/-- The row update fails for the agent `p` only. -/
def failOnP (id : String) : Option Error :=
  if id = "p" then some (.InternalServerError "update %s failed" [id]) else none

/-- Cluster `c1` with the agents `x`, `p` and `q` on the virtual router id 5, and an agent
`o` of another cluster. -/
def trioTables : Tables :=
  { agents := [samplePeerOn "x" 100 5, samplePeerOn "p" 200 5, samplePeerOn "q" 50 5,
               { samplePeerOn "o" 100 9 with ClusterId := "c9" }],
    clusters := [sampleCluster] }

/-- The tables `trioTables` after `x` was patched to the virtual router id 6. -/
def trioTablesPatched : Tables :=
  { agents := [samplePeerOn "x" 100 6, samplePeerOn "p" 200 6, samplePeerOn "q" 50 6,
               { samplePeerOn "o" 100 9 with ClusterId := "c9" }],
    clusters := [sampleCluster] }

/-- A stored parameter set tuned away from the defaults: advertisement interval 3,
password `s3cret`, 4 haproxy threads, no HTTP log. -/
def tunedParams : SLoadbalancerAgentParams :=
  { (storedParams 100 5 3) with
    Vrrp := { (storedParams 100 5 3).Vrrp with Pass := "s3cret" }
    Haproxy := { (storedParams 100 5 3).Haproxy with GlobalNbthread := 4, LogHttp := false } }

/-- The only agent of cluster `c1`, holding `tunedParams`. -/
def tunedAgent : SLoadbalancerAgent :=
  { sampleAgent "x" 0 0 with Params := some tunedParams }

/-- What the patch `priorityPayload 150` persists for `tunedAgent`. -/
def tunedParamsAfterPatch : SLoadbalancerAgentParams :=
  { (storedParams 150 5 1) with
    Vrrp := { (storedParams 150 5 1).Vrrp with Pass := "YunionLB" }
    Haproxy := { (storedParams 150 5 1).Haproxy with GlobalNbthread := 1, LogHttp := true } }

/-- A telegraf block as a create request without telegraf keys leaves it before
validation, with the given output URL. -/
def blankTelegraf (url : String) : SLoadbalancerAgentParamsTelegraf :=
  { InfluxDbOutputUrl := url, InfluxDbOutputName := "", InfluxDbOutputUnsafeSsl := false,
    HaproxyInputInterval := 0 }

/-- Cluster `c1` with the agent `x` (priority 100, virtual router id 5) and the agent `n`,
whose params are unset. -/
def unsetPeerTables : Tables :=
  { agents := [samplePeerOn "x" 100 5, sampleAgent "n" 0 0], clusters := [sampleCluster] }

/-- A parameter set with two defects: the haproxy template `"!"` is not base64, and the
VRRP priority `0` is out of range. -/
def brokenParams : SLoadbalancerAgentParams :=
  { (storedParams 0 5 1) with HaproxyConfTmpl := "!" }

/-- A stored parameter set whose telegraf interval was set to `7`. -/
def intervalParams : SLoadbalancerAgentParams :=
  { (storedParams 100 5 1) with
    Telegraf := { (storedParams 100 5 1).Telegraf with HaproxyInputInterval := 7 } }

/-! ## The pending-delete sweep: lemmas and claims C1 to C4 -/

theorem compactActive_eq_filter (now : Time) (orig : List SLoadbalancerAgent) (n idx i : Nat)
    (arr : List SLoadbalancerAgent) (hn : idx + n = orig.length)
    (hlen : arr.length = orig.length) (hi : i ≤ idx)
    (htake : arr.take i = (orig.take idx).filter (fun agent => agent.IsActive now))
    (hdrop : arr.drop idx = orig.drop idx) :
    compactActive now n idx i arr = orig.filter (fun agent => agent.IsActive now) := by
  induction n generalizing idx i arr with
  | zero =>
    have hidx : idx = orig.length := by omega
    simp only [compactActive, htake, hidx, List.take_length]
  | succ n ih =>
    have hlt : idx < orig.length := by omega
    have hget : arr[idx]? = some orig[idx] := by
      have h1 : (arr.drop idx)[0]? = (orig.drop idx)[0]? := by rw [hdrop]
      rw [List.getElem?_drop, List.getElem?_drop] at h1
      simpa [List.getElem?_eq_getElem hlt] using h1
    have hdrop2 : arr.drop (idx + 1) = orig.drop (idx + 1) := by
      have h1 := congrArg (List.drop 1) hdrop
      simpa [List.drop_drop, Nat.add_comm] using h1
    have htk : orig.take (idx + 1) = orig.take idx ++ [orig[idx]] := by
      rw [List.take_succ, List.getElem?_eq_getElem hlt]
      rfl
    unfold compactActive
    rw [hget]
    simp only
    by_cases hp : orig[idx].IsActive now = true
    · simp only [hp, Bool.not_true, Bool.false_eq_true, if_false]
      apply ih (idx + 1) (i + 1) (arr.set i orig[idx]) (by omega) (by simpa using hlen)
        (by omega)
      · have hi2 : i < arr.length := by omega
        rw [htk, List.filter_append, ← htake]
        simp only [List.filter_cons, hp, if_true, List.filter_nil]
        rw [List.set_eq_take_append_cons_drop, if_pos hi2, List.take_append_eq_append_take]
        have hl : (List.take i arr).length = i := by
          rw [List.length_take]; omega
        simp [hl]
      · rw [List.drop_set_of_lt _ _ (by omega)]
        exact hdrop2
    · simp only [hp, Bool.not_false, if_true]
      apply ih (idx + 1) i arr (by omega) hlen (by omega)
      · rw [htk, List.filter_append, ← htake]
        simp [List.filter_cons, hp]
      · exact hdrop2

theorem activeAgents_eq_filter (agents : List SLoadbalancerAgent) (now : Time) :
    activeAgents agents now = agents.filter (fun agent => agent.IsActive now) :=
  compactActive_eq_filter now agents agents.length 0 0 agents (by simp) rfl (le_refl _)
    (by simp) rfl

theorem mem_activeAgents (agents : List SLoadbalancerAgent) (now : Time)
    (a : SLoadbalancerAgent) :
    a ∈ activeAgents agents now ↔ a ∈ agents ∧ a.IsActive now = true := by
  rw [activeAgents_eq_filter, List.mem_filter]

theorem minSeen_nil (k : Kind) (m : Time) : minSeen [] k m = m := rfl

theorem minSeen_cons (a : SLoadbalancerAgent) (l : List SLoadbalancerAgent) (k : Kind) (m : Time) :
    minSeen (a :: l) k m =
      minSeen l k (match a.GetTime k with
        | none => m
        | some t => if m.After t then t else m) := by
  simp [minSeen, List.foldl_cons]

theorem minSeen_le_init (l : List SLoadbalancerAgent) (k : Kind) (m : Time) :
    minSeen l k m ≤ m := by
  induction l generalizing m with
  | nil => simp [minSeen_nil]
  | cons a l ih =>
    rw [minSeen_cons]
    cases h : a.GetTime k with
    | none => simpa using ih m
    | some t =>
      simp only [Time.After]
      by_cases hlt : t < m
      · simp only [hlt, decide_True, if_true]
        exact le_trans (ih t) (le_of_lt hlt)
      · simp only [hlt, decide_False]
        exact ih m

theorem minSeen_le_of_mem (l : List SLoadbalancerAgent) (k : Kind) (m : Time)
    (a : SLoadbalancerAgent) (T : Time) (ha : a ∈ l) (hT : a.GetTime k = some T) :
    minSeen l k m ≤ T := by
  induction l generalizing m with
  | nil => cases ha
  | cons b l ih =>
    rw [minSeen_cons]
    rcases List.mem_cons.mp ha with rfl | hmem
    · rw [hT]
      simp only [Time.After]
      by_cases hlt : T < m
      · simp only [hlt, decide_True, if_true]
        exact minSeen_le_init l k T
      · simp only [hlt, decide_False]
        exact le_trans (minSeen_le_init l k m) (not_lt.mp hlt)
    · exact ih _ hmem

theorem minSeen_eq_init_or_mem (l : List SLoadbalancerAgent) (k : Kind) (m : Time) :
    minSeen l k m = m ∨ ∃ a ∈ l, a.GetTime k = some (minSeen l k m) := by
  induction l generalizing m with
  | nil => left; rfl
  | cons b l ih =>
    rw [minSeen_cons]
    cases h : b.GetTime k with
    | none =>
      rcases ih m with h1 | ⟨a, ha, h2⟩
      · left; simpa using h1
      · right; exact ⟨a, List.mem_cons_of_mem _ ha, by simpa using h2⟩
    | some t =>
      simp only [Time.After]
      by_cases hlt : t < m
      · simp only [hlt, decide_True, if_true]
        rcases ih t with h1 | ⟨a, ha, h2⟩
        · right; exact ⟨b, List.mem_cons_self _ _, by rw [h1]; exact h⟩
        · right; exact ⟨a, List.mem_cons_of_mem _ ha, h2⟩
      · simp only [hlt, decide_False]
        rcases ih m with h1 | ⟨a, ha, h2⟩
        · left; simpa using h1
        · right; exact ⟨a, List.mem_cons_of_mem _ ha, by simpa using h2⟩

theorem mem_pendingDeletedBefore (rows : List Record) (minT : Time) (r : Record) :
    r ∈ pendingDeletedBefore rows minT ↔
      r ∈ rows ∧ r.PendingDeleted = true ∧ ∃ t, r.PendingDeletedAt = some t ∧ t < minT := by
  unfold pendingDeletedBefore
  rw [List.mem_filter]
  cases h : r.PendingDeletedAt with
  | none => simp
  | some t => simp


theorem sweepKind_nil (now : Time) (k : Kind) (rows : List Record) :
    sweepKind [] now k rows = .purge now (pendingDeletedBefore rows now) := by
  simp [sweepKind]

theorem sweepKind_of_ne_nil (agents : List SLoadbalancerAgent) (now : Time) (k : Kind)
    (rows : List Record) (hne : agents ≠ []) :
    sweepKind agents now k rows =
      if minSeen agents k now = now then .skipped
      else .purge (minSeen agents k now) (pendingDeletedBefore rows (minSeen agents k now)) := by
  have hpos : agents.length > 0 := List.length_pos.mpr hne
  simp only [sweepKind, if_pos hpos, Time.Equal, beq_iff_eq]

theorem mem_selected_sweepKind (agents : List SLoadbalancerAgent) (now : Time) (k : Kind)
    (rows : List Record) (r : Record) :
    r ∈ (sweepKind agents now k rows).selected ↔
      (agents = [] ∨ minSeen agents k now ≠ now) ∧
        r ∈ pendingDeletedBefore rows (minSeen agents k now) := by
  by_cases hne : agents = []
  · subst hne
    simp [sweepKind_nil, SweepResult.selected, minSeen_nil]
  · rw [sweepKind_of_ne_nil agents now k rows hne]
    by_cases heq : minSeen agents k now = now
    · simp [heq, hne, SweepResult.selected]
    · simp [heq, SweepResult.selected]

/-- C1: in every sweep and for every kind `k`, when an active agent has reported the
sync timestamp `T` for `k`, no record of kind `k` whose `pendingDeletedAt` is at or after
`T` is among the rows selected for hard deletion. -/
theorem sweep_keeps_records_not_before_reported_watermark
    (agents : List SLoadbalancerAgent) (t0 : Time) (now : Kind → Time)
    (tables : Kind → List Record) (k : Kind) (a : SLoadbalancerAgent) (T : Time)
    (r : Record) (tr : Time)
    (ha : a ∈ agents) (hact : a.IsActive t0 = true) (hT : a.GetTime k = some T)
    (hr : r.PendingDeletedAt = some tr) (hge : T ≤ tr) :
    r ∉ (CleanPendingDeleteLoadbalancers agents t0 now tables k).selected := by
  have hmem : a ∈ activeAgents agents t0 := (mem_activeAgents agents t0 a).mpr ⟨ha, hact⟩
  have hle : minSeen (activeAgents agents t0) k (now k) ≤ T :=
    minSeen_le_of_mem _ k _ a T hmem hT
  unfold CleanPendingDeleteLoadbalancers
  rw [mem_selected_sweepKind, mem_pendingDeletedBefore]
  rintro ⟨_, _, _, t, ht, hlt⟩
  rw [hr] at ht
  cases ht
  exact absurd (lt_of_lt_of_le hlt (le_trans hle hge)) (lt_irrefl _)

/-- C1 witness: one active agent that reported `50`, a record marked at `50`. -/
theorem sweep_keeps_records_not_before_reported_watermark_witness :
    sampleRecord "r" 50 ∉
      (CleanPendingDeleteLoadbalancers [sampleAgent "a" 90 50] 100 (fun _ => 100)
        (fun _ => [sampleRecord "r" 50]) Kind.loadbalancers).selected :=
  sweep_keeps_records_not_before_reported_watermark [sampleAgent "a" 90 50] 100 (fun _ => 100)
    (fun _ => [sampleRecord "r" 50]) Kind.loadbalancers (sampleAgent "a" 90 50) 50
    (sampleRecord "r" 50) 50 (by simp) (by decide) (by decide) rfl (le_refl _)


/-- C2 (as stated) fails: agent `a` is active and never reported `loadbalancers`, agent
`b` is active and reported `50`; the sweep at `100` still selects the record marked at
`10`. -/
theorem sweep_purges_despite_unreported_agent :
    sampleAgent "a" 90 0 ∈ activeAgents [sampleAgent "a" 90 0, sampleAgent "b" 90 50] 100 ∧
    (sampleAgent "a" 90 0).GetTime Kind.loadbalancers = none ∧
    (CleanPendingDeleteLoadbalancers [sampleAgent "a" 90 0, sampleAgent "b" 90 50] 100
        (fun _ => 100) (fun _ => [sampleRecord "r" 10]) Kind.loadbalancers).selected
      = [sampleRecord "r" 10] := by
  decide

/-- C2 (amended): in every sweep with a non-empty set of active agents, when every active
agent has never reported a sync timestamp for `k`, the kind is skipped and no record of
kind `k` is selected for hard deletion. -/
theorem sweep_skips_kind_when_no_active_agent_reported
    (agents : List SLoadbalancerAgent) (t0 : Time) (now : Kind → Time)
    (tables : Kind → List Record) (k : Kind)
    (hne : activeAgents agents t0 ≠ [])
    (hnone : ∀ a ∈ activeAgents agents t0, a.GetTime k = none) :
    CleanPendingDeleteLoadbalancers agents t0 now tables k = SweepResult.skipped ∧
      (CleanPendingDeleteLoadbalancers agents t0 now tables k).selected = [] := by
  have hmin : minSeen (activeAgents agents t0) k (now k) = now k := by
    rcases minSeen_eq_init_or_mem (activeAgents agents t0) k (now k) with h | ⟨a, ha, h⟩
    · exact h
    · rw [hnone a ha] at h
      cases h
  have hres : CleanPendingDeleteLoadbalancers agents t0 now tables k = SweepResult.skipped := by
    unfold CleanPendingDeleteLoadbalancers
    rw [sweepKind_of_ne_nil _ _ _ _ hne, if_pos hmin]
  exact ⟨hres, by rw [hres]; rfl⟩

/-- C2 (amended) witness: a single active agent that never reported. -/
theorem sweep_skips_kind_when_no_active_agent_reported_witness :
    CleanPendingDeleteLoadbalancers [sampleAgent "a" 90 0] 100 (fun _ => 100)
        (fun _ => [sampleRecord "r" 10]) Kind.loadbalancers = SweepResult.skipped ∧
      (CleanPendingDeleteLoadbalancers [sampleAgent "a" 90 0] 100 (fun _ => 100)
        (fun _ => [sampleRecord "r" 10]) Kind.loadbalancers).selected = [] :=
  sweep_skips_kind_when_no_active_agent_reported [sampleAgent "a" 90 0] 100 (fun _ => 100)
    (fun _ => [sampleRecord "r" 10]) Kind.loadbalancers (by decide) (by decide)

/-- C3 (as stated) fails: the only active agent reported `100`, so `W = 100`; the sweep
reads the clock at `100` and skips the kind, although the record marked at `50` is
pending-deleted with `50 < W`. -/
theorem sweep_skips_when_watermark_equals_clock :
    activeAgents [sampleAgent "a" 90 100] 100 ≠ [] ∧
    (∀ a ∈ activeAgents [sampleAgent "a" 90 100] 100,
        ∃ t, a.GetTime Kind.loadbalancers = some t ∧ 100 ≤ t) ∧
    (∃ a ∈ activeAgents [sampleAgent "a" 90 100] 100,
        a.GetTime Kind.loadbalancers = some 100) ∧
    ¬ (∀ r, r ∈ (CleanPendingDeleteLoadbalancers [sampleAgent "a" 90 100] 100 (fun _ => 100)
              (fun _ => [sampleRecord "r" 50]) Kind.loadbalancers).selected ↔
          (r ∈ [sampleRecord "r" 50] ∧ r.PendingDeleted = true ∧
            ∃ t, r.PendingDeletedAt = some t ∧ t < 100)) := by
  refine ⟨by decide, by decide, by decide, ?_⟩
  intro h
  have h1 := (h (sampleRecord "r" 50)).mpr ⟨by simp, rfl, 50, rfl, by decide⟩
  revert h1
  decide

/-- C3 (amended): in every sweep in which the set `A` of active agents is non-empty, every
agent of `A` has reported a sync timestamp for `k`, and the minimum `W` of these timestamps
(a lower bound of them that one agent of `A` attains) is earlier than the clock reading of
the sweep, the records of kind `k` selected for hard deletion are exactly those with
`pendingDeleted = true` and `pendingDeletedAt < W`. -/
theorem sweep_selects_exactly_records_before_min_watermark
    (agents : List SLoadbalancerAgent) (t0 : Time) (now : Kind → Time)
    (tables : Kind → List Record) (k : Kind) (W : Time)
    (hall : ∀ a ∈ activeAgents agents t0, ∃ t, a.GetTime k = some t ∧ W ≤ t)
    (hW : ∃ a ∈ activeAgents agents t0, a.GetTime k = some W)
    (hlt : W < now k) (r : Record) :
    r ∈ (CleanPendingDeleteLoadbalancers agents t0 now tables k).selected ↔
      (r ∈ tables k ∧ r.PendingDeleted = true ∧
        ∃ t, r.PendingDeletedAt = some t ∧ t < W) := by
  have hmin : minSeen (activeAgents agents t0) k (now k) = W := by
    obtain ⟨a, ha, haW⟩ := hW
    have h1 : minSeen (activeAgents agents t0) k (now k) ≤ W :=
      minSeen_le_of_mem _ k _ a W ha haW
    rcases minSeen_eq_init_or_mem (activeAgents agents t0) k (now k) with h | ⟨b, hb, h⟩
    · rw [h] at h1
      exact absurd (lt_of_lt_of_le hlt h1) (lt_irrefl _)
    · obtain ⟨t, ht, hWt⟩ := hall b hb
      rw [ht] at h
      cases h
      exact le_antisymm h1 hWt
  unfold CleanPendingDeleteLoadbalancers
  rw [mem_selected_sweepKind, hmin, mem_pendingDeletedBefore]
  constructor
  · rintro ⟨_, h⟩
    exact h
  · intro h
    exact ⟨Or.inr (ne_of_lt hlt), h⟩

/-- C3 (amended) witness: two active agents that reported `50` and `70`, clock at `100`. -/
theorem sweep_selects_exactly_records_before_min_watermark_witness :
    sampleRecord "r" 10 ∈
        (CleanPendingDeleteLoadbalancers [sampleAgent "a" 90 70, sampleAgent "b" 90 50] 100
          (fun _ => 100) (fun _ => [sampleRecord "r" 10]) Kind.loadbalancers).selected ↔
      (sampleRecord "r" 10 ∈ [sampleRecord "r" 10] ∧ (sampleRecord "r" 10).PendingDeleted = true ∧
        ∃ t, (sampleRecord "r" 10).PendingDeletedAt = some t ∧ t < 50) :=
  sweep_selects_exactly_records_before_min_watermark
    [sampleAgent "a" 90 70, sampleAgent "b" 90 50] 100 (fun _ => 100)
    (fun _ => [sampleRecord "r" 10]) Kind.loadbalancers 50 (by decide) (by decide)
    (by decide) (sampleRecord "r" 10)

/-- C4 (as stated) fails: no agent at all, the sweep reads the clock at `100`, and the
pending-deleted record marked at `100` is not selected. -/
theorem sweep_without_agents_keeps_record_marked_at_clock :
    activeAgents [] 100 = [] ∧
    sampleRecord "r" 100 ∈ [sampleRecord "r" 100] ∧
    (sampleRecord "r" 100).PendingDeleted = true ∧
    sampleRecord "r" 100 ∉
      (CleanPendingDeleteLoadbalancers [] 100 (fun _ => 100)
        (fun _ => [sampleRecord "r" 100]) Kind.loadbalancers).selected := by
  decide

/-- C4 (amended): when no agent is active at sweep time, the records of kind `k` selected
for hard deletion are exactly those with `pendingDeleted = true` and `pendingDeletedAt`
earlier than the clock reading of the sweep. -/
theorem sweep_without_active_agents_selects_all_before_clock
    (agents : List SLoadbalancerAgent) (t0 : Time) (now : Kind → Time)
    (tables : Kind → List Record) (k : Kind)
    (hnil : activeAgents agents t0 = []) (r : Record) :
    r ∈ (CleanPendingDeleteLoadbalancers agents t0 now tables k).selected ↔
      (r ∈ tables k ∧ r.PendingDeleted = true ∧
        ∃ t, r.PendingDeletedAt = some t ∧ t < now k) := by
  unfold CleanPendingDeleteLoadbalancers
  rw [hnil, sweepKind_nil]
  simp only [SweepResult.selected]
  rw [mem_pendingDeletedBefore]

/-- C4 (amended) witness: the only agent never sent a heartbeat. -/
theorem sweep_without_active_agents_selects_all_before_clock_witness :
    sampleRecord "r" 10 ∈
        (CleanPendingDeleteLoadbalancers [sampleAgent "a" 0 50] 100 (fun _ => 100)
          (fun _ => [sampleRecord "r" 10]) Kind.loadbalancers).selected ↔
      (sampleRecord "r" 10 ∈ [sampleRecord "r" 10] ∧ (sampleRecord "r" 10).PendingDeleted = true ∧
        ∃ t, (sampleRecord "r" 10).PendingDeletedAt = some t ∧ t < 100) :=
  sweep_without_active_agents_selects_all_before_clock [sampleAgent "a" 0 50] 100
    (fun _ => 100) (fun _ => [sampleRecord "r" 10]) Kind.loadbalancers (by decide)
    (sampleRecord "r" 10)


/-! ## Floating point: lemmas -/


theorem bitLenFuel_spec (fuel : Nat) : ∀ n : Nat, n ≤ fuel → n ≠ 0 →
    ∃ r, bitLenFuel fuel n = r + 1 ∧ 2 ^ r ≤ n ∧ n < 2 ^ (r + 1) := by
  induction fuel with
  | zero => intro n h hn; omega
  | succ fuel ih =>
    intro n h hn
    have step : ∀ j : Nat, 1 ≤ j → 2 ^ j ≤ n →
        ∃ r, bitLenFuel fuel (n / 2 ^ j) + j = r + 1 ∧ 2 ^ r ≤ n ∧ n < 2 ^ (r + 1) := by
      intro j hj hle
      have hpos : 0 < 2 ^ j := Nat.pow_pos (by decide)
      have h2 : 2 ≤ 2 ^ j := by
        calc 2 = 2 ^ 1 := by norm_num
          _ ≤ 2 ^ j := Nat.pow_le_pow_right (by decide) hj
      have hdiv : n / 2 ^ j ≤ fuel := by
        have : n / 2 ^ j ≤ n / 2 := Nat.div_le_div_left h2 (by decide)
        omega
      have hne : n / 2 ^ j ≠ 0 := by
        have := Nat.div_pos hle hpos
        omega
      obtain ⟨r, hr, hlo, hhi⟩ := ih (n / 2 ^ j) hdiv hne
      refine ⟨r + j, by omega, ?_, ?_⟩
      · rw [pow_add]
        calc 2 ^ r * 2 ^ j ≤ n / 2 ^ j * 2 ^ j := Nat.mul_le_mul_right _ hlo
          _ ≤ n := Nat.div_mul_le_self n (2 ^ j)
      · have h3 : n < 2 ^ (r + 1) * 2 ^ j := (Nat.div_lt_iff_lt_mul hpos).mp hhi
        rw [← pow_add] at h3
        have : r + 1 + j = r + j + 1 := by omega
        rw [this] at h3
        exact h3
    unfold bitLenFuel
    rw [if_neg hn]
    by_cases h32 : 4294967296 ≤ n
    · rw [if_pos h32]
      exact step 32 (by decide) h32
    · rw [if_neg h32]
      by_cases h8 : 256 ≤ n
      · rw [if_pos h8]
        exact step 8 (by decide) h8
      · rw [if_neg h8]
        by_cases h1 : 2 ≤ n
        · rw [if_pos h1]
          exact step 1 (by decide) h1
        · rw [if_neg h1]
          exact ⟨0, rfl, by omega, by omega⟩

theorem bitLen_spec (n : Nat) (hn : n ≠ 0) :
    ∃ r, bitLen n = r + 1 ∧ 2 ^ r ≤ n ∧ n < 2 ^ (r + 1) :=
  bitLenFuel_spec n n (le_refl n) hn

theorem roundHalfEven_ge (n d k : Nat) (hd : 0 < d) (h : k * d ≤ n) :
    k ≤ roundHalfEven n d := by
  have hq : k ≤ n / d := (Nat.le_div_iff_mul_le hd).mpr h
  unfold roundHalfEven
  simp only
  split_ifs <;> omega

theorem roundHalfEven_le (n d k : Nat) (hd : 0 < d) (h : n ≤ k * d) :
    roundHalfEven n d ≤ k := by
  have hdm : d * (n / d) + n % d = n := Nat.div_add_mod n d
  have hq : n / d ≤ k := by
    calc n / d ≤ k * d / d := Nat.div_le_div_right h
      _ = k := Nat.mul_div_cancel k hd
  have hlt : n % d < d := Nat.mod_lt n hd
  have hstrict : 0 < n % d → n / d < k := by
    intro hr
    by_contra hcon
    have hk : k = n / d := by omega
    rw [hk] at h
    have : n / d * d = d * (n / d) := Nat.mul_comm _ _
    omega
  unfold roundHalfEven
  simp only
  split_ifs with h1 h2 h3
  · exact hq
  · have := hstrict (by omega); omega
  · exact hq
  · have := hstrict (by omega); omega

theorem roundHalfEven_prec (n d : Nat) (hd : 0 < d) :
    2 * (roundHalfEven n d * d) ≤ 2 * n + d := by
  have hdm : d * (n / d) + n % d = n := Nat.div_add_mod n d
  have hc : n / d * d = d * (n / d) := Nat.mul_comm _ _
  unfold roundHalfEven
  simp only
  split_ifs with h1 h2 h3
  · omega
  · rw [Nat.add_mul]; omega
  · omega
  · rw [Nat.add_mul]; omega

theorem roundHalfEven_zero (d : Nat) (hd : 0 < d) : roundHalfEven 0 d = 0 :=
  Nat.le_zero.mp (roundHalfEven_le 0 d 0 hd (by simp))

theorem roundNat_eq (n d : Nat) (hd : 0 < d) (hr : n < 2 ^ 52 * d) :
    ∃ s, Float64.roundNat n d = ⟨(roundHalfEven (n * 2 ^ s) d : Nat), s⟩ ∧
      (n ≠ 0 → 2 ^ 52 * d ≤ n * 2 ^ s) := by
  by_cases hn : n = 0
  · refine ⟨0, ?_, fun h => absurd hn h⟩
    subst hn
    simp [Float64.roundNat, roundHalfEven_zero d hd]
  · obtain ⟨ra, hra, hra1, hra2⟩ := bitLen_spec n hn
    obtain ⟨rb, hrb, hrb1, hrb2⟩ := bitLen_spec d (by omega)
    have hA : 0 < 2 ^ ra := Nat.pow_pos (by decide)
    have hlt : 2 ^ ra < 2 ^ (53 + rb) := by
      calc 2 ^ ra ≤ n := hra1
        _ < 2 ^ 52 * d := hr
        _ < 2 ^ 52 * 2 ^ (rb + 1) := Nat.mul_lt_mul_of_pos_left hrb2 (by positivity)
        _ = 2 ^ (53 + rb) := by rw [← pow_add]; congr 1; omega
    have hle : ra < 53 + rb := (Nat.pow_lt_pow_iff_right (by decide)).mp hlt
    by_cases hc : n * 2 ^ (rb + 1) < d * 2 ^ (ra + 1)
    · refine ⟨53 + rb - ra, ?_, fun _ => ?_⟩
      · simp only [Float64.roundNat, if_neg hn, hra, hrb, if_pos hc]
        have h1 : ra + 1 ≤ 52 + (rb + 1) + 1 := by omega
        have h2 : 52 + (rb + 1) + 1 - (ra + 1) = 53 + rb - ra := by omega
        rw [if_pos h1, h2]
      · have hS : 2 ^ (53 + rb - ra) * 2 ^ ra = 2 ^ 53 * 2 ^ rb := by
          rw [← pow_add, ← pow_add]; congr 1; omega
        apply Nat.le_of_mul_le_mul_right _ hA
        calc 2 ^ 52 * d * 2 ^ ra ≤ 2 ^ 52 * d * n := Nat.mul_le_mul_left _ hra1
          _ = n * 2 ^ 52 * d := by ring
          _ ≤ n * 2 ^ 52 * 2 ^ (rb + 1) := Nat.mul_le_mul_left _ (le_of_lt hrb2)
          _ = n * (2 ^ 53 * 2 ^ rb) := by ring
          _ = n * 2 ^ (53 + rb - ra) * 2 ^ ra := by rw [← hS]; ring
    · refine ⟨52 + rb - ra, ?_, fun _ => ?_⟩
      · simp only [Float64.roundNat, if_neg hn, hra, hrb, if_neg hc]
        have h1 : ra + 1 ≤ 52 + (rb + 1) + 0 := by omega
        have h2 : 52 + (rb + 1) + 0 - (ra + 1) = 52 + rb - ra := by omega
        rw [if_pos h1, h2]
      · have hS : 2 ^ (52 + rb - ra) * 2 ^ ra = 2 ^ 52 * 2 ^ rb := by
          rw [← pow_add, ← pow_add]; congr 1; omega
        have hc2 : d * 2 ^ ra ≤ n * 2 ^ rb := by
          have := Nat.le_of_not_lt hc
          rw [pow_succ, pow_succ, ← Nat.mul_assoc, ← Nat.mul_assoc] at this
          exact Nat.le_of_mul_le_mul_right this (by decide)
        apply Nat.le_of_mul_le_mul_right _ hA
        calc 2 ^ 52 * d * 2 ^ ra = 2 ^ 52 * (d * 2 ^ ra) := by ring
          _ ≤ 2 ^ 52 * (n * 2 ^ rb) := Nat.mul_le_mul_left _ hc2
          _ = n * (2 ^ 52 * 2 ^ rb) := by ring
          _ = n * 2 ^ (52 + rb - ra) * 2 ^ ra := by rw [← hS]; ring

theorem roundNat_val_ge (n d k : Nat) (hd : 0 < d) (hr : n < 2 ^ 52 * d) (h : k * d ≤ n) :
    (k : ℚ) ≤ (Float64.roundNat n d).val := by
  obtain ⟨s, he, _⟩ := roundNat_eq n d hd hr
  have hm : k * 2 ^ s ≤ roundHalfEven (n * 2 ^ s) d :=
    roundHalfEven_ge _ _ _ hd (by
      calc k * 2 ^ s * d = k * d * 2 ^ s := by ring
        _ ≤ n * 2 ^ s := Nat.mul_le_mul_right _ h)
  rw [he]
  simp only [Float64.val]
  rw [le_div_iff₀ (by positivity)]
  exact_mod_cast hm

theorem roundNat_val_le (n d k : Nat) (hd : 0 < d) (hr : n < 2 ^ 52 * d) (h : n ≤ k * d) :
    (Float64.roundNat n d).val ≤ (k : ℚ) := by
  obtain ⟨s, he, _⟩ := roundNat_eq n d hd hr
  have hm : roundHalfEven (n * 2 ^ s) d ≤ k * 2 ^ s :=
    roundHalfEven_le _ _ _ hd (by
      calc n * 2 ^ s ≤ k * d * 2 ^ s := Nat.mul_le_mul_right _ h
        _ = k * 2 ^ s * d := by ring)
  rw [he]
  simp only [Float64.val]
  rw [div_le_iff₀ (by positivity)]
  exact_mod_cast hm

theorem roundNat_val_prec (n d j : Nat) (hd : 0 < d) (hr : n < 2 ^ 52 * d)
    (hj : n < 2 ^ j * d) :
    (Float64.roundNat n d).val ≤ (n : ℚ) / d + 1 / 2 ^ (54 - j) := by
  obtain ⟨s, he, hnorm⟩ := roundNat_eq n d hd hr
  have hdq : (0 : ℚ) < d := by exact_mod_cast hd
  by_cases hn : n = 0
  · subst hn
    rw [he]
    simp only [Float64.val, Nat.zero_mul, roundHalfEven_zero d hd]
    simp
  · have hnorm := hnorm hn
    have hexp : 54 - j ≤ s + 1 := by
      have h1 : 2 ^ 52 * d < 2 ^ (j + s) * d := by
        calc 2 ^ 52 * d ≤ n * 2 ^ s := hnorm
          _ < 2 ^ j * d * 2 ^ s := Nat.mul_lt_mul_of_pos_right hj (by positivity)
          _ = 2 ^ (j + s) * d := by rw [pow_add]; ring
      have h2 : 2 ^ 52 < 2 ^ (j + s) := Nat.lt_of_mul_lt_mul_right h1
      have h3 : 52 < j + s := (Nat.pow_lt_pow_iff_right (by decide)).mp h2
      omega
    have hp := roundHalfEven_prec (n * 2 ^ s) d hd
    have hpq : (2 : ℚ) * ((roundHalfEven (n * 2 ^ s) d : ℚ) * d) ≤ 2 * ((n : ℚ) * 2 ^ s) + d := by
      exact_mod_cast hp
    have hpow : (2 : ℚ) ^ (54 - j) ≤ 2 ^ (s + 1) :=
      pow_le_pow_right₀ (by norm_num) hexp
    have hs : (0 : ℚ) < 2 ^ s := by positivity
    have h54 : (0 : ℚ) < 2 ^ (54 - j) := by positivity
    rw [he]
    simp only [Float64.val, Int.cast_natCast]
    have hstep : (roundHalfEven (n * 2 ^ s) d : ℚ) / 2 ^ s ≤ (n : ℚ) / d + 1 / 2 ^ (s + 1) := by
      rw [div_add_div _ _ (ne_of_gt hdq) (by positivity), div_le_div_iff₀ hs (by positivity)]
      rw [pow_succ]
      nlinarith [hpq, hs, hdq]
    have hmono : (1 : ℚ) / 2 ^ (s + 1) ≤ 1 / 2 ^ (54 - j) :=
      one_div_le_one_div_of_le h54 hpow
    linarith

theorem Float64.val_neg (x : Float64) :
    (⟨-x.num, x.down⟩ : Float64).val = -x.val := by
  simp [Float64.val, neg_div]

theorem round_val_ge (n : Int) (d : Nat) (k : Int) (hd : 0 < d)
    (hr : n.natAbs < 2 ^ 52 * d) (h : k * d ≤ n) :
    (k : ℚ) ≤ (Float64.round n d).val := by
  have hdz : (0 : Int) < d := by exact_mod_cast hd
  by_cases hn : 0 ≤ n
  · simp only [Float64.round, if_pos hn]
    have hr2 : n.toNat < 2 ^ 52 * d := by omega
    by_cases hk : 0 ≤ k
    · have h2 : k.toNat * d ≤ n.toNat := by
        zify
        rw [Int.toNat_of_nonneg hk, Int.toNat_of_nonneg hn]
        exact h
      have := roundNat_val_ge n.toNat d k.toNat hd hr2 h2
      have hk2 : ((k.toNat : Int) : ℚ) = (k : ℚ) := by rw [Int.toNat_of_nonneg hk]
      rw [← hk2]
      exact_mod_cast this
    · have := roundNat_val_ge n.toNat d 0 hd hr2 (by simp)
      have hk2 : (k : ℚ) < 0 := by exact_mod_cast (not_le.mp hk)
      simp only [Nat.cast_zero] at this
      linarith
  · simp only [Float64.round, if_neg hn, Float64.val_neg]
    have hn2 : n < 0 := not_le.mp hn
    have hr2 : (-n).toNat < 2 ^ 52 * d := by omega
    have hk : k < 0 := by
      by_contra hcon
      have : 0 ≤ k * d := mul_nonneg (not_lt.mp hcon) (le_of_lt hdz)
      omega
    have h2 : (-n).toNat ≤ (-k).toNat * d := by
      zify
      rw [Int.toNat_of_nonneg (by omega), Int.toNat_of_nonneg (by omega)]
      linarith
    have := roundNat_val_le (-n).toNat d (-k).toNat hd hr2 h2
    have hk2 : (((-k).toNat : Int) : ℚ) = -(k : ℚ) := by
      rw [Int.toNat_of_nonneg (by omega)]; simp
    have h3 : (Float64.roundNat (-n).toNat d).val ≤ -(k : ℚ) := by
      rw [← hk2]
      exact_mod_cast this
    linarith

theorem round_val_le (n : Int) (d : Nat) (k : Int) (hd : 0 < d)
    (hr : n.natAbs < 2 ^ 52 * d) (h : n ≤ k * d) :
    (Float64.round n d).val ≤ (k : ℚ) := by
  have hdz : (0 : Int) < d := by exact_mod_cast hd
  by_cases hn : 0 ≤ n
  · simp only [Float64.round, if_pos hn]
    have hr2 : n.toNat < 2 ^ 52 * d := by omega
    have hk : 0 ≤ k := by
      by_contra hcon
      have : k * d < 0 := mul_neg_of_neg_of_pos (not_le.mp hcon) hdz
      omega
    have h2 : n.toNat ≤ k.toNat * d := by
      zify
      rw [Int.toNat_of_nonneg hk, Int.toNat_of_nonneg hn]
      exact h
    have := roundNat_val_le n.toNat d k.toNat hd hr2 h2
    have hk2 : ((k.toNat : Int) : ℚ) = (k : ℚ) := by rw [Int.toNat_of_nonneg hk]
    rw [← hk2]
    exact_mod_cast this
  · simp only [Float64.round, if_neg hn, Float64.val_neg]
    have hn2 : n < 0 := not_le.mp hn
    have hr2 : (-n).toNat < 2 ^ 52 * d := by omega
    by_cases hk : k ≤ 0
    · have h2 : (-k).toNat * d ≤ (-n).toNat := by
        zify
        rw [Int.toNat_of_nonneg (by omega), Int.toNat_of_nonneg (by omega)]
        linarith
      have := roundNat_val_ge (-n).toNat d (-k).toNat hd hr2 h2
      have hk2 : (((-k).toNat : Int) : ℚ) = -(k : ℚ) := by
        rw [Int.toNat_of_nonneg (by omega)]; simp
      have h3 : -(k : ℚ) ≤ (Float64.roundNat (-n).toNat d).val := by
        rw [← hk2]
        exact_mod_cast this
      linarith
    · have := roundNat_val_ge (-n).toNat d 0 hd hr2 (by simp)
      have hk2 : (0 : ℚ) < k := by exact_mod_cast (not_le.mp hk)
      simp only [Nat.cast_zero] at this
      linarith

theorem round_val_prec (n : Int) (d j : Nat) (hd : 0 < d) (hn : 0 ≤ n)
    (hr : n.natAbs < 2 ^ 52 * d) (hj : n < 2 ^ j * d) :
    (Float64.round n d).val ≤ (n : ℚ) / d + 1 / 2 ^ (54 - j) := by
  simp only [Float64.round, if_pos hn]
  have hr2 : n.toNat < 2 ^ 52 * d := by omega
  have hj2 : n.toNat < 2 ^ j * d := by
    zify
    rw [Int.toNat_of_nonneg hn]
    exact_mod_cast hj
  have := roundNat_val_prec n.toNat d j hd hr2 hj2
  have hcast : ((n.toNat : ℕ) : ℚ) = (n : ℚ) := by
    have : ((n.toNat : Int) : ℚ) = (n : ℚ) := by rw [Int.toNat_of_nonneg hn]
    exact_mod_cast this
  rw [hcast] at this
  exact this

theorem natAbs_lt_of_abs_div_lt (n : Int) (d : Nat) (hd : 0 < d)
    (hr : |(n : ℚ) / d| < 2 ^ 52) : n.natAbs < 2 ^ 52 * d := by
  have hdq : (0 : ℚ) < d := by exact_mod_cast hd
  rw [abs_lt] at hr
  have h1 : (n : ℚ) < 2 ^ 52 * d := by
    have := hr.2
    rwa [div_lt_iff₀ hdq] at this
  have h2 : -(2 ^ 52 * (d : ℚ)) < n := by
    have := hr.1
    rw [lt_div_iff₀ hdq] at this
    linarith
  have h3 : n < 2 ^ 52 * (d : Int) := by exact_mod_cast h1
  have h4 : -(2 ^ 52 * (d : Int)) < n := by exact_mod_cast h2
  omega

theorem round_q_ge (n : Int) (d : Nat) (k : Int) (hd : 0 < d)
    (hr : |(n : ℚ) / d| < 2 ^ 52) (h : (k : ℚ) ≤ (n : ℚ) / d) :
    (k : ℚ) ≤ (Float64.round n d).val := by
  have hdq : (0 : ℚ) < d := by exact_mod_cast hd
  refine round_val_ge n d k hd (natAbs_lt_of_abs_div_lt n d hd hr) ?_
  rw [le_div_iff₀ hdq] at h
  exact_mod_cast h

theorem round_q_le (n : Int) (d : Nat) (k : Int) (hd : 0 < d)
    (hr : |(n : ℚ) / d| < 2 ^ 52) (h : (n : ℚ) / d ≤ (k : ℚ)) :
    (Float64.round n d).val ≤ (k : ℚ) := by
  have hdq : (0 : ℚ) < d := by exact_mod_cast hd
  refine round_val_le n d k hd (natAbs_lt_of_abs_div_lt n d hd hr) ?_
  rw [div_le_iff₀ hdq] at h
  exact_mod_cast h

theorem round_q_prec (n : Int) (d j : Nat) (hd : 0 < d)
    (hr : |(n : ℚ) / d| < 2 ^ 52) (h0 : 0 ≤ (n : ℚ) / d) (hj : (n : ℚ) / d < 2 ^ j) :
    (Float64.round n d).val ≤ (n : ℚ) / d + 1 / 2 ^ (54 - j) := by
  have hdq : (0 : ℚ) < d := by exact_mod_cast hd
  have hn : 0 ≤ n := by
    by_contra hcon
    have : (n : ℚ) < 0 := by exact_mod_cast (not_le.mp hcon)
    have := div_neg_of_neg_of_pos this hdq
    linarith
  refine round_val_prec n d j hd hn (natAbs_lt_of_abs_div_lt n d hd hr) ?_
  rw [div_lt_iff₀ hdq] at hj
  exact_mod_cast hj

theorem Float64.ofInt_val (z : Int) (hz : |(z : ℚ)| < 2 ^ 52) :
    (Float64.ofInt z).val = z := by
  have hr : |(z : ℚ) / ((1 : Nat) : ℚ)| < 2 ^ 52 := by simpa using hz
  apply le_antisymm
  · exact round_q_le z 1 z (by decide) hr (by simp)
  · exact round_q_ge z 1 z (by decide) hr (by simp)

theorem Float64.add_exact (x y : Float64) :
    ((x.num * 2 ^ y.down + y.num * 2 ^ x.down : Int) : ℚ) /
      ((2 ^ (x.down + y.down) : Nat) : ℚ) = x.val + y.val := by
  simp only [Float64.val]
  push_cast
  rw [pow_add]
  field_simp

theorem Float64.toInt_ge (x : Float64) (k : Int) (h : (k : ℚ) ≤ x.val) : k ≤ x.toInt := by
  have hD : (0 : Int) < 2 ^ x.down := by positivity
  have hDq : (0 : ℚ) < 2 ^ x.down := by positivity
  have hk : k * 2 ^ x.down ≤ x.num := by
    simp only [Float64.val] at h
    rw [le_div_iff₀ hDq] at h
    exact_mod_cast h
  unfold Float64.toInt
  by_cases hn : 0 ≤ x.num
  · rw [Int.tdiv_eq_ediv hn (le_of_lt hD)]
    exact (Int.le_ediv_iff_mul_le hD).mpr hk
  · have hneg : x.num = -(-x.num) := by omega
    rw [hneg, Int.neg_tdiv, Int.tdiv_eq_ediv (by omega) (le_of_lt hD)]
    have h1 : -x.num / 2 ^ x.down < -k + 1 := by
      rw [Int.ediv_lt_iff_lt_mul hD]
      linarith
    omega

theorem Float64.toInt_le (x : Float64) (k : Int) (h : x.val ≤ (k : ℚ)) : x.toInt ≤ k := by
  have hD : (0 : Int) < 2 ^ x.down := by positivity
  have hDq : (0 : ℚ) < 2 ^ x.down := by positivity
  have hk : x.num ≤ k * 2 ^ x.down := by
    simp only [Float64.val] at h
    rw [div_le_iff₀ hDq] at h
    exact_mod_cast h
  unfold Float64.toInt
  by_cases hn : 0 ≤ x.num
  · rw [Int.tdiv_eq_ediv hn (le_of_lt hD)]
    have h1 : x.num / 2 ^ x.down < k + 1 := by
      rw [Int.ediv_lt_iff_lt_mul hD]
      linarith
    omega
  · have hneg : x.num = -(-x.num) := by omega
    rw [hneg, Int.neg_tdiv, Int.tdiv_eq_ediv (by omega) (le_of_lt hD)]
    have h1 : -k ≤ -x.num / 2 ^ x.down := by
      rw [Int.le_ediv_iff_mul_le hD]
      linarith
    omega

theorem Float64.toInt_lt (x : Float64) (k : Int) (hk : 0 < k) (h : x.val < (k : ℚ)) :
    x.toInt < k := by
  have hD : (0 : Int) < 2 ^ x.down := by positivity
  have hDq : (0 : ℚ) < 2 ^ x.down := by positivity
  have hlt : x.num < k * 2 ^ x.down := by
    simp only [Float64.val] at h
    rw [div_lt_iff₀ hDq] at h
    exact_mod_cast h
  unfold Float64.toInt
  by_cases hn : 0 ≤ x.num
  · rw [Int.tdiv_eq_ediv hn (le_of_lt hD)]
    exact (Int.ediv_lt_iff_lt_mul hD).mpr hlt
  · have hneg : x.num = -(-x.num) := by omega
    rw [hneg, Int.neg_tdiv, Int.tdiv_eq_ediv (by omega) (le_of_lt hD)]
    have h1 : 0 ≤ -x.num / 2 ^ x.down := Int.ediv_nonneg (by omega) (le_of_lt hD)
    omega

theorem tdiv_Second (d : Int) :
    Int.tdiv d Second = if 0 ≤ d then d / 1000000000 else -((-d) / 1000000000) := by
  unfold Second
  split_ifs with h
  · exact Int.tdiv_eq_ediv h (by decide)
  · have hd : d = -(-d) := by omega
    conv_lhs => rw [hd]
    rw [Int.neg_tdiv, Int.tdiv_eq_ediv (by omega) (by decide)]

theorem Float64.div_billion (x : Float64) :
    Float64.div x (Float64.ofInt 1000000000) =
      Float64.round (x.num * 2 ^ 23) (8388608000000000 * 2 ^ x.down) := by
  have hP : Float64.ofInt 1000000000 = ⟨8388608000000000, 23⟩ := by decide
  rw [hP]
  simp [Float64.div]

theorem Float64.div_billion_exact (x : Float64) :
    ((x.num * 2 ^ 23 : Int) : ℚ) / ((8388608000000000 * 2 ^ x.down : Nat) : ℚ) =
      x.val / 1000000000 := by
  simp only [Float64.val]
  push_cast
  have h : (0 : ℚ) < 2 ^ x.down := by positivity
  field_simp
  ring

/-- The two roundings of `Duration.Seconds`: the quotient `q` stands for
`float64(nsec)/1e9` and the result for `float64(sec) + q`. -/
theorem Seconds_roundings (d : Int) (hlo : minDuration ≤ d) (hhi : d ≤ maxDuration) :
    ∃ (sec nsec : Int) (q : Float64),
      1000000000 * sec + nsec = d ∧ -1000000000 < nsec ∧ nsec < 1000000000 ∧
      (0 ≤ d → sec = d / 1000000000 ∧ nsec = d % 1000000000) ∧
      (∀ k : Int, (k : ℚ) ≤ (nsec : ℚ) / 1000000000 → (k : ℚ) ≤ q.val) ∧
      (∀ k : Int, (nsec : ℚ) / 1000000000 ≤ (k : ℚ) → q.val ≤ (k : ℚ)) ∧
      (0 ≤ nsec → q.val ≤ (nsec : ℚ) / 1000000000 + 1 / 2 ^ 54) ∧
      (∀ k : Int, (k : ℚ) ≤ (sec : ℚ) + q.val → (k : ℚ) ≤ (Duration.Seconds d).val) ∧
      (∀ k : Int, (sec : ℚ) + q.val ≤ (k : ℚ) → (Duration.Seconds d).val ≤ (k : ℚ)) ∧
      (∀ j : Nat, 0 ≤ (sec : ℚ) + q.val → (sec : ℚ) + q.val < 2 ^ j →
        (Duration.Seconds d).val ≤ (sec : ℚ) + q.val + 1 / 2 ^ (54 - j)) := by
  have hS0 : Duration.Seconds d = Float64.add (Float64.ofInt (Int.tdiv d 1000000000))
      (Float64.div (Float64.ofInt (Int.tmod d 1000000000)) (Float64.ofInt 1000000000)) := rfl
  rw [hS0]
  clear hS0
  have hsum : 1000000000 * Int.tdiv d 1000000000 + Int.tmod d 1000000000 = d :=
    Int.tdiv_add_tmod d _
  have htd := tdiv_Second d
  unfold Second at htd
  have hmod : -1000000000 < Int.tmod d 1000000000 ∧ Int.tmod d 1000000000 < 1000000000 := by
    rw [Int.tmod_def, htd]
    split_ifs <;> omega
  have hsec : -9223372037 ≤ Int.tdiv d 1000000000 ∧ Int.tdiv d 1000000000 ≤ 9223372037 := by
    unfold minDuration at hlo
    unfold maxDuration at hhi
    omega
  refine ⟨Int.tdiv d 1000000000, Int.tmod d 1000000000,
    Float64.div (Float64.ofInt (Int.tmod d 1000000000)) (Float64.ofInt 1000000000),
    hsum, hmod.1, hmod.2, ?_, ?_⟩
  · intro h0
    exact ⟨Int.tdiv_eq_ediv h0 (by decide), Int.tmod_eq_emod h0 (by decide)⟩
  generalize Int.tdiv d 1000000000 = sec at *
  generalize Int.tmod d 1000000000 = nsec at *
  have hsecq : |(sec : ℚ)| < 2 ^ 52 := by
    rw [abs_lt]
    constructor
    · have : (-9223372037 : ℚ) ≤ sec := by exact_mod_cast hsec.1
      linarith [show (2 : ℚ) ^ 52 = 4503599627370496 by norm_num]
    · have : (sec : ℚ) ≤ 9223372037 := by exact_mod_cast hsec.2
      linarith [show (2 : ℚ) ^ 52 = 4503599627370496 by norm_num]
  have hnq1 : (-1000000000 : ℚ) < nsec := by exact_mod_cast hmod.1
  have hnq2 : (nsec : ℚ) < 1000000000 := by exact_mod_cast hmod.2
  have hnsecq : |(nsec : ℚ)| < 2 ^ 52 := by
    rw [abs_lt]
    constructor <;> linarith [show (2 : ℚ) ^ 52 = 4503599627370496 by norm_num]
  have hX := Float64.ofInt_val sec hsecq
  have hN := Float64.ofInt_val nsec hnsecq
  have hquot := Float64.div_billion_exact (Float64.ofInt nsec)
  rw [hN] at hquot
  have hdpos : 0 < 8388608000000000 * 2 ^ (Float64.ofInt nsec).down := by positivity
  have hfrac1 : (-1 : ℚ) < (nsec : ℚ) / 1000000000 := by
    rw [lt_div_iff₀ (by norm_num)]; linarith
  have hfrac2 : (nsec : ℚ) / 1000000000 < 1 := by
    rw [div_lt_iff₀ (by norm_num)]; linarith
  have hqr : |(((Float64.ofInt nsec).num * 2 ^ 23 : Int) : ℚ) /
      ((8388608000000000 * 2 ^ (Float64.ofInt nsec).down : Nat) : ℚ)| < 2 ^ 52 := by
    rw [hquot, abs_lt]
    constructor <;> linarith [show (2 : ℚ) ^ 52 = 4503599627370496 by norm_num]
  have hq_ge : ∀ k : Int, (k : ℚ) ≤ (nsec : ℚ) / 1000000000 →
      (k : ℚ) ≤ (Float64.div (Float64.ofInt nsec) (Float64.ofInt 1000000000)).val := by
    intro k hk
    rw [Float64.div_billion]
    exact round_q_ge _ _ k hdpos hqr (by rw [hquot]; exact hk)
  have hq_le : ∀ k : Int, (nsec : ℚ) / 1000000000 ≤ (k : ℚ) →
      (Float64.div (Float64.ofInt nsec) (Float64.ofInt 1000000000)).val ≤ (k : ℚ) := by
    intro k hk
    rw [Float64.div_billion]
    exact round_q_le _ _ k hdpos hqr (by rw [hquot]; exact hk)
  have hq_prec : 0 ≤ nsec →
      (Float64.div (Float64.ofInt nsec) (Float64.ofInt 1000000000)).val ≤
        (nsec : ℚ) / 1000000000 + 1 / 2 ^ 54 := by
    intro h0
    have h0q : (0 : ℚ) ≤ nsec := by exact_mod_cast h0
    rw [Float64.div_billion]
    have := round_q_prec _ _ 0 hdpos hqr
      (by rw [hquot]; exact div_nonneg h0q (by norm_num))
      (by rw [hquot]; simpa using hfrac2)
    rw [hquot] at this
    exact this
  refine ⟨hq_ge, hq_le, hq_prec, ?_⟩
  have hq1 := hq_ge (-1) (by push_cast; linarith)
  have hq2 := hq_le 1 (by push_cast; linarith)
  push_cast at hq1 hq2
  generalize Float64.div (Float64.ofInt nsec) (Float64.ofInt 1000000000) = q at *
  have hsr := Float64.add_exact (Float64.ofInt sec) q
  rw [hX] at hsr
  have hsum_r : |(((Float64.ofInt sec).num * 2 ^ q.down + q.num * 2 ^ (Float64.ofInt sec).down :
      Int) : ℚ) / ((2 ^ ((Float64.ofInt sec).down + q.down) : Nat) : ℚ)| < 2 ^ 52 := by
    rw [hsr, abs_lt]
    have h1 : (-9223372037 : ℚ) ≤ sec := by exact_mod_cast hsec.1
    have h2 : (sec : ℚ) ≤ 9223372037 := by exact_mod_cast hsec.2
    constructor <;> linarith [show (2 : ℚ) ^ 52 = 4503599627370496 by norm_num]
  have hpos2 : 0 < 2 ^ ((Float64.ofInt sec).down + q.down) := by positivity
  have hq0 : -9223372038 ≤ (sec : ℚ) + q.val ∧ (sec : ℚ) + q.val ≤ 9223372038 := by
    have h1 : (-9223372037 : ℚ) ≤ sec := by exact_mod_cast hsec.1
    have h2 : (sec : ℚ) ≤ 9223372037 := by exact_mod_cast hsec.2
    constructor <;> linarith
  refine ⟨?_, ?_, ?_⟩
  · intro k hk
    exact round_q_ge _ _ k hpos2 hsum_r (by rw [hsr]; exact hk)
  · intro k hk
    exact round_q_le _ _ k hpos2 hsum_r (by rw [hsr]; exact hk)
  · intro j h0 hj
    have := round_q_prec _ _ j hpos2 hsum_r (by rw [hsr]; exact h0) (by rw [hsr]; exact hj)
    rw [hsr] at this
    exact this

theorem Seconds_toInt_ge (d k : Int) (hlo : minDuration ≤ d) (hhi : d ≤ maxDuration)
    (h : k * 1000000000 ≤ d) : k ≤ (Duration.Seconds d).toInt := by
  obtain ⟨sec, nsec, q, hsum, _, _, _, hqge, _, _, hsge, _, _⟩ := Seconds_roundings d hlo hhi
  apply Float64.toInt_ge
  apply hsge
  have h1 : ((k - sec : Int) : ℚ) ≤ (nsec : ℚ) / 1000000000 := by
    rw [le_div_iff₀ (by norm_num)]
    have : (k - sec) * 1000000000 ≤ nsec := by linarith
    exact_mod_cast this
  have h2 := hqge (k - sec) h1
  push_cast at h2
  linarith

theorem Seconds_toInt_le (d k : Int) (hlo : minDuration ≤ d) (hhi : d ≤ maxDuration)
    (h : d ≤ k * 1000000000) : (Duration.Seconds d).toInt ≤ k := by
  obtain ⟨sec, nsec, q, hsum, _, _, _, _, hqle, _, _, hsle, _⟩ := Seconds_roundings d hlo hhi
  apply Float64.toInt_le
  apply hsle
  have h1 : (nsec : ℚ) / 1000000000 ≤ ((k - sec : Int) : ℚ) := by
    rw [div_le_iff₀ (by norm_num)]
    have : nsec ≤ (k - sec) * 1000000000 := by linarith
    exact_mod_cast this
  have h2 := hqle (k - sec) h1
  push_cast at h2
  linarith

theorem Seconds_toInt_exact (d : Int) (h0 : 0 ≤ d) (h24 : d < 16777216000000000) :
    (Duration.Seconds d).toInt = d / 1000000000 := by
  have hlo : minDuration ≤ d := by unfold minDuration; omega
  have hhi : d ≤ maxDuration := by unfold maxDuration; omega
  apply le_antisymm
  · obtain ⟨sec, nsec, q, hsum, _, _, hdiv, hqge, hqle, hqprec, hsge, hsle, hsprec⟩ :=
      Seconds_roundings d hlo hhi
    obtain ⟨hsec, hnsec⟩ := hdiv h0
    have hn0 : 0 ≤ nsec := by omega
    have hn1 : nsec ≤ 999999999 := by omega
    have hs0 : 0 ≤ sec := by omega
    have hs1 : sec ≤ 16777215 := by omega
    have hn0q : (0 : ℚ) ≤ nsec := by exact_mod_cast hn0
    have hn1q : (nsec : ℚ) ≤ 999999999 := by exact_mod_cast hn1
    have hs0q : (0 : ℚ) ≤ sec := by exact_mod_cast hs0
    have hs1q : (sec : ℚ) ≤ 16777215 := by exact_mod_cast hs1
    have hq := hqprec hn0
    have hq0 : (0 : ℚ) ≤ q.val := by
      have := hqge 0 (by push_cast; exact div_nonneg hn0q (by norm_num))
      exact_mod_cast this
    have hfrac : (nsec : ℚ) / 1000000000 ≤ 999999999 / 1000000000 := by
      rw [div_le_div_iff₀ (by norm_num) (by norm_num)]
      linarith
    have hq2 : q.val ≤ 999999999 / 1000000000 + 1 / 2 ^ 54 := by linarith
    have hx : (sec : ℚ) + q.val < 2 ^ 24 := by
      have : (999999999 : ℚ) / 1000000000 + 1 / 2 ^ 54 < 1 := by norm_num
      have : (2 : ℚ) ^ 24 = 16777216 := by norm_num
      linarith
    have hs := hsprec 24 (by linarith) hx
    have hlt : (Duration.Seconds d).val < ((sec + 1 : Int) : ℚ) := by
      have : (999999999 : ℚ) / 1000000000 + 1 / 2 ^ 54 + 1 / 2 ^ (54 - 24) < 1 := by norm_num
      push_cast
      linarith
    have := Float64.toInt_lt (Duration.Seconds d) (sec + 1) (by omega) hlt
    omega
  · apply Seconds_toInt_ge d _ hlo hhi
    have := Int.ediv_mul_le d (show (1000000000 : Int) ≠ 0 by decide)
    exact this


/-! ## Liveness: claims C5 to C7 -/

theorem fdiv_Second (d : Int) : Int.fdiv d Second = d / 1000000000 :=
  Int.fdiv_eq_ediv d (by decide)

theorem Time.Since_range (now t : Time) :
    minDuration ≤ Time.Since now t ∧ Time.Since now t ≤ maxDuration := by
  unfold Time.Since Time.Sub
  simp only [Time] at *
  have h : minDuration ≤ maxDuration := by decide
  split_ifs <;> omega

theorem Time.Since_of_le_max (now t : Time) (h : now - t ≤ maxDuration) :
    now - t ≤ Time.Since now t := by
  unfold Time.Since Time.Sub
  simp only [Time] at *
  split_ifs <;> omega

theorem Time.Since_of_range (now t : Time) (hlo : minDuration ≤ now - t)
    (hhi : now - t ≤ maxDuration) : Time.Since now t = now - t := by
  unfold Time.Since Time.Sub
  simp only [Time] at *
  split_ifs <;> omega

theorem IsActive_eq_true_iff (lbagent : SLoadbalancerAgent) (now : Time) :
    lbagent.IsActive now = true ↔
      lbagent.HbLastSeen ≠ 0 ∧
        (Duration.Seconds (Time.Since now lbagent.HbLastSeen)).toInt < lbagent.HbTimeout := by
  unfold SLoadbalancerAgent.IsActive Time.IsZero
  by_cases h0 : lbagent.HbLastSeen = 0
  · simp [h0]
  · simp [h0]

theorem PerformHb_HbLastSeen (lbagent stored : SLoadbalancerAgent) (now : Time)
    (version : Option String) (keyV : Except Error (Option String × String))
    (updateErr : Option Error)
    (h : lbagent.PerformHb now version keyV updateErr = .ok stored) :
    stored.HbLastSeen = now ∧ stored.HbTimeout = lbagent.HbTimeout := by
  unfold SLoadbalancerAgent.PerformHb at h
  cases keyV with
  | error e => simp at h
  | ok v =>
    obtain ⟨ip, haState⟩ := v
    cases updateErr with
    | some e => simp at h
    | none =>
      simp only [Except.ok.injEq] at h
      subst h
      cases version <;> cases ip <;> by_cases hs : haState = "" <;> simp [hs]

/-- C5 (as stated) fails, in two ways. First, the heartbeat was stored at `1 s`, the clock
reads `0.5 s` and the timeout is `0`: the floor of the elapsed time is `-1 < 0`, yet the
agent is not active, because the elapsed seconds are truncated toward zero. Second, the
heartbeat was stored at `1 s`, `16777216.999999999 s` have elapsed and the timeout is
`16777217`: the floor of the elapsed time is `16777216 < 16777217`, yet the agent is not
active, because the `float64` of `Duration.Seconds` is `16777217`. -/
theorem IsActive_differs_from_floor :
    (({ sampleAgent "a" 1000000000 0 with HbTimeout := 0 }).HbLastSeen.IsZero = false ∧
      Int.fdiv (500000000 - ({ sampleAgent "a" 1000000000 0 with HbTimeout := 0 }).HbLastSeen)
        Second < ({ sampleAgent "a" 1000000000 0 with HbTimeout := 0 }).HbTimeout ∧
      ({ sampleAgent "a" 1000000000 0 with HbTimeout := 0 }).IsActive 500000000 = false) ∧
    (({ sampleAgent "a" 1000000000 0 with HbTimeout := 16777217 }).HbLastSeen.IsZero = false ∧
      Int.fdiv (16777217999999999 -
          ({ sampleAgent "a" 1000000000 0 with HbTimeout := 16777217 }).HbLastSeen) Second
        < ({ sampleAgent "a" 1000000000 0 with HbTimeout := 16777217 }).HbTimeout ∧
      ({ sampleAgent "a" 1000000000 0 with HbTimeout := 16777217 }).IsActive 16777217999999999
        = false) := by
  decide

/-- C5 (amended): `IsActive` is false when `hbLastSeen` is unset; otherwise it is true
exactly when the whole seconds that the code computes from the elapsed time (the difference
`now - hbLastSeen` held to the range of `time.Duration`, turned into `float64` seconds by
`Duration.Seconds` and truncated toward zero) are strictly less than `hbTimeoutSeconds`.
When `0 ≤ now - hbLastSeen < 2 ^ 24` seconds (about 194 days) that count is the floor of
the elapsed time in whole seconds, so that `IsActive` is true exactly when the floor is
strictly less than `hbTimeoutSeconds`; for a longer elapsed time within the range of
`time.Duration` the count is the floor or the floor plus one. -/
theorem IsActive_iff_whole_seconds_lt_timeout (lbagent : SLoadbalancerAgent) (now : Time) :
    (lbagent.HbLastSeen.IsZero = true → lbagent.IsActive now = false) ∧
    (lbagent.HbLastSeen.IsZero = false →
      (lbagent.IsActive now = true ↔
        (Duration.Seconds (Time.Since now lbagent.HbLastSeen)).toInt < lbagent.HbTimeout)) ∧
    (lbagent.HbLastSeen.IsZero = false → 0 ≤ now - lbagent.HbLastSeen →
      now - lbagent.HbLastSeen < 16777216 * Second →
      (lbagent.IsActive now = true ↔
        Int.fdiv (now - lbagent.HbLastSeen) Second < lbagent.HbTimeout)) ∧
    (0 ≤ now - lbagent.HbLastSeen → now - lbagent.HbLastSeen ≤ maxDuration →
      Int.fdiv (now - lbagent.HbLastSeen) Second ≤
          (Duration.Seconds (Time.Since now lbagent.HbLastSeen)).toInt ∧
        (Duration.Seconds (Time.Since now lbagent.HbLastSeen)).toInt ≤
          Int.fdiv (now - lbagent.HbLastSeen) Second + 1) := by
  refine ⟨?_, ?_, ?_, ?_⟩
  · intro h
    simp [SLoadbalancerAgent.IsActive, h]
  · intro h
    rw [IsActive_eq_true_iff]
    simp only [Time.IsZero, beq_eq_false_iff_ne] at h
    simp [h]
  · intro h h0 h24
    rw [IsActive_eq_true_iff, fdiv_Second]
    simp only [Time.IsZero, beq_eq_false_iff_ne] at h
    unfold Second at h24
    have hlo : minDuration ≤ now - lbagent.HbLastSeen := by
      unfold minDuration; simp only [Time] at *; omega
    have hhi : now - lbagent.HbLastSeen ≤ maxDuration := by
      unfold maxDuration; simp only [Time] at *; omega
    rw [Time.Since_of_range now _ hlo hhi,
      Seconds_toInt_exact _ h0 (by simp only [Time] at *; omega)]
    simp [h]
  · intro h0 hhi
    have hlo : minDuration ≤ now - lbagent.HbLastSeen := by
      unfold minDuration; simp only [Time] at *; omega
    rw [Time.Since_of_range now _ hlo hhi, fdiv_Second]
    constructor
    · exact Seconds_toInt_ge _ _ hlo hhi (Int.ediv_mul_le _ (by decide))
    · refine Seconds_toInt_le _ _ hlo hhi (le_of_lt ?_)
      exact Int.lt_ediv_add_one_mul_self _ (by decide)

/-- C5 (amended) witness: heartbeat at `1 s`, clock at `3.5 s`, timeout `3 s`. -/
theorem IsActive_iff_whole_seconds_lt_timeout_witness :
    ({ sampleAgent "a" 1000000000 0 with HbTimeout := 3 }).IsActive 3500000000 = true ↔
      Int.fdiv (3500000000 - ({ sampleAgent "a" 1000000000 0 with HbTimeout := 3 }).HbLastSeen)
        Second < ({ sampleAgent "a" 1000000000 0 with HbTimeout := 3 }).HbTimeout :=
  (IsActive_iff_whole_seconds_lt_timeout
    { sampleAgent "a" 1000000000 0 with HbTimeout := 3 } 3500000000).2.2.1
    (by decide) (by decide) (by decide)

/-- C6 (as stated) fails: an agent with `hbTimeoutSeconds = 0` satisfies the invariant, its
heartbeat at instant `100` succeeds and stores `hbLastSeen = 100`, and `IsActive` at `100`
is false. -/
theorem IsActive_false_after_heartbeat_with_zero_timeout :
    0 ≤ ({ sampleAgent "a" 0 0 with HbTimeout := 0 }).HbTimeout ∧
    ∃ stored,
      ({ sampleAgent "a" 0 0 with HbTimeout := 0 }).PerformHb 100 none (.ok (none, "")) none
        = .ok stored ∧
      stored.HbLastSeen = 100 ∧ stored.IsActive 100 = false :=
  ⟨by decide, _, rfl, rfl, by decide⟩

/-- C6 (amended): for every agent with `hbTimeoutSeconds ≥ 1`, `IsActive` evaluated at the
instant of a successful heartbeat (`now` equal to the `hbLastSeen` the heartbeat just
stored, a clock reading, hence not the zero time) is true. -/
theorem IsActive_after_heartbeat (lbagent stored : SLoadbalancerAgent) (now : Time)
    (version : Option String) (keyV : Except Error (Option String × String))
    (updateErr : Option Error)
    (htimeout : 1 ≤ lbagent.HbTimeout) (hnow : now.IsZero = false)
    (hhb : lbagent.PerformHb now version keyV updateErr = .ok stored) :
    stored.HbLastSeen = now ∧ stored.IsActive now = true := by
  obtain ⟨h1, h2⟩ := PerformHb_HbLastSeen lbagent stored now version keyV updateErr hhb
  refine ⟨h1, ?_⟩
  rw [IsActive_eq_true_iff, h1, h2]
  simp only [Time.IsZero, beq_eq_false_iff_ne] at hnow
  refine ⟨hnow, ?_⟩
  have hs : Time.Since now now = 0 := by
    rw [Time.Since_of_range now now (by rw [sub_self]; decide) (by rw [sub_self]; decide),
      sub_self]
  have h0 : (Duration.Seconds 0).toInt = 0 := by decide
  rw [hs, h0]
  exact htimeout

/-- C6 (amended) witness: the default timeout of 3600 seconds, a heartbeat at `100` that
also reports an IP address. -/
theorem IsActive_after_heartbeat_witness :
    ({ sampleAgent "a" 0 0 with IP := "10.0.0.1", HbLastSeen := 100 }).HbLastSeen = 100 ∧
    ({ sampleAgent "a" 0 0 with IP := "10.0.0.1", HbLastSeen := 100 }).IsActive 100 = true :=
  IsActive_after_heartbeat (sampleAgent "a" 0 0)
    { sampleAgent "a" 0 0 with IP := "10.0.0.1", HbLastSeen := 100 } 100 none
    (.ok (some "10.0.0.1", "")) none (by decide) (by decide) rfl

/-- C7 (as stated) fails: the heartbeat is a thousand years old and the timeout is
`20000000000` seconds (about 634 years), so that the elapsed time is more than the timeout;
`time.Since` returns the largest `time.Duration`, about 292 years, which is less than the
timeout, and the agent is active. -/
theorem IsActive_true_beyond_duration_range :
    ({ sampleAgent "a" 32364000000000000000 0 with HbTimeout := 20000000000 }).HbLastSeen.IsZero
      = false ∧
    ({ sampleAgent "a" 32364000000000000000 0 with HbTimeout := 20000000000 }).HbTimeout * Second
      ≤ 63900000000000000000 -
        ({ sampleAgent "a" 32364000000000000000 0 with HbTimeout := 20000000000 }).HbLastSeen ∧
    ({ sampleAgent "a" 32364000000000000000 0 with HbTimeout := 20000000000 }).IsActive
      63900000000000000000 = true := by
  decide

/-- C7 (amended): for every agent (with `hbLastSeen` set, or not) and every instant `now`
whose distance `now - hbLastSeen` is at least `hbTimeoutSeconds` seconds and at most the
largest `time.Duration` (`2 ^ 63 - 1` nanoseconds, about 292 years), `IsActive` is false;
the boundary `now - hbLastSeen = hbTimeoutSeconds` seconds is included. -/
theorem IsActive_false_once_timeout_elapsed_in_range (lbagent : SLoadbalancerAgent) (now : Time)
    (hrange : now - lbagent.HbLastSeen ≤ maxDuration)
    (helapsed : lbagent.HbTimeout * Second ≤ now - lbagent.HbLastSeen) :
    lbagent.IsActive now = false := by
  have hnot : ¬ (lbagent.IsActive now = true) := by
    rw [IsActive_eq_true_iff]
    rintro ⟨_, hlt⟩
    obtain ⟨hlo, hhi⟩ := Time.Since_range now lbagent.HbLastSeen
    have hle := Time.Since_of_le_max now lbagent.HbLastSeen hrange
    have := Seconds_toInt_ge (Time.Since now lbagent.HbLastSeen) lbagent.HbTimeout hlo hhi
      (le_trans helapsed hle)
    omega
  simpa using hnot

/-- C7 (amended) witness: heartbeat at `1 s`, timeout `5 s`, clock at exactly `6 s`. -/
theorem IsActive_false_once_timeout_elapsed_in_range_witness :
    ({ sampleAgent "a" 1000000000 0 with HbTimeout := 5 }).IsActive 6000000000 = false :=
  IsActive_false_once_timeout_elapsed_in_range
    { sampleAgent "a" 1000000000 0 with HbTimeout := 5 } 6000000000 (by decide) (by decide)

/-! ## Sync-timestamp reports: claims C8 and C9 -/

theorem Kind.fieldName_injective (k1 k2 : Kind) (h : k1.fieldName = k2.fieldName) : k1 = k2 := by
  cases k1 <;> cases k2 <;> first | rfl | (revert h; decide)

theorem Kind.fieldName_ne_hb_last_seen (k : Kind) : k.fieldName ≠ "hb_last_seen" := by
  cases k <;> decide

theorem Kind.fieldName_ne_hb_timeout (k : Kind) : k.fieldName ≠ "hb_timeout" := by
  cases k <;> decide

theorem JSONDict.Contains_Remove_self (data : JSONDict) (key : String) :
    JSONDict.Contains (JSONDict.Remove data key) key = false := by
  induction data with
  | nil => rfl
  | cons kv rest ih =>
    obtain ⟨k, v⟩ := kv
    by_cases h : k = key
    · simp [JSONDict.Remove, h, ih]
    · simp [JSONDict.Remove, JSONDict.Contains, h, ih]

theorem JSONDict.Contains_Remove_of_ne (data : JSONDict) (key other : String)
    (hne : other ≠ key) :
    JSONDict.Contains (JSONDict.Remove data other) key = JSONDict.Contains data key := by
  induction data with
  | nil => rfl
  | cons kv rest ih =>
    obtain ⟨k, v⟩ := kv
    by_cases h : k = other
    · have hk : k ≠ key := by rw [h]; exact hne
      simp [JSONDict.Remove, JSONDict.Contains, h, hne, ih]
    · simp [JSONDict.Remove, JSONDict.Contains, h, ih]

theorem JSONDict.Get_Remove_of_ne (data : JSONDict) (key other : String)
    (hne : other ≠ key) :
    JSONDict.Get (JSONDict.Remove data other) key = JSONDict.Get data key := by
  induction data with
  | nil => rfl
  | cons kv rest ih =>
    obtain ⟨k, v⟩ := kv
    by_cases h : k = other
    · have hk : k ≠ key := by rw [h]; exact hne
      simp [JSONDict.Remove, JSONDict.Get, h, hne, ih]
    · simp [JSONDict.Remove, JSONDict.Get, h, ih]

theorem JSONDict.Contains_of_Get (data : JSONDict) (key : String) (v : JSONObject)
    (h : JSONDict.Get data key = some v) : JSONDict.Contains data key = true := by
  induction data with
  | nil => simp [JSONDict.Get] at h
  | cons kv rest ih =>
    obtain ⟨k, w⟩ := kv
    by_cases hk : k = key
    · simp [JSONDict.Contains, hk]
    · simp only [JSONDict.Get, hk, if_false] at h
      simp [JSONDict.Contains, hk, ih h]

theorem JSONDict.Get_of_not_Contains (data : JSONDict) (key : String)
    (h : JSONDict.Contains data key = false) : JSONDict.Get data key = none := by
  induction data with
  | nil => rfl
  | cons kv rest ih =>
    obtain ⟨k, w⟩ := kv
    by_cases hk : k = key
    · simp [JSONDict.Contains, hk] at h
    · simp only [JSONDict.Contains, hk, if_false] at h
      simp [JSONDict.Get, hk, ih h]

theorem JSONDict.Contains_append (d1 d2 : JSONDict) (key : String) :
    JSONDict.Contains (d1 ++ d2) key = (JSONDict.Contains d1 key || JSONDict.Contains d2 key) := by
  induction d1 with
  | nil => simp [JSONDict.Contains]
  | cons kv rest ih =>
    obtain ⟨k, w⟩ := kv
    by_cases hk : k = key
    · simp [JSONDict.Contains, hk]
    · simp only [List.cons_append, JSONDict.Contains, hk, if_false]
      exact ih

theorem JSONDict.Contains_Set_of_ne (data : JSONDict) (key other : String) (v : JSONObject)
    (hne : other ≠ key) :
    JSONDict.Contains (JSONDict.Set data other v) key = JSONDict.Contains data key := by
  unfold JSONDict.Set
  rw [JSONDict.Contains_append, JSONDict.Contains_Remove_of_ne data key other hne]
  simp [JSONDict.Contains, hne]

theorem validateSyncKeys_of_absent (lbagent : SLoadbalancerAgent) (now : Kind → Time)
    (order : List Kind) (data : JSONDict) (k : Kind)
    (habs : JSONDict.Contains data k.fieldName = false) :
    (∀ e, validateSyncKeys lbagent now order data = .error e →
        e.args.head? ≠ some k.fieldName) ∧
    (∀ out, validateSyncKeys lbagent now order data = .ok out →
        JSONDict.Contains out k.fieldName = false) := by
  induction order generalizing data with
  | nil =>
    refine ⟨fun e h => by simp [validateSyncKeys] at h, fun out h => ?_⟩
    simp only [validateSyncKeys, Except.ok.injEq] at h
    rw [← h]; exact habs
  | cons k1 rest ih =>
    unfold validateSyncKeys
    by_cases hc : JSONDict.Contains data k1.fieldName = true
    · have hne : k1.fieldName ≠ k.fieldName := by
        intro heq
        rw [heq, habs] at hc
        cases hc
      simp only [hc, Bool.not_true, Bool.false_eq_true, if_false]
      cases hg : JSONDict.GetTime data k1.fieldName with
      | error err =>
        refine ⟨fun e h => ?_, fun out h => by simp at h⟩
        simp only [Except.error.injEq] at h
        subst h
        simpa [Error.args] using hne
      | ok newValue =>
        simp only
        by_cases hb : newValue.Before (lbagent.syncTime k1) = true
        · simp only [hb, if_true]
          exact ih (JSONDict.Remove data k1.fieldName)
            (by rw [JSONDict.Contains_Remove_of_ne data _ _ hne]; exact habs)
        · simp only [hb, Bool.false_eq_true, if_false]
          by_cases ha : newValue.After (now k1) = true
          · simp only [ha, if_true]
            refine ⟨fun e h => ?_, fun out h => by simp at h⟩
            simp only [Except.error.injEq] at h
            subst h
            simpa [Error.args] using hne
          · simp only [ha, Bool.false_eq_true, if_false]
            exact ih data habs
    · simp only [hc, Bool.not_false, if_true]
      simp only [Bool.not_eq_true] at hc
      exact ih data habs

theorem validateSyncKeys_of_stale (lbagent : SLoadbalancerAgent) (now : Kind → Time)
    (order : List Kind) (data : JSONDict) (k : Kind) (t : Time)
    (hk : k ∈ order) (hget : JSONDict.Get data k.fieldName = some (.JSONTime t))
    (hlt : t < lbagent.syncTime k) :
    (∀ e, validateSyncKeys lbagent now order data = .error e →
        e.args.head? ≠ some k.fieldName) ∧
    (∀ out, validateSyncKeys lbagent now order data = .ok out →
        JSONDict.Contains out k.fieldName = false) := by
  induction order generalizing data with
  | nil => cases hk
  | cons k1 rest ih =>
    by_cases hk1 : k1 = k
    · subst hk1
      have hc := JSONDict.Contains_of_Get data _ _ hget
      have hb : t.Before (lbagent.syncTime k1) = true := by simpa [Time.Before] using hlt
      unfold validateSyncKeys
      simp only [hc, Bool.not_true, Bool.false_eq_true, if_false, JSONDict.GetTime, hget, hb,
        if_true]
      exact validateSyncKeys_of_absent lbagent now rest _ k1
        (JSONDict.Contains_Remove_self data _)
    · have hmem : k ∈ rest := by
        rcases List.mem_cons.mp hk with h | h
        · exact absurd h.symm hk1
        · exact h
      have hne : k1.fieldName ≠ k.fieldName := fun h => hk1 (Kind.fieldName_injective _ _ h)
      unfold validateSyncKeys
      by_cases hc : JSONDict.Contains data k1.fieldName = true
      · simp only [hc, Bool.not_true, Bool.false_eq_true, if_false]
        cases hg : JSONDict.GetTime data k1.fieldName with
        | error err =>
          refine ⟨fun e h => ?_, fun out h => by simp at h⟩
          simp only [Except.error.injEq] at h
          subst h
          simpa [Error.args] using hne
        | ok newValue =>
          simp only
          by_cases hb : newValue.Before (lbagent.syncTime k1) = true
          · simp only [hb, if_true]
            exact ih (JSONDict.Remove data k1.fieldName) hmem
              (by rw [JSONDict.Get_Remove_of_ne data _ _ hne]; exact hget)
          · simp only [hb, Bool.false_eq_true, if_false]
            by_cases ha : newValue.After (now k1) = true
            · simp only [ha, if_true]
              refine ⟨fun e h => ?_, fun out h => by simp at h⟩
              simp only [Except.error.injEq] at h
              subst h
              simpa [Error.args] using hne
            · simp only [ha, Bool.false_eq_true, if_false]
              exact ih data hmem hget
      · simp only [hc, Bool.not_false, if_true]
        exact ih data hmem hget

theorem hbTimeoutValidator_cases (data : JSONDict) :
    hbTimeoutValidator data = .ok data ∨
      ∃ fmt rest, hbTimeoutValidator data = .error (.InputParameterError fmt ("hb_timeout" :: rest)) := by
  unfold hbTimeoutValidator
  cases h : JSONDict.Get data "hb_timeout" with
  | none => left; rfl
  | some v =>
    cases v with
    | JSONInt n =>
      by_cases hn : 0 ≤ n
      · left; simp [hn]
      · right; exact ⟨_, _, by simp only [if_neg hn]; rfl⟩
    | JSONNull => right; exact ⟨_, _, rfl⟩
    | JSONBool b => right; exact ⟨_, _, rfl⟩
    | JSONString s => right; exact ⟨_, _, rfl⟩
    | JSONTime t => right; exact ⟨_, _, rfl⟩

theorem storeSyncTimes_syncTime (lbagent : SLoadbalancerAgent) (data : JSONDict) (k : Kind) :
    (lbagent.storeSyncTimes data).syncTime k =
      match JSONDict.GetTime data k.fieldName with
      | .ok t => t
      | .error _ => lbagent.syncTime k := by
  cases k <;> rfl

theorem validateSyncKeys_all_absent (lbagent : SLoadbalancerAgent) (now : Kind → Time)
    (order : List Kind) (data : JSONDict)
    (habs : ∀ k ∈ order, JSONDict.Contains data k.fieldName = false) :
    validateSyncKeys lbagent now order data = .ok data := by
  induction order with
  | nil => rfl
  | cons k1 rest ih =>
    unfold validateSyncKeys
    rw [habs k1 (List.mem_cons_self _ _)]
    simp only [Bool.not_false, if_true]
    exact ih (fun k hk => habs k (List.mem_cons_of_mem _ hk))

theorem validateSyncKeys_single (lbagent : SLoadbalancerAgent) (now : Kind → Time)
    (order : List Kind) (data : JSONDict) (k : Kind) (t : Time)
    (hget : JSONDict.Get data k.fieldName = some (.JSONTime t))
    (honly : ∀ k1, k1 ≠ k → JSONDict.Contains data k1.fieldName = false) :
    validateSyncKeys lbagent now order data =
      if k ∈ order then
        if t < lbagent.syncTime k then .ok (JSONDict.Remove data k.fieldName)
        else if now k < t then
          .error (.InputParameterError "%s: new time is in the future: %s > %s"
            [k.fieldName, toString t, toString (now k)])
        else .ok data
      else .ok data := by
  induction order with
  | nil => rfl
  | cons k1 rest ih =>
    by_cases hk1 : k1 = k
    · subst hk1
      have hc := JSONDict.Contains_of_Get data _ _ hget
      unfold validateSyncKeys
      simp only [hc, Bool.not_true, Bool.false_eq_true, if_false, JSONDict.GetTime, hget,
        List.mem_cons, true_or, if_true, Time.Before, Time.After, decide_eq_true_eq]
      by_cases hb : t < lbagent.syncTime k1
      · simp only [hb, if_true]
        apply validateSyncKeys_all_absent
        intro k2 _
        by_cases h2 : k2 = k1
        · subst h2
          exact JSONDict.Contains_Remove_self data _
        · rw [JSONDict.Contains_Remove_of_ne data _ _
            (fun h => h2 (Kind.fieldName_injective _ _ h.symm))]
          exact honly k2 h2
      · simp only [hb, if_false]
        by_cases ha : now k1 < t
        · simp only [ha, if_true]
        · simp only [ha, if_false]
          rw [ih]
          simp only [hb, ha, if_false, ite_self]
    · unfold validateSyncKeys
      rw [honly k1 hk1]
      simp only [Bool.not_false, if_true]
      rw [ih]
      have hiff : (k ∈ k1 :: rest) ↔ k ∈ rest := by
        simp only [List.mem_cons]
        constructor
        · rintro (h | h)
          · exact absurd h.symm hk1
          · exact h
        · exact Or.inr
      simp only [hiff]

theorem ValidateUpdateData_of_hbTimeout_ok (lbagent : SLoadbalancerAgent) (order : List Kind)
    (now : Kind → Time) (nowHb : Time) (data : JSONDict)
    (hhb : hbTimeoutValidator data = .ok data) :
    lbagent.ValidateUpdateData order now nowHb data =
      match validateSyncKeys lbagent now order data with
      | .error err => .error err
      | .ok out => .ok (JSONDict.Set out "hb_last_seen" (.JSONTime nowHb)) := by
  simp only [SLoadbalancerAgent.ValidateUpdateData, hhb]

theorem JSONDict.Remove_comm (data : JSONDict) (k1 k2 : String) :
    JSONDict.Remove (JSONDict.Remove data k1) k2 = JSONDict.Remove (JSONDict.Remove data k2) k1 := by
  induction data with
  | nil => rfl
  | cons kv rest ih =>
    obtain ⟨k, v⟩ := kv
    by_cases h1 : k = k1
    · subst h1
      by_cases h2 : k = k2
      · subst h2
        simp [JSONDict.Remove]
      · simp [JSONDict.Remove, h2, ih]
    · by_cases h2 : k = k2
      · subst h2
        simp [JSONDict.Remove, h1, ih]
      · simp [JSONDict.Remove, h1, h2, ih]

theorem JSONDict.GetTime_Remove_of_ne (data : JSONDict) (key other : String)
    (hne : other ≠ key) :
    JSONDict.GetTime (JSONDict.Remove data other) key = JSONDict.GetTime data key := by
  unfold JSONDict.GetTime
  rw [JSONDict.Get_Remove_of_ne data key other hne]

theorem validateSyncKeys_stale_eq_removed (lbagent : SLoadbalancerAgent) (now : Kind → Time)
    (order : List Kind) (data : JSONDict) (k : Kind) (t : Time)
    (hk : k ∈ order) (hget : JSONDict.Get data k.fieldName = some (.JSONTime t))
    (hlt : t < lbagent.syncTime k) :
    validateSyncKeys lbagent now order data =
      validateSyncKeys lbagent now order (JSONDict.Remove data k.fieldName) := by
  induction order generalizing data with
  | nil => cases hk
  | cons k1 rest ih =>
    by_cases hk1 : k1 = k
    · subst hk1
      have hc := JSONDict.Contains_of_Get data _ _ hget
      have hb : t.Before (lbagent.syncTime k1) = true := by simpa [Time.Before] using hlt
      conv_lhs => unfold validateSyncKeys
      conv_rhs => unfold validateSyncKeys
      simp only [hc, Bool.not_true, Bool.false_eq_true, if_false, JSONDict.GetTime, hget, hb,
        if_true, JSONDict.Contains_Remove_self, Bool.not_false]
    · have hmem : k ∈ rest := by
        rcases List.mem_cons.mp hk with h | h
        · exact absurd h.symm hk1
        · exact h
      have hne : k.fieldName ≠ k1.fieldName := fun h => hk1 (Kind.fieldName_injective _ _ h.symm)
      conv_lhs => unfold validateSyncKeys
      conv_rhs => unfold validateSyncKeys
      rw [JSONDict.Contains_Remove_of_ne data _ _ hne, JSONDict.GetTime_Remove_of_ne data _ _ hne]
      by_cases hc : JSONDict.Contains data k1.fieldName = true
      · simp only [hc, Bool.not_true, Bool.false_eq_true, if_false]
        cases hg : JSONDict.GetTime data k1.fieldName with
        | error err => rfl
        | ok newValue =>
          simp only
          by_cases hb : newValue.Before (lbagent.syncTime k1) = true
          · simp only [hb, if_true]
            rw [JSONDict.Remove_comm data k.fieldName k1.fieldName]
            exact ih (JSONDict.Remove data k1.fieldName) hmem
              (by rw [JSONDict.Get_Remove_of_ne data _ _ hne.symm]; exact hget)
          · simp only [hb, Bool.false_eq_true, if_false]
            by_cases ha : newValue.After (now k1) = true
            · simp only [ha, if_true]
            · simp only [ha, Bool.false_eq_true, if_false]
              exact ih data hmem hget
      · simp only [hc, Bool.not_false, if_true]
        exact ih data hmem hget

theorem hbTimeoutValidator_Remove (data : JSONDict) (k : Kind) :
    hbTimeoutValidator (JSONDict.Remove data k.fieldName) =
      match hbTimeoutValidator data with
      | .error err => .error err
      | .ok _ => .ok (JSONDict.Remove data k.fieldName) := by
  unfold hbTimeoutValidator
  rw [JSONDict.Get_Remove_of_ne data _ _ (Kind.fieldName_ne_hb_timeout k)]
  cases h : JSONDict.Get data "hb_timeout" with
  | none => rfl
  | some v =>
    cases v with
    | JSONInt n =>
      by_cases hn : 0 ≤ n
      · simp [hn]
      · simp [hn]
    | JSONNull => rfl
    | JSONBool b => rfl
    | JSONString s => rfl
    | JSONTime t => rfl

/-- C8: for every agent, every kind `k` and every well-formed timestamp `t` submitted for
`k` in an update, if `t` is earlier than the stored sync timestamp of `k`, then
`ValidateUpdateData` treats the update exactly as the same update without the field `k`:
the stale report raises no error and is removed from the payload. So no error of the call
names `k`; when `k` is the only sync field and the `hb_timeout` field is absent or valid the
update is accepted; and whenever the update is accepted the payload returned no longer
holds `k`, so that the update leaves the stored timestamp of `k` unchanged. -/
theorem ValidateUpdateData_drops_stale_sync_report (lbagent : SLoadbalancerAgent)
    (order : List Kind) (now : Kind → Time) (nowHb : Time) (data : JSONDict) (k : Kind)
    (t : Time) (hk : k ∈ order)
    (hget : JSONDict.Get data k.fieldName = some (.JSONTime t))
    (hlt : t < lbagent.syncTime k) :
    lbagent.ValidateUpdateData order now nowHb data =
        lbagent.ValidateUpdateData order now nowHb (JSONDict.Remove data k.fieldName) ∧
    (∀ e, lbagent.ValidateUpdateData order now nowHb data = .error e →
        e.args.head? ≠ some k.fieldName) ∧
    (hbTimeoutValidator data = .ok data →
      (∀ k1, k1 ≠ k → JSONDict.Contains data k1.fieldName = false) →
      lbagent.ValidateUpdateData order now nowHb data =
        .ok (JSONDict.Set (JSONDict.Remove data k.fieldName) "hb_last_seen"
          (.JSONTime nowHb))) ∧
    (∀ out, lbagent.ValidateUpdateData order now nowHb data = .ok out →
        JSONDict.Contains out k.fieldName = false ∧
        (lbagent.storeSyncTimes out).syncTime k = lbagent.syncTime k) := by
  obtain ⟨herr, hok⟩ := validateSyncKeys_of_stale lbagent now order data k t hk hget hlt
  have heq := validateSyncKeys_stale_eq_removed lbagent now order data k t hk hget hlt
  refine ⟨?_, ?_, ?_, ?_⟩
  · unfold SLoadbalancerAgent.ValidateUpdateData
    rw [hbTimeoutValidator_Remove]
    rcases hbTimeoutValidator_cases data with hv | ⟨fmt, rest, hv⟩
    · rw [hv]
      simp only
      rw [heq]
    · rw [hv]
  · intro e h
    unfold SLoadbalancerAgent.ValidateUpdateData at h
    rcases hbTimeoutValidator_cases data with hv | ⟨fmt, rest, hv⟩
    · rw [hv] at h
      simp only at h
      cases hs : validateSyncKeys lbagent now order data with
      | error e1 =>
        rw [hs] at h
        simp only [Except.error.injEq] at h
        subst h
        exact herr e1 hs
      | ok d1 =>
        rw [hs] at h
        simp at h
    · rw [hv] at h
      simp only [Except.error.injEq] at h
      subst h
      simpa [Error.args] using (Kind.fieldName_ne_hb_timeout k).symm
  · intro hhb honly
    rw [ValidateUpdateData_of_hbTimeout_ok lbagent order now nowHb data hhb,
      validateSyncKeys_single lbagent now order data k t hget honly, if_pos hk, if_pos hlt]
  · intro out h
    unfold SLoadbalancerAgent.ValidateUpdateData at h
    rcases hbTimeoutValidator_cases data with hv | ⟨fmt, rest, hv⟩
    · rw [hv] at h
      simp only at h
      cases hs : validateSyncKeys lbagent now order data with
      | error e1 =>
        rw [hs] at h
        simp at h
      | ok d1 =>
        rw [hs] at h
        simp only [Except.ok.injEq] at h
        subst h
        have hc : JSONDict.Contains (JSONDict.Set d1 "hb_last_seen" (.JSONTime nowHb))
            k.fieldName = false := by
          rw [JSONDict.Contains_Set_of_ne _ _ _ _ (Kind.fieldName_ne_hb_last_seen k).symm]
          exact hok d1 hs
        refine ⟨hc, ?_⟩
        rw [storeSyncTimes_syncTime, JSONDict.GetTime, JSONDict.Get_of_not_Contains _ _ hc]
    · rw [hv] at h
      simp at h

/-- C8 witness: the stored timestamps are `50`, the update reports `40` for the listeners
and `60` for the backends, the clock reads `100`. -/
theorem ValidateUpdateData_drops_stale_sync_report_witness :
    (sampleAgent "a" 90 50).ValidateUpdateData Kind.all (fun _ => 100) 100 staleReport =
        (sampleAgent "a" 90 50).ValidateUpdateData Kind.all (fun _ => 100) 100
          (JSONDict.Remove staleReport Kind.loadbalancer_listeners.fieldName) ∧
    (∀ e, (sampleAgent "a" 90 50).ValidateUpdateData Kind.all (fun _ => 100) 100 staleReport
          = .error e → e.args.head? ≠ some Kind.loadbalancer_listeners.fieldName) ∧
    (hbTimeoutValidator staleReport = .ok staleReport →
      (∀ k1, k1 ≠ Kind.loadbalancer_listeners →
        JSONDict.Contains staleReport k1.fieldName = false) →
      (sampleAgent "a" 90 50).ValidateUpdateData Kind.all (fun _ => 100) 100 staleReport =
        .ok (JSONDict.Set (JSONDict.Remove staleReport Kind.loadbalancer_listeners.fieldName)
          "hb_last_seen" (.JSONTime 100))) ∧
    (∀ out, (sampleAgent "a" 90 50).ValidateUpdateData Kind.all (fun _ => 100) 100 staleReport
          = .ok out →
        JSONDict.Contains out Kind.loadbalancer_listeners.fieldName = false ∧
        ((sampleAgent "a" 90 50).storeSyncTimes out).syncTime Kind.loadbalancer_listeners
          = (sampleAgent "a" 90 50).syncTime Kind.loadbalancer_listeners) :=
  ValidateUpdateData_drops_stale_sync_report (sampleAgent "a" 90 50) Kind.all (fun _ => 100) 100
    staleReport Kind.loadbalancer_listeners 40 (by decide) (by decide) (by decide)

/-- C9 (as stated) fails: the stored `loadbalancers` timestamp is `100`, the clock reads
`10`, and the update reports `50` as its only field; `50` is strictly after the clock
reading, yet the update is accepted (the report is dropped as stale). -/
theorem ValidateUpdateData_accepts_future_stale_report :
    (10 : Time) < 50 ∧
    (sampleAgent "a" 90 100).ValidateUpdateData Kind.all (fun _ => 10) 10
        [(Kind.loadbalancers.fieldName, .JSONTime 50)]
      = .ok [("hb_last_seen", .JSONTime 10)] :=
  ⟨by decide, rfl⟩

/-- C9 (amended): for every agent, every kind `k` and every well-formed timestamp `t`
submitted for `k` as the only sync field of an update whose `hb_timeout` field is absent or
valid, `ValidateUpdateData` fails with an `InvalidParameter` error if and only if `t` is
strictly after the current server time and not earlier than the stored sync timestamp of
`k`; in every other case, in particular when `t` is equal to or earlier than the current
time, it does not fail. -/
theorem ValidateUpdateData_fails_iff_future_and_not_stale (lbagent : SLoadbalancerAgent)
    (order : List Kind) (now : Kind → Time) (nowHb : Time) (data : JSONDict) (k : Kind)
    (t : Time) (hk : k ∈ order)
    (hget : JSONDict.Get data k.fieldName = some (.JSONTime t))
    (honly : ∀ k1, k1 ≠ k → JSONDict.Contains data k1.fieldName = false)
    (hhb : hbTimeoutValidator data = .ok data) :
    ((∃ e, lbagent.ValidateUpdateData order now nowHb data = .error e ∧
          e.isInputParameter = true) ↔
        (now k < t ∧ lbagent.syncTime k ≤ t)) ∧
    (¬ (now k < t ∧ lbagent.syncTime k ≤ t) →
      ∃ out, lbagent.ValidateUpdateData order now nowHb data = .ok out) ∧
    (t ≤ now k → ∃ out, lbagent.ValidateUpdateData order now nowHb data = .ok out) := by
  have hres := validateSyncKeys_single lbagent now order data k t hget honly
  rw [if_pos hk] at hres
  have hval := ValidateUpdateData_of_hbTimeout_ok lbagent order now nowHb data hhb
  have hfut : now k < t ∧ lbagent.syncTime k ≤ t →
      ∃ e, lbagent.ValidateUpdateData order now nowHb data = .error e ∧
        e.isInputParameter = true := by
    rintro ⟨h1, h2⟩
    rw [if_neg (not_lt.mpr h2), if_pos h1] at hres
    rw [hval, hres]
    exact ⟨_, rfl, rfl⟩
  have hok : ¬ (now k < t ∧ lbagent.syncTime k ≤ t) →
      ∃ out, lbagent.ValidateUpdateData order now nowHb data = .ok out := by
    intro hn
    by_cases hb : t < lbagent.syncTime k
    · rw [if_pos hb] at hres
      rw [hval, hres]
      exact ⟨_, rfl⟩
    · have ha : ¬ now k < t := fun h => hn ⟨h, not_lt.mp hb⟩
      rw [if_neg hb, if_neg ha] at hres
      rw [hval, hres]
      exact ⟨_, rfl⟩
  refine ⟨⟨?_, hfut⟩, hok, fun hle => hok (fun h => absurd h.1 (not_lt.mpr hle))⟩
  rintro ⟨e, he, _⟩
  by_contra hn
  obtain ⟨out, hout⟩ := hok hn
  rw [hout] at he
  cases he

/-- C9 (amended) witness: the stored timestamps are `50`, the clock reads `100`, the update
reports `120` for the certificates. -/
theorem ValidateUpdateData_fails_iff_future_and_not_stale_witness :
    ((∃ e, (sampleAgent "a" 90 50).ValidateUpdateData Kind.all (fun _ => 100) 100
            [(Kind.loadbalancer_certificates.fieldName, .JSONTime 120)] = .error e ∧
          e.isInputParameter = true) ↔
        ((100 : Time) < 120 ∧
          (sampleAgent "a" 90 50).syncTime Kind.loadbalancer_certificates ≤ 120)) ∧
    (¬ ((100 : Time) < 120 ∧
          (sampleAgent "a" 90 50).syncTime Kind.loadbalancer_certificates ≤ 120) →
      ∃ out, (sampleAgent "a" 90 50).ValidateUpdateData Kind.all (fun _ => 100) 100
            [(Kind.loadbalancer_certificates.fieldName, .JSONTime 120)] = .ok out) ∧
    ((120 : Time) ≤ 100 →
      ∃ out, (sampleAgent "a" 90 50).ValidateUpdateData Kind.all (fun _ => 100) 100
            [(Kind.loadbalancer_certificates.fieldName, .JSONTime 120)] = .ok out) :=
  ValidateUpdateData_fails_iff_future_and_not_stale (sampleAgent "a" 90 50) Kind.all
    (fun _ => 100) 100 [(Kind.loadbalancer_certificates.fieldName, .JSONTime 120)]
    Kind.loadbalancer_certificates 120 (by decide) (by decide)
    (by intro k1 hk1; cases k1 <;> first | rfl | exact absurd rfl hk1) (by rfl)

/-! ## Priority collisions: claim C10 -/

theorem validatePeer_of_same_priority (p pp : SLoadbalancerAgentParamsVrrp)
    (h : p.Priority = pp.Priority) :
    ∃ msg, p.validatePeer pp = .error msg := by
  unfold SLoadbalancerAgentParamsVrrp.validatePeer
  rw [if_pos h]
  exact ⟨_, rfl⟩

theorem validateCreatePeers_conflict (params : SLoadbalancerAgentParams)
    (lbagents : List SLoadbalancerAgent) (P : SLoadbalancerAgent) (pp : SLoadbalancerAgentParams)
    (hP : P ∈ lbagents) (hPp : P.Params = some pp)
    (hset : ∀ a ∈ lbagents, a.Params ≠ none)
    (hprio : params.Vrrp.Priority = pp.Vrrp.Priority) :
    ∃ args, validateCreatePeers params lbagents =
      .error (.error (.ConflictError "conflict with lbagent %s(%s): %v" args)) := by
  induction lbagents with
  | nil => cases hP
  | cons peer rest ih =>
    unfold validateCreatePeers
    cases hq : peer.Params with
    | none => exact absurd hq (hset peer (List.mem_cons_self _ _))
    | some q =>
      simp only
      cases hv : params.Vrrp.validatePeer q.Vrrp with
      | error err => exact ⟨_, rfl⟩
      | ok u =>
        simp only
        rcases List.mem_cons.mp hP with hhead | htail
        · subst hhead
          rw [hPp] at hq
          cases hq
          obtain ⟨msg, hmsg⟩ := validatePeer_of_same_priority _ _ hprio
          rw [hmsg] at hv
          cases hv
        · exact ih htail (fun a ha => hset a (List.mem_cons_of_mem _ ha))

theorem patchCheckPeerPriorities_conflict (lbagent : SLoadbalancerAgent)
    (params : SLoadbalancerAgentParams) (lbagents : List SLoadbalancerAgent)
    (P : SLoadbalancerAgent) (pp : SLoadbalancerAgentParams)
    (hP : P ∈ lbagents) (hne : P.Id ≠ lbagent.Id) (hPp : P.Params = some pp)
    (hset : ∀ a ∈ lbagents, a.Params ≠ none)
    (hprio : params.Vrrp.Priority = pp.Vrrp.Priority) :
    ∃ args, patchCheckPeerPriorities lbagent params lbagents =
      .error (.error (.ConflictError "peer lbagent %s(%s) already has vrrp priority %d" args)) := by
  induction lbagents with
  | nil => cases hP
  | cons peer rest ih =>
    unfold patchCheckPeerPriorities
    have hrest : P ∈ rest → ∃ args, patchCheckPeerPriorities lbagent params rest =
        .error (.error (.ConflictError "peer lbagent %s(%s) already has vrrp priority %d" args)) :=
      fun h => ih h (fun a ha => hset a (List.mem_cons_of_mem _ ha))
    by_cases hid : peer.Id = lbagent.Id
    · rw [if_pos hid]
      rcases List.mem_cons.mp hP with hhead | htail
      · subst hhead
        exact absurd hid hne
      · exact hrest htail
    · rw [if_neg hid]
      cases hq : peer.Params with
      | none => exact absurd hq (hset peer (List.mem_cons_self _ _))
      | some q =>
        simp only
        by_cases hpr : q.Vrrp.Priority = params.Vrrp.Priority
        · rw [if_pos hpr]
          exact ⟨_, rfl⟩
        · rw [if_neg hpr]
          rcases List.mem_cons.mp hP with hhead | htail
          · subst hhead
            rw [hPp] at hq
            cases hq
            exact absurd hprio.symm hpr
          · exact hrest htail

theorem FetchById_of_mem (db : Tables) (cluster : SLoadbalancerCluster)
    (h : cluster ∈ db.clusters) : ∃ found, FetchById db cluster.Id = .ok found := by
  unfold FetchById
  cases hf : db.clusters.find? (fun c => decide (c.Id = cluster.Id)) with
  | some found => exact ⟨found, rfl⟩
  | none =>
    have := List.find?_eq_none.mp hf cluster h
    simp at this

theorem patchCheckRouterId_ok_or_conflict (db : Tables) (lbagent : SLoadbalancerAgent)
    (oldParams params : SLoadbalancerAgentParams) (cluster : SLoadbalancerCluster)
    (hcl : cluster ∈ db.clusters) (hc : lbagent.ClusterId = cluster.Id) :
    patchCheckRouterId db lbagent oldParams params = .ok () ∨
      ∃ args, patchCheckRouterId db lbagent oldParams params =
        .error (.error (.ConflictError "lbcluster %s(%s) already has virtual_router_id %d" args)) := by
  unfold patchCheckRouterId
  by_cases hv : params.Vrrp.VirtualRouterId ≠ oldParams.Vrrp.VirtualRouterId
  · rw [if_pos hv, hc]
    obtain ⟨found, hfound⟩ := FetchById_of_mem db cluster hcl
    rw [hfound]
    simp only [findByVrrpRouterIdInZone]
    cases List.find? _ db.clusters with
    | none => left; rfl
    | some other => right; exact ⟨_, rfl⟩
  · rw [if_neg hv]
    left; rfl

/-- C10 (as stated) fails: agents `p` and `x` of cluster `c1` both have priority `100`; a
valid patch of `x` that only moves it to another interface keeps the priority `100`, equal
to the priority of `p`, and is accepted: the priority check runs only when the priority
changes. -/
theorem patch_keeping_colliding_priority_is_accepted :
    samplePeer "p" 100 ∈ (Tables.mk [samplePeer "p" 100, samplePeer "x" 100] [sampleCluster]).agents ∧
    (samplePeer "x" 100).ClusterId = (samplePeer "p" 100).ClusterId ∧
    (samplePeer "x" 100).Id ≠ (samplePeer "p" 100).Id ∧
    (samplePeer "p" 100).Params = some (sampleParams 100 5) ∧
    (sampleParamsOnEth1 100 5).Vrrp.Priority = (sampleParams 100 5).Vrrp.Priority ∧
    ((samplePeer "x" 100).PerformParamsPatch
        (Tables.mk [samplePeer "p" 100, samplePeer "x" 100] [sampleCluster])
        (fun _ => .ok (sampleParamsOnEth1 100 5)) (fun _ => none)).2 = .ok () :=
  ⟨by decide, rfl, by decide, rfl, rfl, rfl⟩

/-- C10 (amended): for every cluster whose agents all have their params set, and every
agent `P` in it: creating a new agent in that cluster (the request having passed the field
validators) with a VRRP priority equal to the priority of `P` is rejected with a `Conflict`
error; and patching another agent of that cluster (not `P`), whose current priority
differs from the priority of `P`, with a valid payload whose new priority equals the
priority of `P`, is rejected with a `Conflict` error and leaves the tables as they were. -/
theorem priority_collision_is_conflict (db : Tables) (cluster : SLoadbalancerCluster)
    (P : SLoadbalancerAgent) (pp : SLoadbalancerAgentParams)
    (hcl : cluster ∈ db.clusters) (hP : P ∈ db.agents) (hPc : P.ClusterId = cluster.Id)
    (hPp : P.Params = some pp)
    (hset : ∀ a ∈ db.agents, a.ClusterId = cluster.Id → a.Params ≠ none) :
    (∀ (params : SLoadbalancerAgentParams) (base : Except Error Unit),
      params.Vrrp.Priority = pp.Vrrp.Priority →
      ∃ fmt args, ValidateCreateData db (.ok (cluster, params)) base =
        .error (.error (.ConflictError fmt args))) ∧
    (∀ (X : SLoadbalancerAgent) (oldParams params : SLoadbalancerAgentParams)
        (paramsV : SLoadbalancerAgentParams → Except Error SLoadbalancerAgentParams)
        (updateErr : String → Option Error),
      X.ClusterId = cluster.Id → X.Id ≠ P.Id → X.Params = some oldParams →
      paramsV oldParams = .ok params →
      oldParams.Vrrp.Priority ≠ pp.Vrrp.Priority →
      params.Vrrp.Priority = pp.Vrrp.Priority →
      ∃ fmt args, X.PerformParamsPatch db paramsV updateErr =
        (db, .error (.error (.ConflictError fmt args)))) := by
  have hmem : P ∈ db.agents.filter (fun lbagent => decide (lbagent.ClusterId = cluster.Id)) :=
    List.mem_filter.mpr ⟨hP, by simpa using hPc⟩
  have hsetf : ∀ a ∈ db.agents.filter (fun lbagent => decide (lbagent.ClusterId = cluster.Id)),
      a.Params ≠ none := by
    intro a ha
    obtain ⟨h1, h2⟩ := List.mem_filter.mp ha
    exact hset a h1 (by simpa using h2)
  constructor
  · intro params base hprio
    obtain ⟨args, hargs⟩ := validateCreatePeers_conflict params _ P pp hmem hPp hsetf hprio
    refine ⟨"conflict with lbagent %s(%s): %v", args, ?_⟩
    simp only [ValidateCreateData, getLoadbalancerAgents, hargs]
  · intro X oldParams params paramsV updateErr hXc hXid hXp hV hold hnew
    have hchange : params.Vrrp.Priority ≠ oldParams.Vrrp.Priority := by
      rw [hnew]; exact fun h => hold h.symm
    obtain ⟨args, hargs⟩ :=
      patchCheckPeerPriorities_conflict X params _ P pp hmem (fun h => hXid h.symm) hPp hsetf hnew
    have hprio : patchCheckPriority db X oldParams params =
        .error (.error (.ConflictError "peer lbagent %s(%s) already has vrrp priority %d" args)) := by
      simp only [patchCheckPriority, if_pos hchange, getLoadbalancerAgents, hXc, hargs]
    rcases patchCheckRouterId_ok_or_conflict db X oldParams params cluster hcl hXc with
      hok | ⟨args2, hconf⟩
    · refine ⟨"peer lbagent %s(%s) already has vrrp priority %d", args, ?_⟩
      simp only [SLoadbalancerAgent.PerformParamsPatch, hXp, hV, hok, hprio]
    · refine ⟨"lbcluster %s(%s) already has virtual_router_id %d", args2, ?_⟩
      simp only [SLoadbalancerAgent.PerformParamsPatch, hXp, hV, hconf]

/-- C10 (amended) witness: agent `p` of cluster `c1` has priority `100` and agent `x` has
priority `200`; creating an agent with priority `100`, and patching `x` to priority `100`,
are both rejected with `Conflict`. -/
theorem priority_collision_is_conflict_witness :
    (∃ fmt args,
      ValidateCreateData (Tables.mk [samplePeer "p" 100, samplePeer "x" 200] [sampleCluster])
          (.ok (sampleCluster, sampleParams 100 5)) (.ok ()) =
        .error (.error (.ConflictError fmt args))) ∧
    (∃ fmt args,
      (samplePeer "x" 200).PerformParamsPatch
          (Tables.mk [samplePeer "p" 100, samplePeer "x" 200] [sampleCluster])
          (fun _ => .ok (sampleParams 100 5)) (fun _ => none) =
        (Tables.mk [samplePeer "p" 100, samplePeer "x" 200] [sampleCluster],
          .error (.error (.ConflictError fmt args)))) :=
  have h := priority_collision_is_conflict
    (Tables.mk [samplePeer "p" 100, samplePeer "x" 200] [sampleCluster]) sampleCluster
    (samplePeer "p" 100) (sampleParams 100 5) (by decide) (by decide) rfl rfl (by decide)
  ⟨h.1 (sampleParams 100 5) (.ok ()) rfl,
   h.2 (samplePeer "x" 200) (sampleParams 200 5) (sampleParams 100 5)
     (fun _ => .ok (sampleParams 100 5)) (fun _ => none) rfl (by decide) rfl rfl (by decide) rfl⟩


/-! ## The peer check: claim C13 -/

/-- C13: for every two VRRP blocks `a` and `b`, `validatePeer(a, b)` returns no error if and
only if the priorities differ and `virtualRouterId`, `advertInt`, `preempt` and `authPass`
are identical; replacing `interface` and `garpMasterRefresh` in either block by any other
values does not change the result. -/
theorem validatePeer_ok_iff (a b : SLoadbalancerAgentParamsVrrp) :
    (a.validatePeer b = .ok () ↔
      (a.Priority ≠ b.Priority ∧ a.VirtualRouterId = b.VirtualRouterId ∧
        a.AdvertInt = b.AdvertInt ∧ a.Preempt = b.Preempt ∧ a.Pass = b.Pass)) ∧
    (∀ (i1 i2 : String) (g1 g2 : Int),
      ({ a with Interface := i1, GarpMasterRefresh := g1 }).validatePeer
          { b with Interface := i2, GarpMasterRefresh := g2 } = a.validatePeer b) := by
  constructor
  · unfold SLoadbalancerAgentParamsVrrp.validatePeer
    by_cases h1 : a.Priority = b.Priority
    · simp [h1]
    · by_cases h2 : a.VirtualRouterId = b.VirtualRouterId
      · by_cases h3 : a.AdvertInt = b.AdvertInt
        · by_cases h4 : a.Preempt = b.Preempt
          · by_cases h5 : a.Pass = b.Pass
            · simp [h1, h2, h3, h4, h5]
            · simp [h1, h2, h3, h4, h5]
          · simp [h1, h2, h3, h4]
        · simp [h1, h2, h3]
      · simp [h1, h2]
  · intro i1 i2 g1 g2
    rfl

/-! ## Field validation of the VRRP block: claim C17 -/

/-- C17: for every VRRP block, `Vrrp.Validate` returns no error if and only if `interface`
has a length (Go `len`, in bytes) between 1 and 16, `authPass` a length between 1 and 8,
`priority` is in `[1,255]` and `virtualRouterId` is in `[1,255]`; any error it returns is
an `InvalidParameter` error; and the block after the call is the block before it. -/
theorem Vrrp_Validate_ok_iff (p : SLoadbalancerAgentParamsVrrp) :
    (p.Validate.2 = none ↔
      ((1 ≤ p.Interface.utf8ByteSize ∧ p.Interface.utf8ByteSize ≤ 16) ∧
        (1 ≤ p.Pass.utf8ByteSize ∧ p.Pass.utf8ByteSize ≤ 8) ∧
        (1 ≤ p.Priority ∧ p.Priority ≤ 255) ∧
        (1 ≤ p.VirtualRouterId ∧ p.VirtualRouterId ≤ 255))) ∧
    (∀ e, p.Validate.2 = some e → e.isInputParameter = true) ∧
    p.Validate.1 = p := by
  unfold SLoadbalancerAgentParamsVrrp.Validate
  by_cases h1 : p.Interface.utf8ByteSize = 0 ∨ p.Interface.utf8ByteSize > 16
  · rw [if_pos h1]
    refine ⟨⟨fun h => by simp at h, fun h => by omega⟩, ?_, rfl⟩
    intro e he
    simp only [Option.some.injEq] at he
    rw [← he]; rfl
  · rw [if_neg h1]
    by_cases h2 : p.Pass.utf8ByteSize = 0 ∨ p.Pass.utf8ByteSize > 8
    · rw [if_pos h2]
      refine ⟨⟨fun h => by simp at h, fun h => by omega⟩, ?_, rfl⟩
      intro e he
      simp only [Option.some.injEq] at he
      rw [← he]; rfl
    · rw [if_neg h2]
      by_cases h3 : p.Priority < 1 ∨ p.Priority > 255
      · rw [if_pos h3]
        refine ⟨⟨fun h => by simp at h, fun h => by omega⟩, ?_, rfl⟩
        intro e he
        simp only [Option.some.injEq] at he
        rw [← he]; rfl
      · rw [if_neg h3]
        by_cases h4 : p.VirtualRouterId < 1 ∨ p.VirtualRouterId > 255
        · rw [if_pos h4]
          refine ⟨⟨fun h => by simp at h, fun h => by omega⟩, ?_, rfl⟩
          intro e he
          simp only [Option.some.injEq] at he
          rw [← he]; rfl
        · rw [if_neg h4]
          refine ⟨⟨fun _ => by omega, fun _ => rfl⟩, ?_, rfl⟩
          intro e he
          simp at he

/-- C17 witness data: the block of `sampleParams` validates, and the same block with the
priority 0 is rejected with an `InvalidParameter` error and left as it is. -/
theorem Vrrp_Validate_ok_iff_witness :
    (sampleParams 100 5).Vrrp.Validate.2 = none ∧
    (∃ e, (sampleParams 0 5).Vrrp.Validate.2 = some e ∧ e.isInputParameter = true) ∧
    (sampleParams 0 5).Vrrp.Validate.1 = (sampleParams 0 5).Vrrp :=
  ⟨(Vrrp_Validate_ok_iff (sampleParams 100 5).Vrrp).1.mpr (by decide),
   ⟨_, rfl, (Vrrp_Validate_ok_iff (sampleParams 0 5).Vrrp).2.1 _ rfl⟩,
   (Vrrp_Validate_ok_iff (sampleParams 0 5).Vrrp).2.2⟩

/-! ## Defaulting: claims C18 and C19 -/

theorem Vrrp_initDefault_eq (p : SLoadbalancerAgentParamsVrrp) (data : ParamsPayload) :
    p.initDefault data =
      { p with
        AdvertInt := if data.vrrp.advert_int.isSome then p.AdvertInt else 1
        GarpMasterRefresh := if data.vrrp.garp_master_refresh.isSome then p.GarpMasterRefresh else 27
        Pass := if data.vrrp.pass.isSome then p.Pass else "YunionLB" } := by
  unfold SLoadbalancerAgentParamsVrrp.initDefault
  cases data.vrrp.advert_int <;> cases data.vrrp.garp_master_refresh <;>
    cases data.vrrp.pass <;> rfl

theorem Haproxy_initDefault_eq (p : SLoadbalancerAgentParamsHaproxy) (data : ParamsPayload) :
    p.initDefault data =
      { p with
        GlobalNbthread := if data.haproxy.global_nbthread.isSome then p.GlobalNbthread else 1
        GlobalLog :=
          if data.haproxy.global_log.isSome then p.GlobalLog else "log /dev/log local0 info"
        LogHttp := if data.haproxy.log_http.isSome then p.LogHttp else true
        LogNormal := if data.haproxy.log_normal.isSome then p.LogNormal else true } := by
  unfold SLoadbalancerAgentParamsHaproxy.initDefault
  cases data.haproxy.global_nbthread <;> cases data.haproxy.global_log <;>
    cases data.haproxy.log_http <;> cases data.haproxy.log_normal <;> rfl

theorem Telegraf_initDefault_eq (env : Env) (p : SLoadbalancerAgentParamsTelegraf) :
    p.initDefault env =
      { p with
        InfluxDbOutputUrl := if p.InfluxDbOutputUrl = "" then env.serviceURL else p.InfluxDbOutputUrl
        HaproxyInputInterval := if p.HaproxyInputInterval = 0 then 5 else p.HaproxyInputInterval
        InfluxDbOutputName := if p.InfluxDbOutputName = "" then "telegraf" else p.InfluxDbOutputName } := by
  unfold SLoadbalancerAgentParamsTelegraf.initDefault
  by_cases h1 : p.InfluxDbOutputUrl = "" <;> by_cases h2 : p.HaproxyInputInterval = 0 <;>
    by_cases h3 : p.InfluxDbOutputName = "" <;> simp [h1, h2, h3]

theorem Params_initDefault_eq (env : Env) (p : SLoadbalancerAgentParams) (data : ParamsPayload) :
    p.initDefault env data =
      { KeepalivedConfTmpl :=
          if p.KeepalivedConfTmpl = "" then env.loadbalancerKeepalivedConfTmplDefaultEncoded
          else p.KeepalivedConfTmpl
        HaproxyConfTmpl :=
          if p.HaproxyConfTmpl = "" then env.loadbalancerHaproxyConfTmplDefaultEncoded
          else p.HaproxyConfTmpl
        TelegrafConfTmpl :=
          if p.TelegrafConfTmpl = "" then env.loadbalancerTelegrafConfTmplDefaultEncoded
          else p.TelegrafConfTmpl
        Vrrp := p.Vrrp.initDefault data
        Haproxy := p.Haproxy.initDefault data
        Telegraf := p.Telegraf.initDefault env } := by
  unfold SLoadbalancerAgentParams.initDefault
  by_cases h1 : p.KeepalivedConfTmpl = "" <;> by_cases h2 : p.HaproxyConfTmpl = "" <;>
    by_cases h3 : p.TelegrafConfTmpl = "" <;> simp [h1, h2, h3]

theorem Vrrp_initDefault_idem (p : SLoadbalancerAgentParamsVrrp) (data : ParamsPayload) :
    (p.initDefault data).initDefault data = p.initDefault data := by
  rw [Vrrp_initDefault_eq (p.initDefault data), Vrrp_initDefault_eq p]
  cases data.vrrp.advert_int <;> cases data.vrrp.garp_master_refresh <;>
    cases data.vrrp.pass <;> rfl

theorem Haproxy_initDefault_idem (p : SLoadbalancerAgentParamsHaproxy) (data : ParamsPayload) :
    (p.initDefault data).initDefault data = p.initDefault data := by
  rw [Haproxy_initDefault_eq (p.initDefault data), Haproxy_initDefault_eq p]
  cases data.haproxy.global_nbthread <;> cases data.haproxy.global_log <;>
    cases data.haproxy.log_http <;> cases data.haproxy.log_normal <;> rfl

theorem ite_default_idem (s d : String) :
    (if (if s = "" then d else s) = "" then d else (if s = "" then d else s)) =
      (if s = "" then d else s) := by
  by_cases h : s = ""
  · by_cases hd : d = ""
    · simp [h, hd]
    · simp [h, hd]
  · simp [h]

theorem Telegraf_initDefault_idem (env : Env) (p : SLoadbalancerAgentParamsTelegraf) :
    (p.initDefault env).initDefault env = p.initDefault env := by
  rw [Telegraf_initDefault_eq env (p.initDefault env), Telegraf_initDefault_eq env p]
  simp only [ite_default_idem]
  by_cases h2 : p.HaproxyInputInterval = 0
  · simp [h2]
  · simp [h2]

/-- C18: for every parameter set and request payload, defaulting is idempotent: applying
`initDefault` twice with the same payload and the same answer of the influxdb service-URL
lookup gives exactly the parameter set obtained by applying it once. -/
theorem initDefault_idempotent (env : Env) (p : SLoadbalancerAgentParams) (data : ParamsPayload) :
    (p.initDefault env data).initDefault env data = p.initDefault env data := by
  rw [Params_initDefault_eq env (p.initDefault env data), Params_initDefault_eq env p]
  simp only [ite_default_idem, Vrrp_initDefault_idem, Haproxy_initDefault_idem,
    Telegraf_initDefault_idem]

/-- C19 (as stated) fails: the payload supplies `keepalived_conf_tmpl` as the empty string
and `telegraf.haproxy_input_interval` as `0`; the parameter set holds these supplied values
before `initDefault`, and holds the default template and the interval `5` after it. -/
theorem initDefault_overrides_supplied_zero_values :
    zeroValuePayload.keepalived_conf_tmpl = some "" ∧
    zeroValuePayload.telegraf.haproxy_input_interval = some 0 ∧
    (zeroValuePayload.Unmarshal (sampleParams 100 5)).KeepalivedConfTmpl = "" ∧
    (zeroValuePayload.Unmarshal (sampleParams 100 5)).Telegraf.HaproxyInputInterval = 0 ∧
    ((zeroValuePayload.Unmarshal (sampleParams 100 5)).initDefault sampleEnv
        zeroValuePayload).KeepalivedConfTmpl = "a2VlcGFsaXZlZA==" ∧
    ((zeroValuePayload.Unmarshal (sampleParams 100 5)).initDefault sampleEnv
        zeroValuePayload).Telegraf.HaproxyInputInterval = 5 := by
  decide

/-- C19 (amended): for every parameter set and request payload, `initDefault` changes a
vrrp or haproxy field only when its key is absent from the payload, so that every vrrp and
haproxy field the caller supplied, also with a zero value, is the same after as before;
it changes a template field or a telegraf field only when the field holds its zero value
(empty string, `0`), whether or not the payload supplied it, so that every template and
telegraf field that holds a non-zero value is the same after as before. -/
theorem initDefault_frame (env : Env) (p : SLoadbalancerAgentParams) (data : ParamsPayload) :
    ((p.initDefault env data).Vrrp.Priority = p.Vrrp.Priority ∧
      (p.initDefault env data).Vrrp.VirtualRouterId = p.Vrrp.VirtualRouterId ∧
      (p.initDefault env data).Vrrp.Preempt = p.Vrrp.Preempt ∧
      (p.initDefault env data).Vrrp.Interface = p.Vrrp.Interface ∧
      (data.vrrp.advert_int.isSome = true →
        (p.initDefault env data).Vrrp.AdvertInt = p.Vrrp.AdvertInt) ∧
      (data.vrrp.garp_master_refresh.isSome = true →
        (p.initDefault env data).Vrrp.GarpMasterRefresh = p.Vrrp.GarpMasterRefresh) ∧
      (data.vrrp.pass.isSome = true → (p.initDefault env data).Vrrp.Pass = p.Vrrp.Pass)) ∧
    ((p.initDefault env data).Haproxy.LogTcp = p.Haproxy.LogTcp ∧
      (p.initDefault env data).Haproxy.TuneHttpMaxhdr = p.Haproxy.TuneHttpMaxhdr ∧
      (data.haproxy.global_nbthread.isSome = true →
        (p.initDefault env data).Haproxy.GlobalNbthread = p.Haproxy.GlobalNbthread) ∧
      (data.haproxy.global_log.isSome = true →
        (p.initDefault env data).Haproxy.GlobalLog = p.Haproxy.GlobalLog) ∧
      (data.haproxy.log_http.isSome = true →
        (p.initDefault env data).Haproxy.LogHttp = p.Haproxy.LogHttp) ∧
      (data.haproxy.log_normal.isSome = true →
        (p.initDefault env data).Haproxy.LogNormal = p.Haproxy.LogNormal)) ∧
    ((p.KeepalivedConfTmpl ≠ "" →
        (p.initDefault env data).KeepalivedConfTmpl = p.KeepalivedConfTmpl) ∧
      (p.HaproxyConfTmpl ≠ "" →
        (p.initDefault env data).HaproxyConfTmpl = p.HaproxyConfTmpl) ∧
      (p.TelegrafConfTmpl ≠ "" →
        (p.initDefault env data).TelegrafConfTmpl = p.TelegrafConfTmpl)) ∧
    ((p.initDefault env data).Telegraf.InfluxDbOutputUnsafeSsl =
        p.Telegraf.InfluxDbOutputUnsafeSsl ∧
      (p.Telegraf.InfluxDbOutputUrl ≠ "" →
        (p.initDefault env data).Telegraf.InfluxDbOutputUrl = p.Telegraf.InfluxDbOutputUrl) ∧
      (p.Telegraf.HaproxyInputInterval ≠ 0 →
        (p.initDefault env data).Telegraf.HaproxyInputInterval =
          p.Telegraf.HaproxyInputInterval) ∧
      (p.Telegraf.InfluxDbOutputName ≠ "" →
        (p.initDefault env data).Telegraf.InfluxDbOutputName =
          p.Telegraf.InfluxDbOutputName)) := by
  rw [Params_initDefault_eq, Vrrp_initDefault_eq, Haproxy_initDefault_eq,
    Telegraf_initDefault_eq]
  refine ⟨⟨rfl, rfl, rfl, rfl, ?_, ?_, ?_⟩, ⟨rfl, rfl, ?_, ?_, ?_, ?_⟩, ⟨?_, ?_, ?_⟩,
    ⟨rfl, ?_, ?_, ?_⟩⟩ <;> intro h <;> simp [h]

/-- C19 (amended) witness: the payload supplies only the VRRP priority; the stored
templates and telegraf fields are non-zero and stay as they are. -/
theorem initDefault_frame_witness :
    ((storedParams 100 5 3).initDefault sampleEnv (priorityPayload 150)).KeepalivedConfTmpl
        = (storedParams 100 5 3).KeepalivedConfTmpl ∧
    ((storedParams 100 5 3).initDefault sampleEnv (priorityPayload 150)).Telegraf.HaproxyInputInterval
        = (storedParams 100 5 3).Telegraf.HaproxyInputInterval :=
  have h := initDefault_frame sampleEnv (storedParams 100 5 3) (priorityPayload 150)
  ⟨h.2.2.1.1 (by decide), h.2.2.2.2.2.1 (by decide)⟩

/-! ## Template blobs: claim C20 -/

theorem validateTmpl_of_invalid (env : Env) (k s : String) (h : env.validBlob s = false) :
    ∃ fmt rest, validateTmpl env k s = some (.InputParameterError fmt (k :: rest)) := by
  unfold Env.validBlob at h
  unfold validateTmpl
  cases hd : env.base64Decode s with
  | error err => exact ⟨_, _, rfl⟩
  | ok d =>
    rw [hd] at h
    simp only at h ⊢
    cases hp : env.templateParse d with
    | none => simp [hp] at h
    | some err => exact ⟨_, _, rfl⟩

theorem validateTmpl_of_valid (env : Env) (k s : String) (h : env.validBlob s = true) :
    validateTmpl env k s = none := by
  unfold Env.validBlob at h
  unfold validateTmpl
  cases hd : env.base64Decode s with
  | error err => simp [hd] at h
  | ok d =>
    rw [hd] at h
    simp only at h ⊢
    cases hp : env.templateParse d with
    | none => rfl
    | some err => simp [hp] at h

theorem ne_empty_of_invalid (env : Env) (s : String) (hempty : env.validBlob "" = true)
    (h : env.validBlob s = false) : s ≠ "" := by
  intro hs
  rw [hs, hempty] at h
  cases h

/-- C20: for every encoded template blob `s` and key `k`, `validateTmpl(k, s)` returns an
`InvalidParameter` error naming `k` whenever `s` is not a valid standard-base64 string or
its decoded text does not parse as a template, and returns no error otherwise; hence
(the empty blob being valid, as it is for the Go library) `ParamSet.Validate` fails with an
`InvalidParameter` error whenever one of the three template fields is such a blob. -/
theorem validateTmpl_rejects_exactly_invalid_blobs (env : Env)
    (hempty : env.validBlob "" = true) :
    (∀ k s, env.validBlob s = false →
      ∃ fmt rest, validateTmpl env k s = some (.InputParameterError fmt (k :: rest))) ∧
    (∀ k s, env.validBlob s = true → validateTmpl env k s = none) ∧
    (∀ (p : SLoadbalancerAgentParams) (data : ParamsPayload),
      (env.validBlob p.KeepalivedConfTmpl = false ∨ env.validBlob p.HaproxyConfTmpl = false ∨
        env.validBlob p.TelegrafConfTmpl = false) →
      ∃ e, (p.Validate env data).2 = some e ∧ e.isInputParameter = true) := by
  refine ⟨fun k s h => validateTmpl_of_invalid env k s h,
    fun k s h => validateTmpl_of_valid env k s h, ?_⟩
  intro p data hbad
  unfold SLoadbalancerAgentParams.Validate
  simp only
  rw [Params_initDefault_eq]
  simp only
  cases h1 : validateTmpl env "keepalived_conf_tmpl"
      (if p.KeepalivedConfTmpl = "" then env.loadbalancerKeepalivedConfTmplDefaultEncoded
       else p.KeepalivedConfTmpl) with
  | some e1 =>
    refine ⟨e1, rfl, ?_⟩
    by_cases hv : env.validBlob (if p.KeepalivedConfTmpl = "" then
        env.loadbalancerKeepalivedConfTmplDefaultEncoded else p.KeepalivedConfTmpl) = true
    · rw [validateTmpl_of_valid env _ _ hv] at h1
      cases h1
    · obtain ⟨fmt, rest, hr⟩ := validateTmpl_of_invalid env "keepalived_conf_tmpl" _
        (by simpa using hv)
      rw [hr] at h1
      cases h1
      rfl
  | none =>
    simp only
    cases h2 : validateTmpl env "haproxy_conf_tmpl"
        (if p.HaproxyConfTmpl = "" then env.loadbalancerHaproxyConfTmplDefaultEncoded
         else p.HaproxyConfTmpl) with
    | some e2 =>
      refine ⟨e2, rfl, ?_⟩
      by_cases hv : env.validBlob (if p.HaproxyConfTmpl = "" then
          env.loadbalancerHaproxyConfTmplDefaultEncoded else p.HaproxyConfTmpl) = true
      · rw [validateTmpl_of_valid env _ _ hv] at h2
        cases h2
      · obtain ⟨fmt, rest, hr⟩ := validateTmpl_of_invalid env "haproxy_conf_tmpl" _
          (by simpa using hv)
        rw [hr] at h2
        cases h2
        rfl
    | none =>
      simp only
      cases h3 : validateTmpl env "telegraf_conf_tmpl"
          (if p.TelegrafConfTmpl = "" then env.loadbalancerTelegrafConfTmplDefaultEncoded
           else p.TelegrafConfTmpl) with
      | some e3 =>
        refine ⟨e3, rfl, ?_⟩
        by_cases hv : env.validBlob (if p.TelegrafConfTmpl = "" then
            env.loadbalancerTelegrafConfTmplDefaultEncoded else p.TelegrafConfTmpl) = true
        · rw [validateTmpl_of_valid env _ _ hv] at h3
          cases h3
        · obtain ⟨fmt, rest, hr⟩ := validateTmpl_of_invalid env "telegraf_conf_tmpl" _
            (by simpa using hv)
          rw [hr] at h3
          cases h3
          rfl
      | none =>
        exfalso
        rcases hbad with hb | hb | hb
        · have hne := ne_empty_of_invalid env _ hempty hb
          rw [if_neg hne] at h1
          obtain ⟨fmt, rest, hr⟩ := validateTmpl_of_invalid env "keepalived_conf_tmpl" _ hb
          rw [hr] at h1
          cases h1
        · have hne := ne_empty_of_invalid env _ hempty hb
          rw [if_neg hne] at h2
          obtain ⟨fmt, rest, hr⟩ := validateTmpl_of_invalid env "haproxy_conf_tmpl" _ hb
          rw [hr] at h2
          cases h2
        · have hne := ne_empty_of_invalid env _ hempty hb
          rw [if_neg hne] at h3
          obtain ⟨fmt, rest, hr⟩ := validateTmpl_of_invalid env "telegraf_conf_tmpl" _ hb
          rw [hr] at h3
          cases h3

/-- C20 witness: with the stand-in library, the blob `"!"` is rejected under the key
`haproxy_conf_tmpl`, a stored template is accepted, and a parameter set whose haproxy
template is `"!"` does not validate. -/
theorem validateTmpl_rejects_exactly_invalid_blobs_witness :
    (∃ fmt rest, validateTmpl sampleEnv "haproxy_conf_tmpl" "!" =
        some (.InputParameterError fmt ("haproxy_conf_tmpl" :: rest))) ∧
    validateTmpl sampleEnv "haproxy_conf_tmpl" "aGFwcm94eQ==" = none ∧
    (∃ e, (({ storedParams 100 5 1 with HaproxyConfTmpl := "!" }).Validate sampleEnv
        emptyPayload).2 = some e ∧ e.isInputParameter = true) :=
  have h := validateTmpl_rejects_exactly_invalid_blobs sampleEnv (by decide)
  ⟨h.1 "haproxy_conf_tmpl" "!" (by decide), h.2.1 "haproxy_conf_tmpl" "aGFwcm94eQ==" (by decide),
   h.2.2 { storedParams 100 5 1 with HaproxyConfTmpl := "!" } emptyPayload
     (Or.inr (Or.inl (by decide)))⟩

/-! ## Zone uniqueness of the virtual router id: claims C11 and C12 -/

theorem findByVrrpRouterIdInZone_eq (db : Tables) (zoneId : String) (routerId : Int) :
    findByVrrpRouterIdInZone db zoneId routerId =
      .ok (db.clusters.find? (fun cluster =>
        cluster.ZoneId = zoneId && clusterUsesRouterId db cluster routerId)) := rfl

theorem ValidateCreateData_after_peers (db : Tables) (cluster : SLoadbalancerCluster)
    (params : SLoadbalancerAgentParams) (base : Except Error Unit)
    (lbagents : List SLoadbalancerAgent)
    (hq : getLoadbalancerAgents db cluster.Id = .ok lbagents)
    (hpeers : validateCreatePeers params lbagents = .ok ()) :
    ValidateCreateData db (.ok (cluster, params)) base =
      match findByVrrpRouterIdInZone db cluster.ZoneId params.Vrrp.VirtualRouterId with
      | .error err => .error (.error err)
      | .ok (some other) =>
        if other.Id ≠ cluster.Id then
          .error (.error (.ConflictError "lbcluster %s(%s) already has virtual_router_id %d"
            [other.Name, other.Id, toString params.Vrrp.VirtualRouterId]))
        else
          match base with
          | .error err => .error (.error err)
          | .ok _ => .ok ()
      | .ok none =>
        match base with
        | .error err => .error (.error err)
        | .ok _ => .ok () := by
  unfold ValidateCreateData
  simp only [hq, hpeers]
  cases findByVrrpRouterIdInZone db cluster.ZoneId params.Vrrp.VirtualRouterId with
  | error err => rfl
  | ok found =>
    cases found with
    | none => rfl
    | some other => rfl

/-- C11: for every create request into cluster `C` that passes the peer checks, the zone
check rejects it with a `Conflict` error naming the cluster found, when the cluster found
in the zone of `C` for the virtual router id of the new agent is a cluster other than `C`;
and when every cluster of the zone that uses this virtual router id is `C` itself, the
zone check does not reject it: the outcome is the outcome of the remaining base
validation. -/
theorem create_zone_check (db : Tables) (cluster : SLoadbalancerCluster)
    (params : SLoadbalancerAgentParams) (base : Except Error Unit)
    (lbagents : List SLoadbalancerAgent)
    (hq : getLoadbalancerAgents db cluster.Id = .ok lbagents)
    (hpeers : validateCreatePeers params lbagents = .ok ()) :
    (∀ other,
      findByVrrpRouterIdInZone db cluster.ZoneId params.Vrrp.VirtualRouterId = .ok (some other) →
      other.Id ≠ cluster.Id →
      ValidateCreateData db (.ok (cluster, params)) base =
        .error (.error (.ConflictError "lbcluster %s(%s) already has virtual_router_id %d"
          [other.Name, other.Id, toString params.Vrrp.VirtualRouterId]))) ∧
    ((∀ c ∈ db.clusters, c.ZoneId = cluster.ZoneId →
        clusterUsesRouterId db c params.Vrrp.VirtualRouterId = true → c.Id = cluster.Id) →
      ValidateCreateData db (.ok (cluster, params)) base =
        match base with
        | .error err => .error (.error err)
        | .ok _ => .ok ()) := by
  have hmain := ValidateCreateData_after_peers db cluster params base lbagents hq hpeers
  constructor
  · intro other hfound hne
    rw [hmain, hfound]
    simp only [if_pos hne]
  · intro honly
    rw [hmain, findByVrrpRouterIdInZone_eq]
    cases hf : db.clusters.find? (fun c =>
        decide (c.ZoneId = cluster.ZoneId) &&
          clusterUsesRouterId db c params.Vrrp.VirtualRouterId) with
    | none => rfl
    | some other =>
      have hmem := List.mem_of_find?_eq_some hf
      have hprop := List.find?_some hf
      simp only [Bool.and_eq_true, decide_eq_true_eq] at hprop
      have hid : other.Id = cluster.Id := honly other hmem hprop.1 hprop.2
      simp only [hid, ne_eq, not_true_eq_false, if_false]

/-- C11 witness: agent `a` of cluster `c1` uses the virtual router id 5. Creating an agent
with the virtual router id 5 in cluster `c2` of the same zone is rejected with `Conflict`;
creating one with priority 200 and the virtual router id 5 in `c1` itself is accepted. -/
theorem create_zone_check_witness :
    ValidateCreateData scenarioTables (.ok (sampleCluster2, sampleParams 100 5)) (.ok ()) =
      .error (.error (.ConflictError "lbcluster %s(%s) already has virtual_router_id %d"
        ["cluster1", "c1", "5"])) ∧
    ValidateCreateData scenarioTables (.ok (sampleCluster, sampleParams 200 5)) (.ok ()) =
      .ok () :=
  ⟨(create_zone_check scenarioTables sampleCluster2 (sampleParams 100 5) (.ok ()) [] rfl rfl).1
      sampleCluster rfl (by decide),
   (create_zone_check scenarioTables sampleCluster (sampleParams 200 5) (.ok ())
      [samplePeer "a" 100] rfl rfl).2 (by decide)⟩

/-- C12 (code defect): the zone-uniqueness check of the patch does not exclude the own
cluster of the agent. Patching `x` to the virtual router id 6 while the update of its peer
`p` fails leaves cluster `c1` with `x` on 6 and `p` on 5; patching `p` to 6 then finds
`c1` itself, the own cluster of `p`, and is rejected with `Conflict`, whereas the create
path accepts the same virtual router id in `c1`. -/
theorem patch_rejects_router_id_of_own_cluster :
    (samplePeerOn "x" 100 5).PerformParamsPatch pairTables (fun _ => .ok (sampleParams 100 6))
        failOnP =
      (mixedTables, .error (.error (.InternalServerError "update %s failed" ["p"]))) ∧
    (samplePeerOn "p" 200 5).ClusterId = sampleCluster.Id ∧
    findByVrrpRouterIdInZone mixedTables sampleCluster.ZoneId 6 = .ok (some sampleCluster) ∧
    (samplePeerOn "p" 200 5).PerformParamsPatch mixedTables (fun _ => .ok (sampleParams 200 6))
        (fun _ => none) =
      (mixedTables, .error (.error (.ConflictError
        "lbcluster %s(%s) already has virtual_router_id %d" ["cluster1", "c1", "6"]))) ∧
    ValidateCreateData { mixedTables with agents := [samplePeerOn "x" 100 6] }
        (.ok (sampleCluster, sampleParams 200 6)) (.ok ()) = .ok () :=
  ⟨rfl, rfl, rfl, rfl, rfl⟩

/-! ## Effects of the parameter patch: claims C14 to C16 -/

theorem mem_setParams (db : Tables) (id : String) (q : SLoadbalancerAgentParams)
    (r1 : SLoadbalancerAgent) (h : r1 ∈ (db.setParams id q).agents) :
    ∃ r ∈ db.agents, r1.Id = r.Id ∧ r1.ClusterId = r.ClusterId ∧
      ((r.Id = id ∧ r1.Params = some q) ∨ (r.Id ≠ id ∧ r1 = r)) := by
  unfold Tables.setParams at h
  simp only [List.mem_map] at h
  obtain ⟨r, hr, hrw⟩ := h
  refine ⟨r, hr, ?_⟩
  by_cases hid : r.Id = id
  · rw [if_pos hid] at hrw
    subst hrw
    exact ⟨rfl, rfl, Or.inl ⟨hid, rfl⟩⟩
  · rw [if_neg hid] at hrw
    subst hrw
    exact ⟨rfl, rfl, Or.inr ⟨hid, rfl⟩⟩

theorem mem_of_mem_setParams_of_ne (db : Tables) (id : String) (q : SLoadbalancerAgentParams)
    (r1 : SLoadbalancerAgent) (h : r1 ∈ (db.setParams id q).agents) (hne : r1.Id ≠ id) :
    r1 ∈ db.agents := by
  obtain ⟨r, hr, hid, _, hcase⟩ := mem_setParams db id q r1 h
  rcases hcase with ⟨h1, _⟩ | ⟨_, h2⟩
  · exact absurd (hid.trans h1) hne
  · rw [h2]; exact hr

theorem patchUpdatePeers_rows (lbagent : SLoadbalancerAgent) (params : SLoadbalancerAgentParams)
    (updateErr : String → Option Error) (peers : List SLoadbalancerAgent) (db db1 : Tables)
    (res : Except Fault Unit)
    (h : patchUpdatePeers lbagent params updateErr peers db = (db1, res)) :
    ∀ r1 ∈ db1.agents, ∃ r ∈ db.agents, r1.Id = r.Id ∧ r1.ClusterId = r.ClusterId ∧
      (r1 = r ∨ ∃ a ∈ peers, a.Id = r.Id ∧ a.Id ≠ lbagent.Id ∧
        ∃ pa, a.Params = some pa ∧
          r1.Params = some { pa with Vrrp := pa.Vrrp.updateBy params.Vrrp }) := by
  induction peers generalizing db with
  | nil =>
    simp only [patchUpdatePeers, Prod.mk.injEq] at h
    obtain ⟨hdb, _⟩ := h
    subst hdb
    intro r1 hr1
    exact ⟨r1, hr1, rfl, rfl, Or.inl rfl⟩
  | cons a0 rest ih =>
    unfold patchUpdatePeers at h
    by_cases hid : lbagent.Id ≠ a0.Id
    · rw [if_pos hid] at h
      cases hp : a0.Params with
      | none =>
        simp only [hp, Prod.mk.injEq] at h
        obtain ⟨hdb, _⟩ := h
        subst hdb
        intro r1 hr1
        exact ⟨r1, hr1, rfl, rfl, Or.inl rfl⟩
      | some p0 =>
        simp only [hp] at h
        cases hu : updateErr a0.Id with
        | some err =>
          simp only [hu, Prod.mk.injEq] at h
          obtain ⟨hdb, _⟩ := h
          subst hdb
          intro r1 hr1
          exact ⟨r1, hr1, rfl, rfl, Or.inl rfl⟩
        | none =>
          simp only [hu] at h
          intro r1 hr1
          obtain ⟨r2, hr2, hid2, hcl2, hcase2⟩ := ih _ h r1 hr1
          obtain ⟨r, hr, hid3, hcl3, hcase3⟩ := mem_setParams db a0.Id _ r2 hr2
          refine ⟨r, hr, hid2.trans hid3, hcl2.trans hcl3, ?_⟩
          rcases hcase2 with heq | ⟨a, ha, haid, hane, pa, hpa, hr1p⟩
          · rcases hcase3 with ⟨h1, h2⟩ | ⟨_, h2⟩
            · right
              refine ⟨a0, List.mem_cons_self _ _, h1.symm, fun hh => hid hh.symm, p0, hp, ?_⟩
              rw [heq]; exact h2
            · left
              rw [heq]; exact h2
          · right
            exact ⟨a, List.mem_cons_of_mem _ ha, haid.trans hid3, hane, pa, hpa, hr1p⟩
    · rw [if_neg hid] at h
      intro r1 hr1
      obtain ⟨r, hr, hid2, hcl2, hcase2⟩ := ih _ h r1 hr1
      refine ⟨r, hr, hid2, hcl2, ?_⟩
      rcases hcase2 with heq | ⟨a, ha, rest2⟩
      · exact Or.inl heq
      · exact Or.inr ⟨a, List.mem_cons_of_mem _ ha, rest2⟩

theorem patchUpdatePeers_updates (lbagent : SLoadbalancerAgent)
    (params : SLoadbalancerAgentParams) (updateErr : String → Option Error)
    (peers : List SLoadbalancerAgent) (db db1 : Tables)
    (h : patchUpdatePeers lbagent params updateErr peers db = (db1, .ok ())) :
    ∀ a ∈ peers, a.Id ≠ lbagent.Id → ∀ r1 ∈ db1.agents, r1.Id = a.Id →
      ∃ a2 ∈ peers, a2.Id = a.Id ∧ ∃ pa, a2.Params = some pa ∧
        r1.Params = some { pa with Vrrp := pa.Vrrp.updateBy params.Vrrp } := by
  induction peers generalizing db with
  | nil => intro a ha; cases ha
  | cons a0 rest ih =>
    unfold patchUpdatePeers at h
    by_cases hid : lbagent.Id ≠ a0.Id
    · rw [if_pos hid] at h
      cases hp : a0.Params with
      | none => simp [hp] at h
      | some p0 =>
        simp only [hp] at h
        cases hu : updateErr a0.Id with
        | some err => simp [hu] at h
        | none =>
          simp only [hu] at h
          intro a ha hane r1 hr1 hr1id
          rcases List.mem_cons.mp ha with hhead | htail
          · subst hhead
            obtain ⟨r2, hr2, hid2, _, hcase2⟩ :=
              patchUpdatePeers_rows lbagent params updateErr rest _ db1 _ h r1 hr1
            rcases hcase2 with heq | ⟨a3, ha3, ha3id, _, pa, hpa, hr1p⟩
            · obtain ⟨r, _, hid3, _, hcase3⟩ := mem_setParams db a.Id _ r2 hr2
              rcases hcase3 with ⟨_, h2⟩ | ⟨h1, h2⟩
              · exact ⟨a, List.mem_cons_self _ _, rfl, p0, hp, by rw [heq]; exact h2⟩
              · exact absurd (hid3.symm.trans (hid2.symm.trans hr1id)) h1
            · exact ⟨a3, List.mem_cons_of_mem _ ha3, ha3id.trans (hid2.symm.trans hr1id), pa,
                hpa, hr1p⟩
          · obtain ⟨a2, ha2, rest2⟩ := ih _ h a htail hane r1 hr1 hr1id
            exact ⟨a2, List.mem_cons_of_mem _ ha2, rest2⟩
    · rw [if_neg hid] at h
      intro a ha hane r1 hr1 hr1id
      rcases List.mem_cons.mp ha with hhead | htail
      · subst hhead
        exact absurd (not_not.mp hid).symm hane
      · obtain ⟨a2, ha2, rest2⟩ := ih _ h a htail hane r1 hr1 hr1id
        exact ⟨a2, List.mem_cons_of_mem _ ha2, rest2⟩

theorem patchUpdatePeers_error (lbagent : SLoadbalancerAgent)
    (params : SLoadbalancerAgentParams) (updateErr : String → Option Error)
    (peers : List SLoadbalancerAgent) (db db1 : Tables) (e : Error)
    (h : patchUpdatePeers lbagent params updateErr peers db = (db1, .error (.error e))) :
    ∃ id, updateErr id = some e := by
  induction peers generalizing db with
  | nil => simp [patchUpdatePeers] at h
  | cons a0 rest ih =>
    unfold patchUpdatePeers at h
    by_cases hid : lbagent.Id ≠ a0.Id
    · rw [if_pos hid] at h
      cases hp : a0.Params with
      | none => simp [hp] at h
      | some p0 =>
        simp only [hp] at h
        cases hu : updateErr a0.Id with
        | some err =>
          simp only [hu, Prod.mk.injEq, Except.error.injEq, Fault.error.injEq] at h
          exact ⟨a0.Id, by rw [hu, h.2]⟩
        | none =>
          simp only [hu] at h
          exact ih _ h
    · rw [if_neg hid] at h
      exact ih _ h

theorem PerformParamsPatch_ok_inv (X : SLoadbalancerAgent) (db db1 : Tables)
    (oldParams params : SLoadbalancerAgentParams)
    (paramsV : SLoadbalancerAgentParams → Except Error SLoadbalancerAgentParams)
    (updateErr : String → Option Error)
    (hXp : X.Params = some oldParams) (hV : paramsV oldParams = .ok params)
    (hneeds : oldParams.Vrrp.needsUpdatePeer params.Vrrp = true)
    (hres : X.PerformParamsPatch db paramsV updateErr = (db1, .ok ())) :
    patchUpdatePeers X params updateErr
        ((db.setParams X.Id params).agents.filter
          (fun lbagent => decide (lbagent.ClusterId = X.ClusterId)))
        (db.setParams X.Id params) = (db1, .ok ()) := by
  unfold SLoadbalancerAgent.PerformParamsPatch at hres
  simp only [hXp, hV] at hres
  cases h1 : patchCheckRouterId db X oldParams params with
  | error f => simp [h1] at hres
  | ok u1 =>
    simp only [h1] at hres
    cases h2 : patchCheckPriority db X oldParams params with
    | error f => simp [h2] at hres
    | ok u2 =>
      simp only [h2] at hres
      cases h3 : updateErr X.Id with
      | some err => simp [h3] at hres
      | none =>
        simp only [h3, hneeds, if_true, getLoadbalancerAgents] at hres
        exact hres

/-- C14: for every successful parameter patch of agent `X` with validated new params
`params` for which `needsUpdatePeer(old, new)` holds (success includes the success of every
peer update): afterwards every other agent of the cluster of `X` has `virtualRouterId`,
`advertInt`, `preempt` and `authPass` equal to those of `params`, and has the `priority`,
`interface` and `garpMasterRefresh` that the row of the same id had before the patch, the
rest of its params being unchanged too; the row of `X` holds `params`. -/
theorem patch_propagates_shared_vrrp_fields (X : SLoadbalancerAgent) (db db1 : Tables)
    (oldParams params : SLoadbalancerAgentParams)
    (paramsV : SLoadbalancerAgentParams → Except Error SLoadbalancerAgentParams)
    (updateErr : String → Option Error)
    (hXp : X.Params = some oldParams) (hV : paramsV oldParams = .ok params)
    (hneeds : oldParams.Vrrp.needsUpdatePeer params.Vrrp = true)
    (hres : X.PerformParamsPatch db paramsV updateErr = (db1, .ok ())) :
    (∀ peer1 ∈ db1.agents, peer1.ClusterId = X.ClusterId → peer1.Id ≠ X.Id →
      ∃ peer ∈ db.agents, peer.Id = peer1.Id ∧ peer.ClusterId = peer1.ClusterId ∧
        ∃ before after, peer.Params = some before ∧ peer1.Params = some after ∧
          after.Vrrp.VirtualRouterId = params.Vrrp.VirtualRouterId ∧
          after.Vrrp.AdvertInt = params.Vrrp.AdvertInt ∧
          after.Vrrp.Preempt = params.Vrrp.Preempt ∧
          after.Vrrp.Pass = params.Vrrp.Pass ∧
          after.Vrrp.Priority = before.Vrrp.Priority ∧
          after.Vrrp.Interface = before.Vrrp.Interface ∧
          after.Vrrp.GarpMasterRefresh = before.Vrrp.GarpMasterRefresh ∧
          after = { before with Vrrp := before.Vrrp.updateBy params.Vrrp }) ∧
    (∀ x1 ∈ db1.agents, x1.Id = X.Id → x1.Params = some params) := by
  have hloop := PerformParamsPatch_ok_inv X db db1 oldParams params paramsV updateErr hXp hV
    hneeds hres
  constructor
  · intro peer1 hmem hcl hne
    obtain ⟨r2, hr2, hid2, hcl2, _⟩ :=
      patchUpdatePeers_rows X params updateErr _ _ db1 _ hloop peer1 hmem
    have hr2ne : r2.Id ≠ X.Id := fun h => hne (hid2.trans h)
    have hr2L : r2 ∈ (db.setParams X.Id params).agents.filter
        (fun lbagent => decide (lbagent.ClusterId = X.ClusterId)) :=
      List.mem_filter.mpr ⟨hr2, by simpa using hcl2.symm.trans hcl⟩
    obtain ⟨a2, ha2, ha2id, pa, hpa, hp1⟩ :=
      patchUpdatePeers_updates X params updateErr _ _ db1 hloop r2 hr2L hr2ne peer1 hmem hid2
    obtain ⟨ha2mem, ha2cl⟩ := List.mem_filter.mp ha2
    have ha2ne : a2.Id ≠ X.Id := fun h => hr2ne (ha2id.symm.trans h)
    have ha2db : a2 ∈ db.agents := mem_of_mem_setParams_of_ne db X.Id params a2 ha2mem ha2ne
    refine ⟨a2, ha2db, ha2id.trans hid2.symm, ?_, pa, _, hpa, hp1, rfl, rfl, rfl, rfl, rfl,
      rfl, rfl, rfl⟩
    rw [hcl]
    simpa using ha2cl
  · intro x1 hmem hid
    obtain ⟨r2, hr2, hid2, _, hcase⟩ :=
      patchUpdatePeers_rows X params updateErr _ _ db1 _ hloop x1 hmem
    rcases hcase with heq | ⟨a, _, haid, hane, _⟩
    · obtain ⟨r, _, hid3, _, hcase3⟩ := mem_setParams db X.Id params r2 hr2
      rcases hcase3 with ⟨_, h2⟩ | ⟨h1, _⟩
      · rw [heq]; exact h2
      · exact absurd (hid3.symm.trans (hid2.symm.trans hid)) h1
    · exact absurd (haid.trans (hid2.symm.trans hid)) hane

/-- C14 witness: `x` is patched from the virtual router id 5 to 6; its peers `p` and `q`
follow and keep their priorities 200 and 50; the agent `o` of another cluster is not
touched. -/
theorem patch_propagates_shared_vrrp_fields_witness :
    (∀ peer1 ∈ trioTablesPatched.agents, peer1.ClusterId = (samplePeerOn "x" 100 5).ClusterId →
      peer1.Id ≠ (samplePeerOn "x" 100 5).Id →
      ∃ peer ∈ trioTables.agents, peer.Id = peer1.Id ∧ peer.ClusterId = peer1.ClusterId ∧
        ∃ before after, peer.Params = some before ∧ peer1.Params = some after ∧
          after.Vrrp.VirtualRouterId = (sampleParams 100 6).Vrrp.VirtualRouterId ∧
          after.Vrrp.AdvertInt = (sampleParams 100 6).Vrrp.AdvertInt ∧
          after.Vrrp.Preempt = (sampleParams 100 6).Vrrp.Preempt ∧
          after.Vrrp.Pass = (sampleParams 100 6).Vrrp.Pass ∧
          after.Vrrp.Priority = before.Vrrp.Priority ∧
          after.Vrrp.Interface = before.Vrrp.Interface ∧
          after.Vrrp.GarpMasterRefresh = before.Vrrp.GarpMasterRefresh ∧
          after = { before with Vrrp := before.Vrrp.updateBy (sampleParams 100 6).Vrrp }) ∧
    (∀ x1 ∈ trioTablesPatched.agents, x1.Id = (samplePeerOn "x" 100 5).Id →
      x1.Params = some (sampleParams 100 6)) :=
  patch_propagates_shared_vrrp_fields (samplePeerOn "x" 100 5) trioTables trioTablesPatched
    (sampleParams 100 5) (sampleParams 100 6) (fun _ => .ok (sampleParams 100 6))
    (fun _ => none) rfl rfl rfl rfl

/-- C15: for every parameter patch that returns an `InvalidParameter` or `Conflict` error
(the failures of the row updates being backing-store errors, of neither kind), the tables
after the call are the tables before it: the stored params of the patched agent and of
every other agent are exactly what they were. -/
theorem failed_patch_persists_nothing (X : SLoadbalancerAgent) (db db1 : Tables)
    (paramsV : SLoadbalancerAgentParams → Except Error SLoadbalancerAgentParams)
    (updateErr : String → Option Error) (e : Error)
    (hupd : ∀ id err, updateErr id = some err →
      err.isInputParameter = false ∧ err.isConflict = false)
    (hres : X.PerformParamsPatch db paramsV updateErr = (db1, .error (.error e)))
    (hkind : e.isInputParameter = true ∨ e.isConflict = true) :
    db1 = db := by
  unfold SLoadbalancerAgent.PerformParamsPatch at hres
  cases hXp : X.Params with
  | none => simp [hXp] at hres
  | some oldParams =>
    simp only [hXp] at hres
    cases hV : paramsV oldParams with
    | error err =>
      simp only [hV, Prod.mk.injEq] at hres
      exact hres.1.symm
    | ok params =>
      simp only [hV] at hres
      cases h1 : patchCheckRouterId db X oldParams params with
      | error f =>
        simp only [h1, Prod.mk.injEq] at hres
        exact hres.1.symm
      | ok u1 =>
        simp only [h1] at hres
        cases h2 : patchCheckPriority db X oldParams params with
        | error f =>
          simp only [h2, Prod.mk.injEq] at hres
          exact hres.1.symm
        | ok u2 =>
          simp only [h2] at hres
          cases h3 : updateErr X.Id with
          | some err =>
            simp only [h3, Prod.mk.injEq] at hres
            exact hres.1.symm
          | none =>
            simp only [h3, getLoadbalancerAgents] at hres
            exfalso
            by_cases hn : oldParams.Vrrp.needsUpdatePeer params.Vrrp = true
            · simp only [hn, if_true] at hres
              obtain ⟨id, hid⟩ := patchUpdatePeers_error X params updateErr _ _ db1 e hres
              obtain ⟨k1, k2⟩ := hupd id e hid
              rcases hkind with hk | hk
              · rw [k1] at hk; cases hk
              · rw [k2] at hk; cases hk
            · simp [hn] at hres

/-- C15 witness: `x` (priority 100) is patched to the priority 200 of its peer `p`; the
patch returns `Conflict` and the tables are as before. -/
theorem failed_patch_persists_nothing_witness :
    ((samplePeerOn "x" 100 5).PerformParamsPatch pairTables
        (fun _ => .ok (sampleParams 200 5)) (fun _ => none)).1 = pairTables :=
  failed_patch_persists_nothing (samplePeerOn "x" 100 5) pairTables
    ((samplePeerOn "x" 100 5).PerformParamsPatch pairTables
        (fun _ => .ok (sampleParams 200 5)) (fun _ => none)).1
    (fun _ => .ok (sampleParams 200 5)) (fun _ => none)
    (.ConflictError "peer lbagent %s(%s) already has vrrp priority %d" ["p", "p", "200"])
    (by intro id err h; cases h) rfl (Or.inr rfl)

/-- C16 (code defect): the patch is not a partial override. The agent stores the
advertisement interval 3, the password `s3cret`, 4 haproxy threads and no HTTP log; a
valid patch whose payload holds only the VRRP priority succeeds and persists the priority
together with the create-time defaults `1`, `YunionLB`, `1` and `true` for these four
fields, whose keys are absent from the payload. -/
theorem patch_resets_absent_fields_to_defaults :
    (priorityPayload 150).vrrp.advert_int = none ∧
    (priorityPayload 150).vrrp.pass = none ∧
    (priorityPayload 150).haproxy.global_nbthread = none ∧
    (priorityPayload 150).haproxy.log_http = none ∧
    tunedAgent.Params = some tunedParams ∧
    (tunedParams.Vrrp.AdvertInt = 3 ∧ tunedParams.Vrrp.Pass = "s3cret" ∧
      tunedParams.Haproxy.GlobalNbthread = 4 ∧ tunedParams.Haproxy.LogHttp = false) ∧
    (priorityPayload 150).Unmarshal tunedParams =
      { tunedParams with Vrrp := { tunedParams.Vrrp with Priority := 150 } } ∧
    tunedAgent.PerformParamsPatch (Tables.mk [tunedAgent] [sampleCluster])
        (paramsStructValidator sampleEnv (priorityPayload 150)) (fun _ => none) =
      (Tables.mk [{ tunedAgent with Params := some tunedParamsAfterPatch }] [sampleCluster],
        .ok ()) ∧
    (tunedParamsAfterPatch.Vrrp.AdvertInt = 1 ∧ tunedParamsAfterPatch.Vrrp.Pass = "YunionLB" ∧
      tunedParamsAfterPatch.Haproxy.GlobalNbthread = 1 ∧
      tunedParamsAfterPatch.Haproxy.LogHttp = true) :=
  ⟨rfl, rfl, rfl, rfl, rfl, by decide, rfl, rfl, by decide⟩

/-! ## The haproxy and telegraf blocks: claims C21 and C22 -/

/-- C21: for every haproxy block, `Haproxy.Validate` returns no error and leaves
`globalNbthread` equal to its input clamped into `[1,64]` and `tuneHttpMaxhdr` equal to its
input clamped into `[0,32767]`, every other haproxy field being unchanged. -/
theorem Haproxy_Validate_clamps (p : SLoadbalancerAgentParamsHaproxy) :
    p.Validate.2 = none ∧
    p.Validate.1 =
      { p with
        GlobalNbthread := max 1 (min 64 p.GlobalNbthread)
        TuneHttpMaxhdr := max 0 (min 32767 p.TuneHttpMaxhdr) } := by
  refine ⟨rfl, ?_⟩
  unfold SLoadbalancerAgentParamsHaproxy.Validate
  have hn : (if (if p.GlobalNbthread < 1 then (1 : Int) else p.GlobalNbthread) > 64 then 64
      else (if p.GlobalNbthread < 1 then 1 else p.GlobalNbthread)) =
      max 1 (min 64 p.GlobalNbthread) := by
    split_ifs <;> omega
  have ht : (if (if p.TuneHttpMaxhdr < 0 then (0 : Int) else p.TuneHttpMaxhdr) > 32767 then 32767
      else (if p.TuneHttpMaxhdr < 0 then 0 else p.TuneHttpMaxhdr)) =
      max 0 (min 32767 p.TuneHttpMaxhdr) := by
    split_ifs <;> omega
  rw [← hn, ← ht]
  by_cases h1 : p.GlobalNbthread < 1 <;> by_cases h2 : p.GlobalNbthread > 64 <;>
    by_cases h3 : p.TuneHttpMaxhdr < 0 <;> by_cases h4 : p.TuneHttpMaxhdr > 32767 <;>
    simp [h1, h2, h3, h4]

/-- C22: for every telegraf block, `Telegraf.Validate` returns an error exactly when
`influxDbOutputUrl` is non-empty and does not parse as a URL, and then leaves the block as
it is; when it returns no error, `haproxyInputInterval` is afterwards `> 0` and
`influxDbOutputName` is non-empty: a positive interval and a non-empty name are kept,
otherwise they become `5` and `"telegraf"`, and the two other fields are unchanged. -/
theorem Telegraf_Validate_spec (env : Env) (p : SLoadbalancerAgentParamsTelegraf) :
    (((p.Validate env).2 ≠ none ↔
        (p.InfluxDbOutputUrl ≠ "" ∧ env.urlParse p.InfluxDbOutputUrl ≠ none)) ∧
      (∀ e, (p.Validate env).2 = some e → e.isInputParameter = true ∧ (p.Validate env).1 = p)) ∧
    ((p.Validate env).2 = none →
      (0 < (p.Validate env).1.HaproxyInputInterval ∧
        (p.Validate env).1.InfluxDbOutputName ≠ "" ∧
        (p.Validate env).1.HaproxyInputInterval =
          (if 0 < p.HaproxyInputInterval then p.HaproxyInputInterval else 5) ∧
        (p.Validate env).1.InfluxDbOutputName =
          (if p.InfluxDbOutputName ≠ "" then p.InfluxDbOutputName else "telegraf") ∧
        (p.Validate env).1.InfluxDbOutputUrl = p.InfluxDbOutputUrl ∧
        (p.Validate env).1.InfluxDbOutputUnsafeSsl = p.InfluxDbOutputUnsafeSsl)) := by
  unfold SLoadbalancerAgentParamsTelegraf.Validate
  by_cases hu : p.InfluxDbOutputUrl = ""
  · simp only [hu, ne_eq, not_true_eq_false, if_false, false_and, iff_false, not_not]
    by_cases hi : p.HaproxyInputInterval ≤ 0 <;> by_cases hn : p.InfluxDbOutputName = "" <;>
      simp [hi, hn, hu] <;> omega
  · simp only [ne_eq, hu, not_false_eq_true, if_true, true_and]
    cases hparse : env.urlParse p.InfluxDbOutputUrl with
    | some err =>
      simp only [reduceCtorEq, not_false_eq_true, iff_true, Option.some.injEq, false_implies,
        and_true]
      refine ⟨trivial, fun e he => ?_⟩
      rw [← he]
      rfl
    | none =>
      by_cases hi : p.HaproxyInputInterval ≤ 0 <;> by_cases hn : p.InfluxDbOutputName = "" <;>
        simp [hi, hn] <;> omega

/-- C22 witness: with the stand-in library, the block with the URL `"::"` is rejected and
left as it is, and the block without URL validates to the interval `5` and the name
`"telegraf"`. -/
theorem Telegraf_Validate_spec_witness :
    (∃ e, ((blankTelegraf "::").Validate sampleEnv).2 = some e ∧ e.isInputParameter = true ∧
      ((blankTelegraf "::").Validate sampleEnv).1 = blankTelegraf "::") ∧
    (0 < ((blankTelegraf "").Validate sampleEnv).1.HaproxyInputInterval ∧
      ((blankTelegraf "").Validate sampleEnv).1.InfluxDbOutputName ≠ "" ∧
      ((blankTelegraf "").Validate sampleEnv).1.HaproxyInputInterval =
        (if 0 < (blankTelegraf "").HaproxyInputInterval then
          (blankTelegraf "").HaproxyInputInterval else 5) ∧
      ((blankTelegraf "").Validate sampleEnv).1.InfluxDbOutputName =
        (if (blankTelegraf "").InfluxDbOutputName ≠ "" then
          (blankTelegraf "").InfluxDbOutputName else "telegraf") ∧
      ((blankTelegraf "").Validate sampleEnv).1.InfluxDbOutputUrl =
        (blankTelegraf "").InfluxDbOutputUrl ∧
      ((blankTelegraf "").Validate sampleEnv).1.InfluxDbOutputUnsafeSsl =
        (blankTelegraf "").InfluxDbOutputUnsafeSsl) :=
  ⟨⟨_, rfl, (Telegraf_Validate_spec sampleEnv (blankTelegraf "::")).1.2 _ rfl⟩,
   (Telegraf_Validate_spec sampleEnv (blankTelegraf "")).2 rfl⟩

/-! ## Peer propagation helpers: claims C24, C25 and C28 -/

/-- C24: for every two VRRP blocks `old` and `new`, `needsUpdatePeer(old, new)` is true if
and only if they differ in at least one of `virtualRouterId`, `advertInt`, `preempt` and
`authPass`; replacing `priority`, `interface` and `garpMasterRefresh` in either block by
any other values does not change the result, so a difference in these alone gives
false. -/
theorem needsUpdatePeer_iff (old new : SLoadbalancerAgentParamsVrrp) :
    (old.needsUpdatePeer new = true ↔
      (old.VirtualRouterId ≠ new.VirtualRouterId ∨ old.AdvertInt ≠ new.AdvertInt ∨
        old.Preempt ≠ new.Preempt ∨ old.Pass ≠ new.Pass)) ∧
    (∀ (q1 q2 g1 g2 : Int) (i1 i2 : String),
      ({ old with Priority := q1, Interface := i1, GarpMasterRefresh := g1 }).needsUpdatePeer
          { new with Priority := q2, Interface := i2, GarpMasterRefresh := g2 } =
        old.needsUpdatePeer new) ∧
    (∀ (q g : Int) (i : String),
      old.needsUpdatePeer { old with Priority := q, Interface := i, GarpMasterRefresh := g } =
        false) := by
  refine ⟨?_, fun _ _ _ _ _ _ => rfl, fun _ _ _ => ?_⟩
  · unfold SLoadbalancerAgentParamsVrrp.needsUpdatePeer
    by_cases h1 : old.VirtualRouterId = new.VirtualRouterId <;>
      by_cases h2 : old.AdvertInt = new.AdvertInt <;>
      by_cases h3 : old.Preempt = new.Preempt <;>
      by_cases h4 : old.Pass = new.Pass <;> simp [h1, h2, h3, h4]
  · simp [SLoadbalancerAgentParamsVrrp.needsUpdatePeer]

/-- C25: for every two VRRP blocks `p` and `pp`, after `p.updateBy(pp)` the
`virtualRouterId`, `advertInt`, `preempt` and `authPass` of `p` are those of `pp`, and the
`priority`, `interface` and `garpMasterRefresh` of `p` are unchanged; `pp` is only read
(the method assigns to fields of its receiver alone, which is why the embedding returns
the receiver only). -/
theorem updateBy_frame (p pp : SLoadbalancerAgentParamsVrrp) :
    ((p.updateBy pp).VirtualRouterId = pp.VirtualRouterId ∧
      (p.updateBy pp).AdvertInt = pp.AdvertInt ∧
      (p.updateBy pp).Preempt = pp.Preempt ∧
      (p.updateBy pp).Pass = pp.Pass) ∧
    ((p.updateBy pp).Priority = p.Priority ∧
      (p.updateBy pp).Interface = p.Interface ∧
      (p.updateBy pp).GarpMasterRefresh = p.GarpMasterRefresh) :=
  ⟨⟨rfl, rfl, rfl, rfl⟩, ⟨rfl, rfl, rfl⟩⟩

/-- C28: for every two VRRP blocks `p` and `pp`, after `p.updateBy(pp)` the test
`needsUpdatePeer` of the updated block against `pp` is false, the peer check of the
updated block against `pp` succeeds if and only if the priority of `p` differs from the
priority of `pp`, and a second `updateBy(pp)` changes nothing. -/
theorem updateBy_then_peer_checks (p pp : SLoadbalancerAgentParamsVrrp) :
    (p.updateBy pp).needsUpdatePeer pp = false ∧
    ((p.updateBy pp).validatePeer pp = .ok () ↔ p.Priority ≠ pp.Priority) ∧
    (p.updateBy pp).updateBy pp = p.updateBy pp := by
  refine ⟨?_, ?_, rfl⟩
  · simp [SLoadbalancerAgentParamsVrrp.needsUpdatePeer, SLoadbalancerAgentParamsVrrp.updateBy]
  · unfold SLoadbalancerAgentParamsVrrp.validatePeer SLoadbalancerAgentParamsVrrp.updateBy
    by_cases h : p.Priority = pp.Priority
    · simp [h]
    · simp [h]

/-! ## The cut-off of the sweep: claim C29 -/

/-- C29: for every sweep, every kind `k` and every list of agents, the cut-off used to
select records is never later than the clock reading of the sweep, so no record whose
`pendingDeletedAt` is at or after this reading is selected; and when some agent is active
and no active agent reported a timestamp earlier than the clock reading (the minimum of
the reported timestamps is not earlier than it), the kind is skipped. -/
theorem sweep_cutoff_not_after_clock (agents : List SLoadbalancerAgent) (t0 : Time)
    (now : Kind → Time) (tables : Kind → List Record) (k : Kind) :
    (∀ minT rows, CleanPendingDeleteLoadbalancers agents t0 now tables k = .purge minT rows →
      minT ≤ now k) ∧
    (∀ r ∈ (CleanPendingDeleteLoadbalancers agents t0 now tables k).selected,
      ∃ t, r.PendingDeletedAt = some t ∧ t < now k) ∧
    (activeAgents agents t0 ≠ [] →
      (∀ a ∈ activeAgents agents t0, ∀ t, a.GetTime k = some t → now k ≤ t) →
      CleanPendingDeleteLoadbalancers agents t0 now tables k = .skipped) := by
  have hle : minSeen (activeAgents agents t0) k (now k) ≤ now k := minSeen_le_init _ k _
  refine ⟨?_, ?_, ?_⟩
  · intro minT rows h
    unfold CleanPendingDeleteLoadbalancers at h
    by_cases hne : activeAgents agents t0 = []
    · rw [hne, sweepKind_nil] at h
      cases h
      exact le_refl _
    · rw [sweepKind_of_ne_nil _ _ _ _ hne] at h
      by_cases heq : minSeen (activeAgents agents t0) k (now k) = now k
      · rw [if_pos heq] at h
        cases h
      · rw [if_neg heq] at h
        cases h
        exact hle
  · intro r hr
    unfold CleanPendingDeleteLoadbalancers at hr
    rw [mem_selected_sweepKind, mem_pendingDeletedBefore] at hr
    obtain ⟨_, _, _, t, ht, hlt⟩ := hr
    exact ⟨t, ht, lt_of_lt_of_le hlt hle⟩
  · intro hne hall
    unfold CleanPendingDeleteLoadbalancers
    rw [sweepKind_of_ne_nil _ _ _ _ hne]
    have heq : minSeen (activeAgents agents t0) k (now k) = now k := by
      rcases minSeen_eq_init_or_mem (activeAgents agents t0) k (now k) with h | ⟨a, ha, h⟩
      · exact h
      · exact le_antisymm hle (hall a ha _ h)
    rw [if_pos heq]

/-- C29 witness: two active agents that reported `100` and `120`, clock at `100`: the kind
is skipped. -/
theorem sweep_cutoff_not_after_clock_witness :
    CleanPendingDeleteLoadbalancers [sampleAgent "a" 90 100, sampleAgent "b" 90 120] 100
        (fun _ => 100) (fun _ => [sampleRecord "r" 10]) Kind.loadbalancers = .skipped :=
  (sweep_cutoff_not_after_clock [sampleAgent "a" 90 100, sampleAgent "b" 90 120] 100
    (fun _ => 100) (fun _ => [sampleRecord "r" 10]) Kind.loadbalancers).2.2 (by decide)
    (by decide)

/-! ## Unset params: claim C23 -/

/-- C23 (code defect): a missing parameter set is dereferenced. The agent `n` of cluster
`c1` has unset params (a nil `Params` pointer). A parameter patch applied to `n`, the
creation of an agent in `c1`, and a patch of its peer `x` that changes the priority all
end in a nil-pointer panic instead of succeeding or returning a typed error. -/
theorem unset_params_are_dereferenced :
    (sampleAgent "n" 0 0).Params = none ∧
    sampleAgent "n" 0 0 ∈ unsetPeerTables.agents ∧
    (sampleAgent "n" 0 0).PerformParamsPatch unsetPeerTables
        (paramsStructValidator sampleEnv (priorityPayload 150)) (fun _ => none) =
      (unsetPeerTables, .error (.panic "invalid memory address or nil pointer dereference")) ∧
    ValidateCreateData unsetPeerTables (.ok (sampleCluster, sampleParams 150 5)) (.ok ()) =
      .error (.panic "invalid memory address or nil pointer dereference") ∧
    (samplePeerOn "x" 100 5).PerformParamsPatch unsetPeerTables
        (fun _ => .ok (sampleParams 150 5)) (fun _ => none) =
      (unsetPeerTables, .error (.panic "invalid memory address or nil pointer dereference")) :=
  ⟨rfl, by decide, rfl, rfl, rfl⟩

/-! ## Order of the checks of `Validate`: claim C26 -/

theorem Vrrp_Validate_fst (p : SLoadbalancerAgentParamsVrrp) : p.Validate.1 = p := by
  unfold SLoadbalancerAgentParamsVrrp.Validate
  split_ifs <;> rfl

theorem Haproxy_Validate_snd (p : SLoadbalancerAgentParamsHaproxy) : p.Validate.2 = none := rfl

theorem Telegraf_Validate_fst_of_error (env : Env) (p : SLoadbalancerAgentParamsTelegraf)
    (e : Error) (h : (p.Validate env).2 = some e) : (p.Validate env).1 = p := by
  unfold SLoadbalancerAgentParamsTelegraf.Validate at h ⊢
  cases hm : (if p.InfluxDbOutputUrl ≠ "" then env.urlParse p.InfluxDbOutputUrl else none) with
  | some err => rfl
  | none =>
    rw [hm] at h
    simp at h

/-- C26 (as stated) fails: the payload holds no key at all, the default haproxy template
is valid, and the haproxy template of the parameter set is `"!"`; `Validate` checks the
value the field holds, not its default, and returns the error of the haproxy template.
In the same way the telegraf interval `7` of `intervalParams`, whose key is absent from the
payload, is validated and kept as `7`, not as the default `5`. -/
theorem Validate_checks_held_value_of_absent_field :
    (emptyPayload.haproxy_conf_tmpl = none ∧
      validateTmpl sampleEnv "haproxy_conf_tmpl"
        sampleEnv.loadbalancerHaproxyConfTmplDefaultEncoded = none ∧
      (brokenParams.Validate sampleEnv emptyPayload).2 =
        some (.InputParameterError "%s: bad base64 encoded string: %s"
          ["haproxy_conf_tmpl", "illegal base64 data at input byte 0"])) ∧
    (emptyPayload.telegraf.haproxy_input_interval = none ∧
      (intervalParams.Validate sampleEnv emptyPayload).2 = none ∧
      (intervalParams.Validate sampleEnv emptyPayload).1.Telegraf.HaproxyInputInterval = 7) := by
  decide

/-- C26 (amended): for every parameter set `p` and payload, `ParamSet.Validate` first
applies `initDefault`, which makes of `p` the set `q`: a template that is empty becomes the
default template; the vrrp fields `advert_int`, `garp_master_refresh`, `pass` and the
haproxy fields `global_nbthread`, `global_log`, `log_http`, `log_normal` take their default
when their key is absent from the payload; the telegraf fields `influx_db_output_url`,
`haproxy_input_interval`, `influx_db_output_name` take their default when they hold the
zero value; every other field stays as it is. `Validate` then runs its checks on `q` in
the order keepalived template, haproxy template, telegraf template, vrrp, haproxy,
telegraf. It returns the error of the first check that fails, the later checks not having
run (the set returned is `q` itself, or `q` with the haproxy block clamped when the
telegraf check is the one that fails); and it returns no error if and only if every check
passes, the set returned being then `q` with the haproxy and telegraf blocks as their
checks leave them. -/
theorem Validate_defaults_then_runs_checks_in_order (env : Env)
    (p q : SLoadbalancerAgentParams) (data : ParamsPayload) (hq : q = p.initDefault env data) :
    q =
      { KeepalivedConfTmpl :=
          if p.KeepalivedConfTmpl = "" then env.loadbalancerKeepalivedConfTmplDefaultEncoded
          else p.KeepalivedConfTmpl
        HaproxyConfTmpl :=
          if p.HaproxyConfTmpl = "" then env.loadbalancerHaproxyConfTmplDefaultEncoded
          else p.HaproxyConfTmpl
        TelegrafConfTmpl :=
          if p.TelegrafConfTmpl = "" then env.loadbalancerTelegrafConfTmplDefaultEncoded
          else p.TelegrafConfTmpl
        Vrrp :=
          { p.Vrrp with
            AdvertInt := if data.vrrp.advert_int.isSome then p.Vrrp.AdvertInt else 1
            GarpMasterRefresh :=
              if data.vrrp.garp_master_refresh.isSome then p.Vrrp.GarpMasterRefresh else 27
            Pass := if data.vrrp.pass.isSome then p.Vrrp.Pass else "YunionLB" }
        Haproxy :=
          { p.Haproxy with
            GlobalNbthread :=
              if data.haproxy.global_nbthread.isSome then p.Haproxy.GlobalNbthread else 1
            GlobalLog :=
              if data.haproxy.global_log.isSome then p.Haproxy.GlobalLog
              else "log /dev/log local0 info"
            LogHttp := if data.haproxy.log_http.isSome then p.Haproxy.LogHttp else true
            LogNormal := if data.haproxy.log_normal.isSome then p.Haproxy.LogNormal else true }
        Telegraf :=
          { p.Telegraf with
            InfluxDbOutputUrl :=
              if p.Telegraf.InfluxDbOutputUrl = "" then env.serviceURL
              else p.Telegraf.InfluxDbOutputUrl
            HaproxyInputInterval :=
              if p.Telegraf.HaproxyInputInterval = 0 then 5
              else p.Telegraf.HaproxyInputInterval
            InfluxDbOutputName :=
              if p.Telegraf.InfluxDbOutputName = "" then "telegraf"
              else p.Telegraf.InfluxDbOutputName } } ∧
    (∀ e, validateTmpl env "keepalived_conf_tmpl" q.KeepalivedConfTmpl = some e →
      p.Validate env data = (q, some e)) ∧
    (validateTmpl env "keepalived_conf_tmpl" q.KeepalivedConfTmpl = none →
      ∀ e, validateTmpl env "haproxy_conf_tmpl" q.HaproxyConfTmpl = some e →
      p.Validate env data = (q, some e)) ∧
    (validateTmpl env "keepalived_conf_tmpl" q.KeepalivedConfTmpl = none →
      validateTmpl env "haproxy_conf_tmpl" q.HaproxyConfTmpl = none →
      ∀ e, validateTmpl env "telegraf_conf_tmpl" q.TelegrafConfTmpl = some e →
      p.Validate env data = (q, some e)) ∧
    (validateTmpl env "keepalived_conf_tmpl" q.KeepalivedConfTmpl = none →
      validateTmpl env "haproxy_conf_tmpl" q.HaproxyConfTmpl = none →
      validateTmpl env "telegraf_conf_tmpl" q.TelegrafConfTmpl = none →
      ∀ e, q.Vrrp.Validate.2 = some e →
      p.Validate env data = (q, some e)) ∧
    (validateTmpl env "keepalived_conf_tmpl" q.KeepalivedConfTmpl = none →
      validateTmpl env "haproxy_conf_tmpl" q.HaproxyConfTmpl = none →
      validateTmpl env "telegraf_conf_tmpl" q.TelegrafConfTmpl = none →
      q.Vrrp.Validate.2 = none →
      ∀ e, q.Haproxy.Validate.2 = some e →
      p.Validate env data = ({ q with Haproxy := q.Haproxy.Validate.1 }, some e)) ∧
    (validateTmpl env "keepalived_conf_tmpl" q.KeepalivedConfTmpl = none →
      validateTmpl env "haproxy_conf_tmpl" q.HaproxyConfTmpl = none →
      validateTmpl env "telegraf_conf_tmpl" q.TelegrafConfTmpl = none →
      q.Vrrp.Validate.2 = none →
      q.Haproxy.Validate.2 = none →
      ∀ e, (q.Telegraf.Validate env).2 = some e →
      p.Validate env data = ({ q with Haproxy := q.Haproxy.Validate.1 }, some e)) ∧
    ((p.Validate env data).2 = none ↔
      (validateTmpl env "keepalived_conf_tmpl" q.KeepalivedConfTmpl = none ∧
        validateTmpl env "haproxy_conf_tmpl" q.HaproxyConfTmpl = none ∧
        validateTmpl env "telegraf_conf_tmpl" q.TelegrafConfTmpl = none ∧
        q.Vrrp.Validate.2 = none ∧
        q.Haproxy.Validate.2 = none ∧
        (q.Telegraf.Validate env).2 = none)) ∧
    ((p.Validate env data).2 = none →
      (p.Validate env data).1 =
        { q with Haproxy := q.Haproxy.Validate.1, Telegraf := (q.Telegraf.Validate env).1 }) := by
  refine ⟨?_, ?_⟩
  · rw [hq, Params_initDefault_eq, Vrrp_initDefault_eq, Haproxy_initDefault_eq,
      Telegraf_initDefault_eq]
  subst hq
  unfold SLoadbalancerAgentParams.Validate
  simp only
  generalize p.initDefault env data = q
  cases h1 : validateTmpl env "keepalived_conf_tmpl" q.KeepalivedConfTmpl with
  | some e1 => simp
  | none =>
    cases h2 : validateTmpl env "haproxy_conf_tmpl" q.HaproxyConfTmpl with
    | some e2 => simp
    | none =>
      cases h3 : validateTmpl env "telegraf_conf_tmpl" q.TelegrafConfTmpl with
      | some e3 => simp
      | none =>
        have hv1 := Vrrp_Validate_fst q.Vrrp
        cases hv : q.Vrrp.Validate with
        | mk vrrp verr =>
          rw [hv] at hv1
          simp only at hv1
          subst hv1
          cases verr with
          | some e4 => simp
          | none =>
            have hh2 := Haproxy_Validate_snd q.Haproxy
            cases hh : q.Haproxy.Validate with
            | mk haproxy herr =>
              rw [hh] at hh2
              simp only at hh2
              subst hh2
              cases ht : q.Telegraf.Validate env with
              | mk telegraf terr =>
                cases terr with
                | some e6 =>
                  have hfst := Telegraf_Validate_fst_of_error env q.Telegraf e6 (by rw [ht])
                  rw [ht] at hfst
                  simp only at hfst
                  subst hfst
                  simp
                | none => simp

/-- C26 (amended) witness: the haproxy template of `brokenParams` is not base64 and its
VRRP priority is out of range; `Validate` returns the error of the haproxy template, the
earlier of the two checks. -/
theorem Validate_defaults_then_runs_checks_in_order_witness :
    brokenParams.Validate sampleEnv emptyPayload =
      (brokenParams.initDefault sampleEnv emptyPayload,
        some (.InputParameterError "%s: bad base64 encoded string: %s"
          ["haproxy_conf_tmpl", "illegal base64 data at input byte 0"])) :=
  (Validate_defaults_then_runs_checks_in_order sampleEnv brokenParams
    (brokenParams.initDefault sampleEnv emptyPayload) emptyPayload rfl).2.2.1 rfl _ rfl

/-! ## Failing peer update: claim C27 -/

end LbAgent
